import Mathlib

/-!
# gorender: sampler and raycaster

A shallow embedding of `internal/sampler/sampler.go` and
`src/raycaster/raycaster.go`.

Conventions of the embedding.

* Go `float64` values are exact rationals (`ℚ`): the theorems are about the
  formulas the code computes, not about binary rounding, infinities or NaN.
* Go `int` values that are sizes or counts (`width`, `height`, `accuracy`,
  loop indices) are natural numbers, signed ones (`depth`, `shadowLength`,
  `Occlusion`) are integers.  The arithmetic on them is exact: products such
  as `accuracy*accuracy` are assumed to fit the machine word.
* A Go slice is a `List`; a slice that may be `nil` and is tested against
  `nil` is an `Option (List _)`.
* A run-time panic (index out of range) and an exhausted step budget of an
  unbounded `for` loop are the two values of `Fault`; the functions that can
  hit either return `Except Fault _`.
* `math/rand` is a stream of raw draws together with a read position.
* The `geometry`, `manifest` and `voxelobject` packages and the other files
  of the `raycaster` package are not part of the sources at hand.  Their
  value types and the plain vector arithmetic are modelled from the
  specification; the functions whose bodies are unknown (`castFpRay`,
  `Normalise`, the viewport and direction helpers) are fields of the
  structure `Deps`, over which the raycaster is parametric.  For the
  properties of the geometry kernel itself, `Vector3.Normalise` and
  `Vector3.Lerp` are modelled from the specification and the tests of
  `vector3_test.go`, with the rational square root as `math.Sqrt`.
* `math.Cos`, `math.Sin` and `degToRad` are fields of the structure
  `MathDeps`, functions on exact values.
* `GetRaycastOutput` runs its goroutines in ascending column order;
  `GetRaycastOutputParallel` runs their statements (a column allocation, a
  cell allocation or one `raycastSample` call, each atomic on the shared
  buffer) in the order of an arbitrary schedule.
-/

namespace Gorender

/-! ## Geometry values -/

/-- Modelled from the spec: the type `geometry.Vector2`, an immutable value
holding two floating-point components. -/
structure Vector2 where
  X : ℚ
  Y : ℚ
deriving DecidableEq

/-- Modelled from the spec: the type `geometry.Vector3`, an immutable value
holding three floating-point components. -/
structure Vector3 where
  X : ℚ
  Y : ℚ
  Z : ℚ
deriving DecidableEq

/-- Modelled from the spec: `Vector2.Add`, component-wise addition. -/
def Vector2.Add (a b : Vector2) : Vector2 :=
  { X := a.X + b.X, Y := a.Y + b.Y }

/-- Modelled from the spec: `Vector2.DivideByVector`, component-wise division. -/
def Vector2.DivideByVector (a b : Vector2) : Vector2 :=
  { X := a.X / b.X, Y := a.Y / b.Y }

/-- Modelled from the spec: `Vector2.LengthSquared`, the squared length. -/
def Vector2.LengthSquared (a : Vector2) : ℚ :=
  a.X * a.X + a.Y * a.Y

/-- Modelled from the spec: `Vector2.DistanceSquared`, the squared distance. -/
def Vector2.DistanceSquared (a b : Vector2) : ℚ :=
  (a.X - b.X) * (a.X - b.X) + (a.Y - b.Y) * (a.Y - b.Y)

/-- Modelled from the spec: `geometry.Zero`, the zero vector (the test
`TestZero` expects `Vector3{0, 0, 0}`). -/
def Zero : Vector3 :=
  { X := 0, Y := 0, Z := 0 }

/-- Modelled from the spec: `Vector3.Add`, component-wise addition. -/
def Vector3.Add (a b : Vector3) : Vector3 :=
  { X := a.X + b.X, Y := a.Y + b.Y, Z := a.Z + b.Z }

/-- Modelled from the spec: `Vector3.Subtract`, component-wise subtraction. -/
def Vector3.Subtract (a b : Vector3) : Vector3 :=
  { X := a.X - b.X, Y := a.Y - b.Y, Z := a.Z - b.Z }

/-- Modelled from the spec: `Vector3.MultiplyByConstant`, scalar multiply. -/
def Vector3.MultiplyByConstant (a : Vector3) (c : ℚ) : Vector3 :=
  { X := a.X * c, Y := a.Y * c, Z := a.Z * c }

/-- Modelled from the spec: `Vector3.Dot`, the dot product (the test
`TestVector3_Dot` expects `(1,2,1) . (2,1,4) = 8`). -/
def Vector3.Dot (a b : Vector3) : ℚ :=
  a.X * b.X + a.Y * b.Y + a.Z * b.Z

/-- Modelled from the spec: `Vector3.Equals`, equality of all three
components. -/
def Vector3.Equals (a b : Vector3) : Bool :=
  decide (a.X = b.X) && decide (a.Y = b.Y) && decide (a.Z = b.Z)

/-! ## Raycaster data model (`raycaster.go`, lines 12-29) -/

/-- Modelled from the spec: the type `voxelobject.ProcessedElement`, with the
four fields `setResult` reads. -/
structure ProcessedElement where
  Index : Nat
  Normal : Vector3
  AveragedNormal : Vector3
  Occlusion : Int
deriving DecidableEq

/-- The `RenderSample` struct. -/
structure RenderSample where
  Collision : Bool
  Index : Nat
  Normal : Vector3
  AveragedNormal : Vector3
  Depth : Int
  Occlusion : Int
  LightAmount : ℚ
  Shadowing : ℚ
deriving DecidableEq

/-- The zero value of `RenderSample`, which `make(RenderInfo, n)` stores in
every slot. -/
def RenderSample.zero : RenderSample :=
  { Collision := false, Index := 0, Normal := Zero, AveragedNormal := Zero,
    Depth := 0, Occlusion := 0, LightAmount := 0, Shadowing := 0 }

/-- The `RayResult` struct. -/
structure RayResult where
  X : Nat
  Y : Nat
  Z : Nat
  HasGeometry : Bool
  Depth : Int
deriving DecidableEq

/-- The type `RenderInfo`, a slice of samples. -/
abbrev RenderInfo := List RenderSample

/-- The type `RenderOutput`: columns of rows of `RenderInfo`. -/
abbrev RenderOutput := List (List RenderInfo)

/-! ## `setResult` and `getLightingValue` (`raycaster.go`, lines 110-129) -/

/-- The function `getLightingValue`. -/
def getLightingValue (normal lighting : Vector3) : ℚ :=
  normal.Dot lighting

/-- The function `setResult`; the sample behind the pointer is passed in and
the updated sample is returned. -/
def setResult (result : RenderSample) (element : ProcessedElement) (lighting : Vector3)
    (depth : Int) (shadowLength : Int) : RenderSample :=
  let result :=
    if 0 < shadowLength ∧ shadowLength < 10 then
      { result with Shadowing := 1 }
    else if 0 < shadowLength ∧ shadowLength < 80 then
      { result with Shadowing := ((70 - (shadowLength - 10) : Int) : ℚ) / 80 }
    else
      result
  { result with
    Collision := true
    Index := element.Index
    Depth := depth
    LightAmount := getLightingValue element.AveragedNormal lighting
    Normal := element.Normal
    Occlusion := element.Occlusion
    AveragedNormal := element.AveragedNormal }

/-! ## Faults and slice indexing -/

/-- The two ways an embedded computation fails to return normally. -/
inductive Fault where
  | indexOutOfRange
  | outOfSteps
deriving DecidableEq

/-- Reading `xs[i]`: a panic when `i` is out of range. -/
def index {α : Type} (xs : List α) (i : Nat) : Except Fault α :=
  match xs[i]? with
  | some a => .ok a
  | none => .error .indexOutOfRange

/-- Writing `xs[i] = a`: a panic when `i` is out of range. -/
def store {α : Type} (xs : List α) (i : Nat) (a : α) : Except Fault (List α) :=
  if i < xs.length then .ok (xs.set i a) else .error .indexOutOfRange

/-! ## Values of the packages the raycaster imports -/

/-- Modelled from the spec: the integer size of a voxel volume (width,
height, depth), the type of `object.Size`. -/
structure Point3 where
  X : Int
  Y : Int
  Z : Int
deriving DecidableEq

/-- Modelled from the spec: the type `voxelobject.ProcessedVoxelObject`, a
volume with its integer size and the three-dimensional `Elements` slice that
`raycastSample` indexes. -/
structure ProcessedVoxelObject where
  Size : Point3
  Elements : List (List (List ProcessedElement))

/-- Modelled from the spec: the type `manifest.Manifest`, with the fields the
raycaster reads. -/
structure Manifest where
  Size : Vector3
  LightingAngle : Int
  LightingElevation : Int

/-- Modelled from the spec: the type `manifest.Sprite`, with the fields the
raycaster reads. -/
structure Sprite where
  Angle : ℚ
  Width : Int
  ZError : ℚ
  Flip : Bool

/-- Modelled from the spec: the type `geometry.Plane`, a rectangular region
given by its four effective corners. -/
structure Plane where
  A : Vector3
  B : Vector3
  C : Vector3
  D : Vector3

/-- The type `Sample` of `sampler.go`. -/
abbrev Sample := List Vector2

/-- The type `Samples` of `sampler.go`. -/
abbrev Samples := List (List Sample)

/-- The method `Samples.Width`. -/
def Samples.Width (s : Samples) : Nat :=
  s.length

/-- The method `Samples.Height`, `len(s[0])`: a panic on a grid without
columns. -/
def Samples.Height (s : Samples) : Except Fault Nat :=
  match index s 0 with
  | .ok column => .ok column.length
  | .error e => .error e

/-- The functions that `raycaster.go` calls and whose bodies are not in the
sources at hand; every definition below that needs one takes a `Deps`. -/
structure Deps where
  getViewportPlane : ℚ → Manifest → ℚ → Point3 → Plane
  getRenderDirection : ℚ → ℚ → Vector3
  getElevationAngle : Manifest → ℚ
  getLightingDirection : ℚ → ℚ → Bool → Vector3
  BiLerpWithinPlane : Plane → ℚ → ℚ → Vector3
  getIntersectionWithBounds : Vector3 → Vector3 → Vector3 → Vector3
  castFpRay : ProcessedVoxelObject → Vector3 → Vector3 → Vector3 → Vector3 → Bool → RayResult
  Normalise : Vector3 → Vector3

/-! ## `raycastSample` (`raycaster.go`, lines 87-108) -/

/-- The loop of lines 97-103: leave as soon as `shadowLoc` differs from
`resultVec`, otherwise advance by `shadowVec`.  The first argument bounds the
number of times the loop head is evaluated. -/
def biasLoop (resultVec shadowVec : Vector3) : Nat → Vector3 → Except Fault Vector3
  | 0, _ => .error .outOfSteps
  | fuel + 1, shadowLoc =>
    if !(shadowLoc.Equals resultVec) then .ok shadowLoc
    else biasLoop resultVec shadowVec fuel (shadowLoc.Add shadowVec)

/-- Reading `object.Elements[x][y][z]`. -/
def elementAt (object : ProcessedVoxelObject) (x y z : Nat) : Except Fault ProcessedElement := do
  let plane ← index object.Elements x
  let line ← index plane y
  index line z

/-- Reading `result[thisX][y][i]`. -/
def sampleAt (result : RenderOutput) (thisX y i : Nat) : Except Fault RenderSample := do
  let column ← index result thisX
  let cell ← index column y
  index cell i

/-- Writing through the pointer `&result[thisX][y][i]`. -/
def storeSample (result : RenderOutput) (thisX y i : Nat) (sample : RenderSample) :
    Except Fault RenderOutput := do
  let column ← index result thisX
  let cell ← index column y
  let cell ← store cell i sample
  let column ← store column y cell
  store result thisX column

/-- Lines 88-91 of `raycastSample`: the primary ray cast for the sample
offset `s`. -/
def primaryRay (d : Deps) (viewport : Plane) (s : Vector2) (ray limits : Vector3)
    (object : ProcessedVoxelObject) (spr : Sprite) : RayResult :=
  let loc0 := d.BiLerpWithinPlane viewport s.X s.Y
  let loc := d.getIntersectionWithBounds loc0 ray limits
  d.castFpRay object loc0 loc ray limits spr.Flip

/-- The function `raycastSample`.  The output buffer is passed in and the
updated buffer returned; `fuel` bounds the loop of lines 97-103. -/
def raycastSample (d : Deps) (viewport : Plane) (s : Vector2) (ray limits : Vector3)
    (object : ProcessedVoxelObject) (spr : Sprite) (lighting : Vector3)
    (result : RenderOutput) (thisX y i : Nat) (fuel : Nat) : Except Fault RenderOutput :=
  let rayResult := primaryRay d viewport s ray limits object spr
  if rayResult.HasGeometry then do
    let resultVec : Vector3 := { X := rayResult.X, Y := rayResult.Y, Z := rayResult.Z }
    let shadowVec := d.Normalise (Zero.Subtract lighting)
    let shadowLoc ← biasLoop resultVec shadowVec fuel resultVec
    let shadowResult := (d.castFpRay object shadowLoc shadowLoc shadowVec limits spr.Flip).Depth
    let sample ← sampleAt result thisX y i
    let element ← elementAt object rayResult.X rayResult.Y rayResult.Z
    storeSample result thisX y i (setResult sample element lighting rayResult.Depth shadowResult)
  else
    .ok result

/-! ## `GetRaycastOutput` (`raycaster.go`, lines 52-85) -/

/-- The loop of lines 74-76 over the samples of one cell, from index `i` on. -/
def sampleLoop (d : Deps) (viewport : Plane) (ray limits : Vector3)
    (object : ProcessedVoxelObject) (spr : Sprite) (lighting : Vector3) (thisX y : Nat)
    (fuel : Nat) : List Vector2 → Nat → RenderOutput → Except Fault RenderOutput
  | [], _, result => .ok result
  | s :: rest, i, result => do
    let result ← raycastSample d viewport s ray limits object spr lighting result thisX y i fuel
    sampleLoop d viewport ray limits object spr lighting thisX y fuel rest (i + 1) result

/-- The loop of lines 71-77 over the rows of one column: `remaining` rows are
left, the next one is `y`. -/
def rowLoop (d : Deps) (viewport : Plane) (ray limits : Vector3)
    (object : ProcessedVoxelObject) (spr : Sprite) (lighting : Vector3) (sampler : Samples)
    (thisX : Nat) (fuel : Nat) : Nat → Nat → RenderOutput → Except Fault RenderOutput
  | 0, _, result => .ok result
  | remaining + 1, y, result => do
    let sampleColumn ← index sampler thisX
    let samples ← index sampleColumn y
    let column ← index result thisX
    let column ← store column y (List.replicate samples.length RenderSample.zero)
    let result ← store result thisX column
    let result ← sampleLoop d viewport ray limits object spr lighting thisX y fuel samples 0 result
    rowLoop d viewport ray limits object spr lighting sampler thisX fuel remaining (y + 1) result

/-- The body of the goroutine of lines 69-79, the work done for column
`thisX`: allocate the column, then fill its `h` rows. -/
def renderColumn (d : Deps) (viewport : Plane) (ray limits : Vector3)
    (object : ProcessedVoxelObject) (spr : Sprite) (lighting : Vector3) (sampler : Samples)
    (h : Nat) (fuel : Nat) (result : RenderOutput) (thisX : Nat) : Except Fault RenderOutput := do
  let result ← store result thisX (List.replicate h [])
  rowLoop d viewport ray limits object spr lighting sampler thisX fuel h 0 result

/-- The columns of the loop of line 67, run one after the other in the order
given. -/
def renderColumns (d : Deps) (viewport : Plane) (ray limits : Vector3)
    (object : ProcessedVoxelObject) (spr : Sprite) (lighting : Vector3) (sampler : Samples)
    (h : Nat) (fuel : Nat) : List Nat → RenderOutput → Except Fault RenderOutput
  | [], result => .ok result
  | x :: xs, result => do
    let result ← renderColumn d viewport ray limits object spr lighting sampler h fuel result x
    renderColumns d viewport ray limits object spr lighting sampler h fuel xs result

/-- Line 54: the volume size as a vector. -/
def renderLimits (object : ProcessedVoxelObject) : Vector3 :=
  { X := object.Size.X, Y := object.Size.Y, Z := object.Size.Z }

/-- Line 56: the viewport plane of a render call. -/
def renderViewport (d : Deps) (object : ProcessedVoxelObject) (m : Manifest) (spr : Sprite) :
    Plane :=
  d.getViewportPlane spr.Angle m spr.ZError object.Size

/-- Line 57: the primary ray direction of a render call. -/
def renderRay (d : Deps) (m : Manifest) (spr : Sprite) : Vector3 :=
  Zero.Subtract (d.getRenderDirection spr.Angle (d.getElevationAngle m))

/-- Line 59: the light direction of a render call. -/
def renderLighting (d : Deps) (m : Manifest) (spr : Sprite) : Vector3 :=
  d.getLightingDirection (spr.Angle + m.LightingAngle) m.LightingElevation spr.Flip

/-- The function `GetRaycastOutput`, with the goroutines run in ascending
column order. -/
def GetRaycastOutput (d : Deps) (object : ProcessedVoxelObject) (m : Manifest) (spr : Sprite)
    (sampler : Samples) (fuel : Nat) : Except Fault RenderOutput := do
  let limits := renderLimits object
  let viewport := renderViewport d object m spr
  let ray := renderRay d m spr
  let lighting := renderLighting d m spr
  let result : RenderOutput := List.replicate sampler.length []
  let w := sampler.Width
  let h ← sampler.Height
  renderColumns d viewport ray limits object spr lighting sampler h fuel (List.range w) result

/-! ## What a completed render stores -/

/-- Line 105 of `raycastSample` when the loop of lines 97-103 has left after
one advance: the depth reported by the shadow ray cast from the collision
point plus one shadow step. -/
def shadowDepth (d : Deps) (limits : Vector3) (object : ProcessedVoxelObject) (spr : Sprite)
    (lighting : Vector3) (rayResult : RayResult) : Int :=
  let resultVec : Vector3 := { X := rayResult.X, Y := rayResult.Y, Z := rayResult.Z }
  let shadowVec := d.Normalise (Zero.Subtract lighting)
  let shadowLoc := resultVec.Add shadowVec
  (d.castFpRay object shadowLoc shadowLoc shadowVec limits spr.Flip).Depth

/-- The sample that a completed `raycastSample` leaves in a freshly allocated
slot for the offset `s`: the zero value on a miss, `setResult` of the zero
value on a hit. -/
def sampleValue (d : Deps) (viewport : Plane) (ray limits : Vector3)
    (object : ProcessedVoxelObject) (spr : Sprite) (lighting : Vector3) (s : Vector2) :
    RenderSample :=
  let rayResult := primaryRay d viewport s ray limits object spr
  if rayResult.HasGeometry then
    match elementAt object rayResult.X rayResult.Y rayResult.Z with
    | .ok element =>
      setResult RenderSample.zero element lighting rayResult.Depth
        (shadowDepth d limits object spr lighting rayResult)
    | .error _ => RenderSample.zero
  else RenderSample.zero

/-- The conditions under which `raycastSample` completes for the offset `s`:
on a hit the loop of lines 97-103 must leave within the step budget and the
hit voxel must index `object.Elements`. -/
def Completes (d : Deps) (viewport : Plane) (ray limits : Vector3)
    (object : ProcessedVoxelObject) (spr : Sprite) (lighting : Vector3) (fuel : Nat)
    (s : Vector2) : Prop :=
  (primaryRay d viewport s ray limits object spr).HasGeometry = true →
    2 ≤ fuel ∧ d.Normalise (Zero.Subtract lighting) ≠ Zero ∧
    ∃ element, elementAt object (primaryRay d viewport s ray limits object spr).X
      (primaryRay d viewport s ray limits object spr).Y
      (primaryRay d viewport s ray limits object spr).Z = .ok element

/-- A sample grid all of whose columns have `h` rows. -/
def Rectangular (sampler : Samples) (h : Nat) : Prop :=
  ∀ column ∈ sampler, column.length = h

/-! ## `Square` (`sampler.go`, lines 52-70) -/

/-- The `Vector2` literal of lines 60-63. -/
def squareOffset (width height accuracy : Nat) (overlap : ℚ) (i j k l : Nat) : Vector2 :=
  { X := (((i * accuracy : Nat) : ℚ) + (k : ℚ) * (1 + overlap)) / ((width * accuracy : Nat) : ℚ)
    Y := (((j * accuracy : Nat) : ℚ) + (l : ℚ) * (1 + overlap)) / ((height * accuracy : Nat) : ℚ) }

/-- The loop of lines 59-64 over `l`, writing `cell[l + k*accuracy]`. -/
def squareInner (width height accuracy : Nat) (overlap : ℚ) (i j k : Nat) (cell : Sample) :
    Sample :=
  (List.range accuracy).foldl
    (fun cell l => cell.set (l + k * accuracy) (squareOffset width height accuracy overlap i j k l))
    cell

/-- Lines 57-65: allocate `accuracy*accuracy` zero offsets, then run the
loops over `k` and `l`. -/
def squareCell (width height accuracy : Nat) (overlap : ℚ) (i j : Nat) : Sample :=
  (List.range accuracy).foldl
    (fun cell k => squareInner width height accuracy overlap i j k cell)
    (List.replicate (accuracy * accuracy) { X := 0, Y := 0 })

/-- The function `Square`. -/
def Square (width height accuracy : Nat) (overlap : ℚ) : Samples :=
  (List.range width).map fun i =>
    (List.range height).map fun j => squareCell width height accuracy overlap i j

/-! ## `math/rand` -/

/-- The state of the random source: the raw draws still to come and how many
have been consumed. -/
structure Rng where
  draws : Nat → Nat
  pos : Nat

/-- The call `rand.Intn(n)`: a value in `[0, n)` and the advanced source. -/
def Rng.Intn (r : Rng) (n : Nat) : Nat × Rng :=
  (r.draws r.pos % n, { r with pos := r.pos + 1 })

/-- The call `rand.Float64()`: a value in `[0, 1)`, a multiple of `2^-53`, and
the advanced source. -/
def Rng.Float64 (r : Rng) : ℚ × Rng :=
  (((r.draws r.pos % 2 ^ 53 : Nat) : ℚ) / 2 ^ 53, { r with pos := r.pos + 1 })

/-! ## `Disc` and `getPoissonDisc` (`sampler.go`, lines 72-136) -/

/-- The constant `discs`. -/
def discs : Nat := 10

/-- The process-wide state of the sampler: the variable `discCache` (`nil`
until the first call; a slot is `nil` until a disc is stored in it) and the
random source. -/
structure SamplerState where
  discCache : Option (List (Option (List Vector2)))
  rng : Rng

/-- The state of a process that has not called the sampler yet. -/
def SamplerState.fresh (draws : Nat → Nat) : SamplerState :=
  { discCache := none, rng := { draws := draws, pos := 0 } }

/-- The loop of lines 119-124: a trial is rejected at the first accepted
point `p` for which it is outside the radius or closer than the separation. -/
def trialValid (trial : Vector2) (radius distance : ℚ) : List Vector2 → Bool
  | [] => true
  | p :: rest =>
    if trial.LengthSquared > radius * radius ∨ trial.DistanceSquared p < distance then false
    else trialValid trial radius distance rest

/-- The proposal of line 118, drawing `X` first and `Y` second. -/
def nextTrial (radius : ℚ) (r : Rng) : Vector2 × Rng :=
  let x := r.Float64
  let y := x.2.Float64
  ({ X := (x.1 - 1 / 2) * 2 * radius, Y := (y.1 - 1 / 2) * 2 * radius }, y.2)

/-- The dart-throwing loop of lines 116-132 with `iterations` proposals left. -/
def dartLoop (numSamples : Nat) (distance radius : ℚ) :
    Nat → List Vector2 → Rng → List Vector2 × Rng
  | 0, disc, r => (disc, r)
  | iterations + 1, disc, r =>
    let t := nextTrial radius r
    if trialValid t.1 radius distance disc then
      let disc := disc ++ [t.1]
      if disc.length ≥ numSamples then (disc, t.2)
      else dartLoop numSamples distance radius iterations disc t.2
    else dartLoop numSamples distance radius iterations disc t.2

/-- Lines 106-132: the disc generated for an empty pool slot. -/
def generateDisc (accuracy : Nat) (overlap : ℚ) (r : Rng) : List Vector2 × Rng :=
  let numSamples := accuracy * accuracy
  let distance : ℚ := 1 / (accuracy : ℚ)
  let distance := distance * distance
  let radius : ℚ := 1 / 2 + overlap
  dartLoop numSamples distance radius (numSamples * 1000) [] r

/-- Lines 97-99: the pool as `getPoissonDisc` sees it, allocated with `discs`
empty slots when `discCache` is still `nil`. -/
def SamplerState.pool (st : SamplerState) : List (Option (List Vector2)) :=
  match st.discCache with
  | none => List.replicate discs none
  | some c => c

/-- The function `getPoissonDisc`.  The pool has `discs` slots once allocated
and `discNum < discs`, so neither index expression can be out of range. -/
def getPoissonDisc (accuracy : Nat) (overlap : ℚ) (st : SamplerState) :
    List Vector2 × SamplerState :=
  let cache := st.pool
  let n := st.rng.Intn discs
  match cache.getD n.1 none with
  | some disc => (disc, { discCache := some cache, rng := n.2 })
  | none =>
    let g := generateDisc accuracy overlap n.2
    (g.1, { discCache := some (cache.set n.1 (some g.1)), rng := g.2 })

/-- Lines 85-88: the disc scaled into the pixel at `loc`. -/
def discCell (scaleVec loc : Vector2) (disc : List Vector2) : Sample :=
  disc.map fun s => loc.Add (s.DivideByVector scaleVec)

/-- The loop of lines 81-89 over the rows of column `i`: `remaining` rows are
left, the next one is `j`. -/
def discRows (width height accuracy : Nat) (overlap : ℚ) (i : Nat) :
    Nat → Nat → SamplerState → List Sample × SamplerState
  | 0, _, st => ([], st)
  | remaining + 1, j, st =>
    let scaleVec : Vector2 := { X := width, Y := height }
    let loc : Vector2 := { X := (i : ℚ) / scaleVec.X, Y := (j : ℚ) / scaleVec.Y }
    let disc := getPoissonDisc accuracy overlap st
    let rest := discRows width height accuracy overlap i remaining (j + 1) disc.2
    (discCell scaleVec loc disc.1 :: rest.1, rest.2)

/-- The loop of lines 79-90 over the columns: `remaining` columns are left,
the next one is `i`. -/
def discColumns (width height accuracy : Nat) (overlap : ℚ) :
    Nat → Nat → SamplerState → Samples × SamplerState
  | 0, _, st => ([], st)
  | remaining + 1, i, st =>
    let column := discRows width height accuracy overlap i height 0 st
    let rest := discColumns width height accuracy overlap remaining (i + 1) column.2
    (column.1 :: rest.1, rest.2)

/-- The function `Disc`, returning the grid and the sampler state it leaves. -/
def Disc (width height accuracy : Nat) (overlap : ℚ) (st : SamplerState) :
    Samples × SamplerState :=
  discColumns width height accuracy overlap width 0 st

/-! ## Reading a grid -/

/-- Reading `grid[x][y][i]` without a panic: `none` when an index is out of
range. -/
def entryAt {α : Type} (grid : List (List (List α))) (x y i : Nat) : Option α :=
  match grid[x]? with
  | none => none
  | some column =>
    match column[y]? with
    | none => none
    | some cell => cell[i]?

/-- Reading `grid[x][y]` without a panic. -/
def cellAt {α : Type} (grid : List (List (List α))) (x y : Nat) : Option (List α) :=
  match grid[x]? with
  | none => none
  | some column => column[y]?

/-! ## A concrete scene

A one-voxel volume seen head-on: the ray through the offset `(0, 0)` hits the
voxel at depth 3, every other ray misses. -/

/-- The single element of the example volume. -/
def demoElement : ProcessedElement :=
  { Index := 7, Normal := { X := 0, Y := 0, Z := 1 },
    AveragedNormal := { X := 0, Y := 1, Z := 1 }, Occlusion := 2 }

/-- The example volume, one voxel large. -/
def demoObject : ProcessedVoxelObject :=
  { Size := { X := 1, Y := 1, Z := 1 }, Elements := [[[demoElement]]] }

/-- An instance of the missing functions for the example scene. -/
def demoDeps : Deps :=
  { getViewportPlane := fun _ _ _ _ => { A := Zero, B := Zero, C := Zero, D := Zero }
    getRenderDirection := fun _ _ => { X := 0, Y := 0, Z := 1 }
    getElevationAngle := fun _ => 30
    getLightingDirection := fun _ _ _ => { X := 0, Y := 0, Z := 1 }
    BiLerpWithinPlane := fun _ u v => { X := u, Y := v, Z := 0 }
    getIntersectionWithBounds := fun loc0 _ _ => loc0
    castFpRay := fun _ loc0 _ _ _ _ =>
      if loc0.X = 0 ∧ loc0.Y = 0 then { X := 0, Y := 0, Z := 0, HasGeometry := true, Depth := 3 }
      else { X := 0, Y := 0, Z := 0, HasGeometry := false, Depth := 0 }
    Normalise := fun v => v }

/-- The manifest of the example scene. -/
def demoManifest : Manifest :=
  { Size := { X := 1, Y := 1, Z := 1 }, LightingAngle := 0, LightingElevation := 0 }

/-- The sprite of the example scene. -/
def demoSprite : Sprite :=
  { Angle := 0, Width := 1, ZError := 0, Flip := false }

/-- A sample grid of one pixel with two sub-samples. -/
def demoGrid : Samples :=
  [[[{ X := 0, Y := 0 }, { X := 1 / 2, Y := 0 }]]]

/-! ## Predicates on sample grids and on the disc pool -/

/-- Every offset of the grid has both coordinates in `[0, 1)`. -/
def InUnitSquare (grid : Samples) : Prop :=
  ∀ column ∈ grid, ∀ cell ∈ column, ∀ s ∈ cell, 0 ≤ s.X ∧ s.X < 1 ∧ 0 ≤ s.Y ∧ s.Y < 1

/-- Both coordinates of the point lie in `[-r, r)`. -/
def WithinBox (r : ℚ) (p : Vector2) : Prop :=
  -r ≤ p.X ∧ p.X < r ∧ -r ≤ p.Y ∧ p.Y < r

/-- Every disc stored in the pool satisfies `Q`. -/
def PoolAll (Q : List Vector2 → Prop) (st : SamplerState) : Prop :=
  ∀ cache, st.discCache = some cache → ∀ disc, some disc ∈ cache → Q disc

/-- A stream of draws that is constantly zero. -/
def zeroDraws : Nat → Nat :=
  fun _ => 0

/-- A stream of draws whose first proposals are `(-1/2, 0)`, `(0, -1/2)`,
`(0, 31/64)` and `(31/64, 0)` when the radius is `1/2`. -/
def fourDraws : Nat → Nat :=
  fun n => [0, 0, 2 ^ 52, 2 ^ 52, 0, 2 ^ 52, 63 * 2 ^ 47, 63 * 2 ^ 47, 2 ^ 52].getD n 0

/-! ## More of the geometry kernel -/

/-- Modelled from the spec: `geometry.UnitX` (the test `TestUnitX` expects
`Vector3{1, 0, 0}`). -/
def UnitX : Vector3 :=
  { X := 1, Y := 0, Z := 0 }

/-- Modelled from the spec: `geometry.UnitY` (the test `TestUnitY` expects
`Vector3{0, 1, 0}`). -/
def UnitY : Vector3 :=
  { X := 0, Y := 1, Z := 0 }

/-- Modelled from the spec: `Vector3.DivideByConstant`, scalar divide (the test
`TestVector3_DivideByConstant` expects `(1,0,0) / 2 = (0.5,0,0)`). -/
def Vector3.DivideByConstant (a : Vector3) (c : ℚ) : Vector3 :=
  { X := a.X / c, Y := a.Y / c, Z := a.Z / c }

/-- Modelled from the spec: `Vector3.LengthSquared`, the squared length. -/
def Vector3.LengthSquared (a : Vector3) : ℚ :=
  a.X * a.X + a.Y * a.Y + a.Z * a.Z

/-- Modelled from the spec: `Vector3.Length`, the length (the test
`TestVector3_Length` expects `math.Sqrt(14)` for `(1,2,3)`).  The square root
is the rational one: exact when the squared length is the square of a
rational, rounded down in numerator and denominator otherwise. -/
def Vector3.Length (a : Vector3) : ℚ :=
  Rat.sqrt a.LengthSquared

/-- Modelled from the spec: `Vector3.Normalise`, normalization, the vector
divided by its length (the test `TestVector3_Normalise` expects `(1,0,0)` for
`(2,0,0)`). -/
def Vector3.Normalise (a : Vector3) : Vector3 :=
  a.DivideByConstant a.Length

/-- Modelled from the spec: `Vector3.Lerp`, linear interpolation from `a` at
`t = 0` to `b` at `t = 1` (the test `TestVector3_Lerp` expects `(0.75,0.25,0)`
for `UnitX().Lerp(UnitY(), 0.25)`). -/
def Vector3.Lerp (a b : Vector3) (t : ℚ) : Vector3 :=
  (a.MultiplyByConstant (1 - t)).Add (b.MultiplyByConstant t)

/-! ## `GetCalculatedSpriteHeight` (`raycaster.go`, lines 31-50) -/

/-- The type `func(int, int, int, float64) Samples` of a sampling strategy; a
strategy may read and update the process-wide sampler state. -/
abbrev Strategy := Nat → Nat → Nat → ℚ → SamplerState → Samples × SamplerState

/-- The function value `Square`: it leaves the sampler state untouched. -/
def squareStrategy : Strategy :=
  fun width height accuracy overlap st => (Square width height accuracy overlap, st)

/-- The function value `Disc`. -/
def discStrategy : Strategy :=
  Disc

/-- The function `Get`. -/
def Get (name : String) : Strategy :=
  if name = "square" then squareStrategy
  else if name = "disc" then discStrategy
  else squareStrategy

/-! ## Sequences of sampler calls -/

/-- A sequence of `getPoissonDisc` calls, given by their `(accuracy, overlap)`
arguments and run one after the other: the sampler state they leave. -/
def getPoissonDiscCalls : List (Nat × ℚ) → SamplerState → SamplerState
  | [], st => st
  | call :: rest, st => getPoissonDiscCalls rest (getPoissonDisc call.1 call.2 st).2

/-- The disc that `fourDraws` generates for accuracy 2 and overlap 0. -/
def fourPointDisc : List Vector2 :=
  [{ X := -(1 / 2), Y := 0 }, { X := 0, Y := -(1 / 2) }, { X := 0, Y := 31 / 64 },
   { X := 31 / 64, Y := 0 }]

/-! ## Sequential evaluation of the columns -/

/-- Modelled from the spec: the strictly sequential column-by-column
evaluation of a render, visiting the columns in the order given.  The setup
and the work done per column are those of `GetRaycastOutput`. -/
def GetRaycastOutputSequential (d : Deps) (object : ProcessedVoxelObject) (m : Manifest)
    (spr : Sprite) (sampler : Samples) (fuel : Nat) (order : List Nat) :
    Except Fault RenderOutput := do
  let limits := renderLimits object
  let viewport := renderViewport d object m spr
  let ray := renderRay d m spr
  let lighting := renderLighting d m spr
  let result : RenderOutput := List.replicate sampler.length []
  let h ← sampler.Height
  renderColumns d viewport ray limits object spr lighting sampler h fuel order result

/-! ## The goroutines of `GetRaycastOutput` as interleaved statements -/

/-- One statement of a goroutine, as a transformer of the shared buffer
`result`. -/
abbrev Step := RenderOutput → Except Fault RenderOutput

/-- Line 70, `result[thisX] = make([]RenderInfo, h)`. -/
def allocColumnStep (h thisX : Nat) : Step :=
  fun result => store result thisX (List.replicate h [])

/-- Lines 72-73, `samples := sampler[thisX][y]` and
`result[thisX][y] = make(RenderInfo, len(samples))`. -/
def allocCellStep (sampler : Samples) (thisX y : Nat) : Step :=
  fun result => do
    let sampleColumn ← index sampler thisX
    let samples ← index sampleColumn y
    let column ← index result thisX
    let column ← store column y (List.replicate samples.length RenderSample.zero)
    store result thisX column

/-- Line 75 for the samples of one cell, from index `i` on: one
`raycastSample` call each. -/
def sampleSteps (d : Deps) (viewport : Plane) (ray limits : Vector3)
    (object : ProcessedVoxelObject) (spr : Sprite) (lighting : Vector3) (thisX y : Nat)
    (fuel : Nat) : List Vector2 → Nat → List Step
  | [], _ => []
  | s :: rest, i =>
    (fun result =>
        raycastSample d viewport s ray limits object spr lighting result thisX y i fuel)
      :: sampleSteps d viewport ray limits object spr lighting thisX y fuel rest (i + 1)

/-- The statements of lines 71-77 for the rows from `y` on, `remaining` of
them. -/
def rowSteps (d : Deps) (viewport : Plane) (ray limits : Vector3)
    (object : ProcessedVoxelObject) (spr : Sprite) (lighting : Vector3) (sampler : Samples)
    (thisX : Nat) (fuel : Nat) : Nat → Nat → List Step
  | 0, _ => []
  | remaining + 1, y =>
    allocCellStep sampler thisX y
      :: (sampleSteps d viewport ray limits object spr lighting thisX y fuel
            ((sampler.getD thisX []).getD y []) 0
          ++ rowSteps d viewport ray limits object spr lighting sampler thisX fuel remaining
            (y + 1))

/-- The statements that the goroutine of column `thisX` executes, in program
order. -/
def goroutineSteps (d : Deps) (viewport : Plane) (ray limits : Vector3)
    (object : ProcessedVoxelObject) (spr : Sprite) (lighting : Vector3) (sampler : Samples)
    (h : Nat) (fuel : Nat) (thisX : Nat) : List Step :=
  allocColumnStep h thisX
    :: rowSteps d viewport ray limits object spr lighting sampler thisX fuel h 0

/-- Statements executed one after the other; a panic stops the run. -/
def runSteps : List Step → RenderOutput → Except Fault RenderOutput
  | [], result => .ok result
  | step :: rest, result => do
    let result ← step result
    runSteps rest result

/-- A schedule lists the executed statements, each tagged with the column of
the goroutine it belongs to.  It is an interleaving of the goroutines of the
columns below `w` when it holds only such tags and, for each column, exactly
the statements of that goroutine in program order. -/
def IsInterleaving (w : Nat) (steps : Nat → List Step) (schedule : List (Nat × Step)) : Prop :=
  (∀ p ∈ schedule, p.1 < w) ∧
  ∀ x, x < w → (schedule.filter (fun p => p.1 == x)).map Prod.snd = steps x

/-- The column-parallel run of `GetRaycastOutput` under a given schedule of the
goroutines' statements: the allocation of line 60, the evaluation of
`sampler.Height()` of line 65, then the statements in schedule order. -/
def GetRaycastOutputParallel (sampler : Samples) (schedule : List (Nat × Step)) :
    Except Fault RenderOutput := do
  let result : RenderOutput := List.replicate sampler.length []
  let _ ← sampler.Height
  runSteps (schedule.map Prod.snd) result

/-- The statements of the goroutine of column `x` in a render call. -/
def renderSteps (d : Deps) (object : ProcessedVoxelObject) (m : Manifest) (spr : Sprite)
    (sampler : Samples) (h fuel : Nat) (x : Nat) : List Step :=
  goroutineSteps d (renderViewport d object m spr) (renderRay d m spr) (renderLimits object)
    object spr (renderLighting d m spr) sampler h fuel x

/-- A statement that leaves the number of columns and every column other than
`x` as they are. -/
def WritesOnlyColumn (x : Nat) (step : Step) : Prop :=
  ∀ result out, step result = .ok out →
    out.length = result.length ∧ ∀ x2, x2 ≠ x → out[x2]? = result[x2]?

/-- A statement whose outcome in column `x` depends on column `x` only. -/
def ReadsOnlyColumn (x : Nat) (step : Step) : Prop :=
  ∀ result result2 out, result.length = result2.length → result[x]? = result2[x]? →
    step result = .ok out → ∃ out2, step result2 = .ok out2 ∧ out2[x]? = out[x]?

/-- A sample grid of two columns, one row, one sub-sample each. -/
def demoGridTwoColumns : Samples :=
  [[[{ X := 0, Y := 0 }]], [[{ X := 1 / 2, Y := 0 }]]]

/-- A schedule for `demoGridTwoColumns` in which the goroutines of the two
columns take turns. -/
def demoSchedule : List (Nat × Step) :=
  let viewport := renderViewport demoDeps demoObject demoManifest demoSprite
  let ray := renderRay demoDeps demoManifest demoSprite
  let limits := renderLimits demoObject
  let lighting := renderLighting demoDeps demoManifest demoSprite
  [(1, allocColumnStep 1 1),
   (0, allocColumnStep 1 0),
   (0, allocCellStep demoGridTwoColumns 0 0),
   (1, allocCellStep demoGridTwoColumns 1 0),
   (1, fun result => raycastSample demoDeps viewport { X := 1 / 2, Y := 0 } ray limits
      demoObject demoSprite lighting result 1 0 0 2),
   (0, fun result => raycastSample demoDeps viewport { X := 0, Y := 0 } ray limits
      demoObject demoSprite lighting result 0 0 0 2)]

/-! # Properties -/

/-! ## `setResult` -/

theorem setResult_Shadowing_fresh (element : ProcessedElement) (lighting : Vector3)
    (depth d : Int) :
    (setResult RenderSample.zero element lighting depth d).Shadowing =
      if 0 < d ∧ d < 10 then 1
      else if 0 < d ∧ d < 80 then ((70 - (d - 10) : Int) : ℚ) / 80 else 0 := by
  unfold setResult
  split_ifs <;> simp [RenderSample.zero]

/-- Claim C1. For every integer shadow depth `d`, `setResult` on the zero-valued
sample stores shadow intensity 1 when `0 < d < 10`, `(70 - (d - 10)) / 80` when
`10 <= d < 80`, and 0 when `d = 0` or `d >= 80`; depth 5 gives 1, depth 10
gives 0.875, depth 79 gives 0.0125, depths 80 and 0 give 0. -/
theorem setResult_shadow_curve (element : ProcessedElement) (lighting : Vector3) (depth : Int) :
    (∀ d : Int, 0 < d → d < 10 →
      (setResult RenderSample.zero element lighting depth d).Shadowing = 1) ∧
    (∀ d : Int, 10 ≤ d → d < 80 →
      (setResult RenderSample.zero element lighting depth d).Shadowing
        = (70 - ((d : ℚ) - 10)) / 80) ∧
    (∀ d : Int, d = 0 ∨ 80 ≤ d →
      (setResult RenderSample.zero element lighting depth d).Shadowing = 0) ∧
    (setResult RenderSample.zero element lighting depth 5).Shadowing = 1 ∧
    (setResult RenderSample.zero element lighting depth 10).Shadowing = 875 / 1000 ∧
    (setResult RenderSample.zero element lighting depth 79).Shadowing = 125 / 10000 ∧
    (setResult RenderSample.zero element lighting depth 80).Shadowing = 0 ∧
    (setResult RenderSample.zero element lighting depth 0).Shadowing = 0 := by
  refine ⟨?_, ?_, ?_, ?_, ?_, ?_, ?_, ?_⟩
  · intro d h1 h2
    rw [setResult_Shadowing_fresh, if_pos ⟨h1, h2⟩]
  · intro d h1 h2
    rw [setResult_Shadowing_fresh, if_neg (by omega), if_pos (by omega)]
    push_cast; ring
  · intro d h
    rw [setResult_Shadowing_fresh, if_neg (by omega), if_neg (by omega)]
  all_goals (rw [setResult_Shadowing_fresh]; norm_num)

/-- Claim C4. The `LightAmount` stored by `setResult` is the dot product of the
element's averaged normal with the light direction, unclamped: when the
averaged normal is a non-zero positive multiple of the negated light direction
the stored value is strictly negative, for instance -1 for the averaged normal
`(0, 0, -1)` under the light direction `(0, 0, 1)`. -/
theorem setResult_LightAmount_signed (result : RenderSample) (element : ProcessedElement)
    (lighting : Vector3) (depth shadowLength : Int) :
    (setResult result element lighting depth shadowLength).LightAmount
        = element.AveragedNormal.X * lighting.X + element.AveragedNormal.Y * lighting.Y
          + element.AveragedNormal.Z * lighting.Z ∧
    (∀ c : ℚ, 0 < c → element.AveragedNormal = (Zero.Subtract lighting).MultiplyByConstant c →
      element.AveragedNormal ≠ Zero →
      (setResult result element lighting depth shadowLength).LightAmount < 0) ∧
    (setResult RenderSample.zero
      { Index := 0, Normal := Zero, AveragedNormal := { X := 0, Y := 0, Z := -1 }, Occlusion := 0 }
      { X := 0, Y := 0, Z := 1 } 0 0).LightAmount = -1 := by
  have h : (setResult result element lighting depth shadowLength).LightAmount
      = element.AveragedNormal.Dot lighting := by
    unfold setResult getLightingValue
    split_ifs <;> rfl
  refine ⟨by rw [h]; rfl, ?_, by norm_num [setResult, getLightingValue, Vector3.Dot]⟩
  intro c hc hn hne
  rw [h, hn]
  have hl : lighting ≠ Zero := by
    rintro rfl
    apply hne
    rw [hn]
    simp [Zero, Vector3.Subtract, Vector3.MultiplyByConstant]
  have hpos : 0 < lighting.X * lighting.X + lighting.Y * lighting.Y + lighting.Z * lighting.Z := by
    rcases lighting with ⟨x, y, z⟩
    simp only [Zero, ne_eq, Vector3.mk.injEq, not_and] at hl
    by_cases hx : x = 0
    · by_cases hy : y = 0
      · have hz := hl hx hy
        have := mul_self_pos.mpr hz
        subst hx hy
        simpa using this
      · have := mul_self_pos.mpr hy
        nlinarith [mul_self_nonneg x, mul_self_nonneg z]
    · have := mul_self_pos.mpr hx
      nlinarith [mul_self_nonneg y, mul_self_nonneg z]
  simp only [Vector3.Dot, Vector3.MultiplyByConstant, Vector3.Subtract, Zero]
  nlinarith [mul_pos hc hpos]

/-! ## Slices, the loop of lines 97-103 and `raycastSample` -/

theorem index_eq_ok {α : Type} (xs : List α) (i : Nat) (a : α) :
    index xs i = .ok a ↔ xs[i]? = some a := by
  unfold index
  cases h : xs[i]? <;> simp

theorem store_of_lt {α : Type} (xs : List α) (i : Nat) (a : α) (h : i < xs.length) :
    store xs i a = .ok (xs.set i a) := by
  simp [store, h]

theorem Vector3.Equals_iff (a b : Vector3) : a.Equals b = true ↔ a = b := by
  rcases a with ⟨a1, a2, a3⟩
  rcases b with ⟨b1, b2, b3⟩
  simp [Vector3.Equals, and_assoc]

theorem Vector3.Add_eq_self_iff (a v : Vector3) : a.Add v = a ↔ v = Zero := by
  rcases a with ⟨a1, a2, a3⟩
  rcases v with ⟨v1, v2, v3⟩
  simp [Vector3.Add, Zero]

theorem biasLoop_of_ne_zero (resultVec shadowVec : Vector3) (fuel : Nat)
    (hvec : shadowVec ≠ Zero) (hfuel : 2 ≤ fuel) :
    biasLoop resultVec shadowVec fuel resultVec = .ok (resultVec.Add shadowVec) := by
  obtain ⟨f, rfl⟩ : ∃ f, fuel = f + 2 := ⟨fuel - 2, by omega⟩
  have h1 : resultVec.Equals resultVec = true := (Vector3.Equals_iff _ _).mpr rfl
  have h2 : (resultVec.Add shadowVec).Equals resultVec = false := by
    rw [Bool.eq_false_iff, ne_eq, Vector3.Equals_iff, Vector3.Add_eq_self_iff]
    exact hvec
  simp [biasLoop, h1, h2]

theorem sampleAt_eq_ok (result : RenderOutput) (x y i : Nat) (sample : RenderSample) :
    sampleAt result x y i = .ok sample ↔
      ∃ column cell, result[x]? = some column ∧ column[y]? = some cell ∧ cell[i]? = some sample := by
  cases h1 : result[x]? with
  | none => simp [sampleAt, index, bind, Except.bind, h1]
  | some column =>
    cases h2 : column[y]? with
    | none => simp [sampleAt, index, bind, Except.bind, h1, h2]
    | some cell =>
      cases h3 : cell[i]? <;> simp [sampleAt, index, bind, Except.bind, h1, h2, h3]

theorem storeSample_eq (result : RenderOutput) (x y i : Nat) (sample : RenderSample)
    (column : List RenderInfo) (cell : RenderInfo)
    (h1 : result[x]? = some column) (h2 : column[y]? = some cell) (h3 : i < cell.length) :
    storeSample result x y i sample = .ok (result.set x (column.set y (cell.set i sample))) := by
  have hx : x < result.length := (List.getElem?_eq_some.mp h1).1
  have hy : y < column.length := (List.getElem?_eq_some.mp h2).1
  simp [storeSample, index, store, h1, h2, h3, hx, hy, bind, Except.bind]

theorem raycastSample_miss (d : Deps) (viewport : Plane) (s : Vector2) (ray limits : Vector3)
    (object : ProcessedVoxelObject) (spr : Sprite) (lighting : Vector3)
    (result : RenderOutput) (thisX y i fuel : Nat)
    (hmiss : (primaryRay d viewport s ray limits object spr).HasGeometry = false) :
    raycastSample d viewport s ray limits object spr lighting result thisX y i fuel
      = .ok result := by
  simp [raycastSample, hmiss]

theorem raycastSample_hit (d : Deps) (viewport : Plane) (s : Vector2) (ray limits : Vector3)
    (object : ProcessedVoxelObject) (spr : Sprite) (lighting : Vector3)
    (result : RenderOutput) (thisX y i fuel : Nat)
    (column : List RenderInfo) (cell : RenderInfo) (sample : RenderSample)
    (element : ProcessedElement)
    (hhit : (primaryRay d viewport s ray limits object spr).HasGeometry = true)
    (hfuel : 2 ≤ fuel) (hvec : d.Normalise (Zero.Subtract lighting) ≠ Zero)
    (hel : elementAt object (primaryRay d viewport s ray limits object spr).X
      (primaryRay d viewport s ray limits object spr).Y
      (primaryRay d viewport s ray limits object spr).Z = .ok element)
    (h1 : result[thisX]? = some column) (h2 : column[y]? = some cell)
    (h3 : cell[i]? = some sample) :
    raycastSample d viewport s ray limits object spr lighting result thisX y i fuel
      = .ok (result.set thisX (column.set y (cell.set i
          (setResult sample element lighting
            (primaryRay d viewport s ray limits object spr).Depth
            (shadowDepth d limits object spr lighting
              (primaryRay d viewport s ray limits object spr)))))) := by
  have hs : sampleAt result thisX y i = .ok sample :=
    (sampleAt_eq_ok _ _ _ _ _).mpr ⟨column, cell, h1, h2, h3⟩
  have hi : i < cell.length := (List.getElem?_eq_some.mp h3).1
  simp only [raycastSample, hhit, if_true, biasLoop_of_ne_zero _ _ _ hvec hfuel, hs, hel,
    bind, Except.bind, shadowDepth]
  exact storeSample_eq _ _ _ _ _ _ _ h1 h2 hi

theorem set_same {α : Type} (xs : List α) (i : Nat) (a : α) (h : xs[i]? = some a) :
    xs.set i a = xs := by
  apply List.ext_getElem?
  intro j
  by_cases hj : i = j
  · subst hj
    rw [List.getElem?_set_self (List.getElem?_eq_some.mp h).1, h]
  · rw [List.getElem?_set_ne hj]

theorem raycastSample_fresh (d : Deps) (viewport : Plane) (s : Vector2) (ray limits : Vector3)
    (object : ProcessedVoxelObject) (spr : Sprite) (lighting : Vector3)
    (result : RenderOutput) (thisX y i fuel : Nat)
    (column : List RenderInfo) (cell : RenderInfo)
    (hc : Completes d viewport ray limits object spr lighting fuel s)
    (h1 : result[thisX]? = some column) (h2 : column[y]? = some cell)
    (h3 : cell[i]? = some RenderSample.zero) :
    raycastSample d viewport s ray limits object spr lighting result thisX y i fuel
      = .ok (result.set thisX (column.set y (cell.set i
          (sampleValue d viewport ray limits object spr lighting s)))) := by
  cases hg : (primaryRay d viewport s ray limits object spr).HasGeometry with
  | false =>
    rw [raycastSample_miss _ _ _ _ _ _ _ _ _ _ _ _ _ hg]
    have hv : sampleValue d viewport ray limits object spr lighting s = RenderSample.zero := by
      simp [sampleValue, hg]
    rw [hv, set_same cell i _ h3, set_same column y _ h2, set_same result thisX _ h1]
  | true =>
    obtain ⟨hfuel, hvec, element, hel⟩ := hc hg
    rw [raycastSample_hit _ _ _ _ _ _ _ _ _ _ _ _ _ _ _ _ _ hg hfuel hvec hel h1 h2 h3]
    have hv : sampleValue d viewport ray limits object spr lighting s
        = setResult RenderSample.zero element lighting
            (primaryRay d viewport s ray limits object spr).Depth
            (shadowDepth d limits object spr lighting
              (primaryRay d viewport s ray limits object spr)) := by
      simp [sampleValue, hg, hel]
    rw [hv]

theorem sampleLoop_fresh (d : Deps) (viewport : Plane) (ray limits : Vector3)
    (object : ProcessedVoxelObject) (spr : Sprite) (lighting : Vector3) (thisX y fuel : Nat)
    (samples : List Vector2) :
    ∀ (done : RenderInfo) (result : RenderOutput) (column : List RenderInfo),
      (∀ s ∈ samples, Completes d viewport ray limits object spr lighting fuel s) →
      result[thisX]? = some column →
      column[y]? = some (done ++ List.replicate samples.length RenderSample.zero) →
      sampleLoop d viewport ray limits object spr lighting thisX y fuel samples done.length result
        = .ok (result.set thisX (column.set y
            (done ++ samples.map (sampleValue d viewport ray limits object spr lighting)))) := by
  induction samples with
  | nil =>
    intro done result column _ h1 h2
    simp only [List.length_nil, List.replicate_zero, List.append_nil] at h2
    simp only [sampleLoop, List.map_nil, List.append_nil]
    rw [set_same column y _ h2, set_same result thisX _ h1]
  | cons s rest ih =>
    intro done result column hc h1 h2
    have hx : thisX < result.length := (List.getElem?_eq_some.mp h1).1
    have hy : y < column.length := (List.getElem?_eq_some.mp h2).1
    have h3 : (done ++ List.replicate (s :: rest).length RenderSample.zero)[done.length]?
        = some RenderSample.zero := by
      rw [List.getElem?_append_right (le_refl _)]
      simp [List.replicate_succ]
    have hs := raycastSample_fresh d viewport s ray limits object spr lighting result thisX y
      done.length fuel column _ (hc s (List.mem_cons_self _ _)) h1 h2 h3
    have hcell : (done ++ List.replicate (s :: rest).length RenderSample.zero).set done.length
        (sampleValue d viewport ray limits object spr lighting s)
        = (done ++ [sampleValue d viewport ray limits object spr lighting s])
            ++ List.replicate rest.length RenderSample.zero := by
      rw [List.set_append_right _ _ (le_refl _)]
      simp [List.replicate_succ]
    rw [hcell] at hs
    have hlen : (done ++ [sampleValue d viewport ray limits object spr lighting s]).length
        = done.length + 1 := by simp
    have ih2 := ih (done ++ [sampleValue d viewport ray limits object spr lighting s])
      (result.set thisX (column.set y
        ((done ++ [sampleValue d viewport ray limits object spr lighting s])
            ++ List.replicate rest.length RenderSample.zero)))
      (column.set y
        ((done ++ [sampleValue d viewport ray limits object spr lighting s])
            ++ List.replicate rest.length RenderSample.zero))
      (fun s hs => hc s (List.mem_cons_of_mem _ hs))
      (List.getElem?_set_self hx) (List.getElem?_set_self hy)
    rw [hlen] at ih2
    simp only [sampleLoop, hs, bind, Except.bind]
    rw [ih2]
    simp only [List.set_set, List.map_cons, List.append_assoc, List.singleton_append]

/-! ## The loops of `GetRaycastOutput` -/

theorem take_succ_set {α : Type} (xs : List α) (y : Nat) (a : α) (h : y < xs.length) :
    (xs.set y a).take (y + 1) = xs.take y ++ [a] := by
  rw [List.take_succ, List.getElem?_set_self h, List.set_take,
    List.set_eq_of_length_le (by simp)]
  rfl

theorem drop_of_getElem? {α : Type} (xs : List α) (y : Nat) (a : α) (h : xs[y]? = some a) :
    xs.drop y = a :: xs.drop (y + 1) := by
  obtain ⟨hy, ha⟩ := List.getElem?_eq_some.mp h
  rw [List.drop_eq_getElem_cons hy, ha]

theorem rowLoop_fresh (d : Deps) (viewport : Plane) (ray limits : Vector3)
    (object : ProcessedVoxelObject) (spr : Sprite) (lighting : Vector3) (sampler : Samples)
    (thisX fuel : Nat) (sampleColumn : List Sample)
    (hsc : sampler[thisX]? = some sampleColumn)
    (hc : ∀ cell ∈ sampleColumn, ∀ s ∈ cell,
      Completes d viewport ray limits object spr lighting fuel s) (remaining : Nat) :
    ∀ (y : Nat) (result : RenderOutput) (column : List RenderInfo),
      sampleColumn.length = y + remaining → result[thisX]? = some column →
      column.length = y + remaining →
      rowLoop d viewport ray limits object spr lighting sampler thisX fuel remaining y result
        = .ok (result.set thisX (column.take y ++ (sampleColumn.drop y).map
            (fun samples => samples.map (sampleValue d viewport ray limits object spr lighting)))) := by
  induction remaining with
  | zero =>
    intro y result column hlen h1 hcl
    have hd : sampleColumn.drop y = [] := List.drop_eq_nil_of_le (by omega)
    have ht : column.take y = column := List.take_of_length_le (by omega)
    simp only [rowLoop, hd, ht, List.map_nil, List.append_nil]
    rw [set_same result thisX _ h1]
  | succ n ih =>
    intro y result column hlen h1 hcl
    have hx : thisX < result.length := (List.getElem?_eq_some.mp h1).1
    have hy : y < column.length := by omega
    obtain ⟨samples, hsm⟩ : ∃ samples, sampleColumn[y]? = some samples :=
      ⟨sampleColumn[y], List.getElem?_eq_getElem (by omega)⟩
    have hmem : samples ∈ sampleColumn := List.getElem?_mem hsm
    have hloop := sampleLoop_fresh d viewport ray limits object spr lighting thisX y fuel samples
      [] (result.set thisX (column.set y (List.replicate samples.length RenderSample.zero)))
      (column.set y (List.replicate samples.length RenderSample.zero))
      (hc samples hmem) (List.getElem?_set_self hx) (List.getElem?_set_self hy)
    simp only [List.length_nil, List.nil_append, List.set_set] at hloop
    have hnext := ih (y + 1)
      (result.set thisX (column.set y
        (samples.map (sampleValue d viewport ray limits object spr lighting))))
      (column.set y (samples.map (sampleValue d viewport ray limits object spr lighting)))
      (by omega) (List.getElem?_set_self hx) (by rw [List.length_set]; omega)
    simp only [rowLoop, index, store, hsc, hsm, h1, hx, hy, if_true, bind, Except.bind, hloop,
      hnext, List.set_set]
    rw [take_succ_set _ _ _ hy, drop_of_getElem? _ _ _ hsm]
    simp

theorem renderColumn_fresh (d : Deps) (viewport : Plane) (ray limits : Vector3)
    (object : ProcessedVoxelObject) (spr : Sprite) (lighting : Vector3) (sampler : Samples)
    (h fuel thisX : Nat) (result : RenderOutput) (sampleColumn : List Sample)
    (hsc : sampler[thisX]? = some sampleColumn) (hlen : sampleColumn.length = h)
    (hx : thisX < result.length)
    (hc : ∀ cell ∈ sampleColumn, ∀ s ∈ cell,
      Completes d viewport ray limits object spr lighting fuel s) :
    renderColumn d viewport ray limits object spr lighting sampler h fuel result thisX
      = .ok (result.set thisX (sampleColumn.map
          (fun samples => samples.map (sampleValue d viewport ray limits object spr lighting)))) := by
  have hrow := rowLoop_fresh d viewport ray limits object spr lighting sampler thisX fuel
    sampleColumn hsc hc h 0 (result.set thisX (List.replicate h [])) (List.replicate h [])
    (by omega) (List.getElem?_set_self hx) (by simp)
  simp only [renderColumn, store, hx, if_true, bind, Except.bind, hrow, List.set_set,
    List.take_zero, List.drop_zero, List.nil_append]

theorem renderColumns_eq (d : Deps) (viewport : Plane) (ray limits : Vector3)
    (object : ProcessedVoxelObject) (spr : Sprite) (lighting : Vector3) (sampler : Samples)
    (h fuel : Nat) (hrect : Rectangular sampler h)
    (hc : ∀ column ∈ sampler, ∀ cell ∈ column, ∀ s ∈ cell,
      Completes d viewport ray limits object spr lighting fuel s) (xs : List Nat) :
    ∀ result : RenderOutput, (∀ x ∈ xs, x < result.length ∧ x < sampler.length) →
      renderColumns d viewport ray limits object spr lighting sampler h fuel xs result
        = .ok (xs.foldl (fun r x => r.set x ((sampler.getD x []).map
            (fun samples => samples.map (sampleValue d viewport ray limits object spr lighting))))
            result) := by
  induction xs with
  | nil => intro result _; rfl
  | cons x xs ih =>
    intro result hx
    obtain ⟨hxr, hxs⟩ := hx x (List.mem_cons_self _ _)
    have hsc : sampler[x]? = some (sampler.getD x []) := by
      rw [List.getD_eq_getElem?_getD, List.getElem?_eq_getElem hxs]
      rfl
    have hmem : sampler.getD x [] ∈ sampler := List.getElem?_mem hsc
    have hcol := renderColumn_fresh d viewport ray limits object spr lighting sampler h fuel x
      result (sampler.getD x []) hsc (hrect _ hmem) hxr (hc _ hmem)
    simp only [renderColumns, hcol, bind, Except.bind, List.foldl_cons]
    apply ih
    intro x2 hx2
    rw [List.length_set]
    exact hx x2 (List.mem_cons_of_mem _ hx2)

theorem foldl_set_range {α : Type} (g : Nat → α) (k : Nat) :
    ∀ init : List α, k ≤ init.length →
      (List.range k).foldl (fun r x => r.set x (g x)) init
        = (List.range k).map g ++ init.drop k := by
  induction k with
  | zero => intro init _; simp
  | succ n ih =>
    intro init hk
    rw [List.range_succ, List.foldl_append, ih init (by omega)]
    simp only [List.foldl_cons, List.foldl_nil, List.map_append, List.map_cons, List.map_nil]
    rw [List.set_append_right _ _ (by simp)]
    simp only [List.length_map, List.length_range, Nat.sub_self]
    have hlt : n < init.length := by omega
    have hd : init.drop n = init[n] :: init.drop (n + 1) := List.drop_eq_getElem_cons hlt
    rw [hd, List.set_cons_zero]
    simp

theorem map_range_getD {α β : Type} (f : α → β) (l : List α) (dflt : α) :
    (List.range l.length).map (fun x => f (l.getD x dflt)) = l.map f := by
  apply List.ext_getElem?
  intro i
  by_cases hi : i < l.length
  · simp [List.getElem?_map, List.getElem?_range hi, List.getD_eq_getElem?_getD,
      List.getElem?_eq_getElem hi]
  · have h1 : ((List.range l.length).map (fun x => f (l.getD x dflt))).length ≤ i := by
      simp; omega
    have h2 : (l.map f).length ≤ i := by simp; omega
    rw [List.getElem?_eq_none h1, List.getElem?_eq_none h2]

theorem Height_eq (sampler : Samples) (column : List Sample) (h0 : sampler[0]? = some column) :
    sampler.Height = .ok column.length := by
  simp [Samples.Height, index, h0]

theorem GetRaycastOutput_eq (d : Deps) (object : ProcessedVoxelObject) (m : Manifest)
    (spr : Sprite) (sampler : Samples) (fuel h : Nat)
    (hcols : 0 < sampler.length) (hrect : Rectangular sampler h)
    (hc : ∀ column ∈ sampler, ∀ cell ∈ column, ∀ s ∈ cell,
      Completes d (renderViewport d object m spr) (renderRay d m spr) (renderLimits object)
        object spr (renderLighting d m spr) fuel s) :
    GetRaycastOutput d object m spr sampler fuel
      = .ok (sampler.map (fun column => column.map (fun samples => samples.map
          (sampleValue d (renderViewport d object m spr) (renderRay d m spr)
            (renderLimits object) object spr (renderLighting d m spr))))) := by
  have h0 : sampler[0]? = some sampler[0] := List.getElem?_eq_getElem hcols
  have hh : sampler.Height = .ok h := by
    rw [Height_eq sampler _ h0, hrect _ (List.getElem?_mem h0)]
  have hcolumns := renderColumns_eq d (renderViewport d object m spr) (renderRay d m spr)
    (renderLimits object) object spr (renderLighting d m spr) sampler h fuel hrect hc
    (List.range sampler.length) (List.replicate sampler.length [])
    (by intro x hx; simpa using hx)
  simp only [GetRaycastOutput, hh, Samples.Width, bind, Except.bind, hcolumns]
  rw [foldl_set_range _ _ _ (by simp)]
  simp only [List.length_replicate, List.drop_replicate, Nat.sub_self, List.replicate_zero,
    List.append_nil]
  rw [map_range_getD (fun column : List Sample => column.map (fun samples => samples.map
    (sampleValue d (renderViewport d object m spr) (renderRay d m spr)
      (renderLimits object) object spr (renderLighting d m spr)))) sampler []]

/-! ## A render that returns has completed every sample -/

theorem bind_ok {α β : Type} (x : Except Fault α) (f : α → Except Fault β) (b : β)
    (h : (x >>= f) = .ok b) : ∃ a, x = .ok a ∧ f a = .ok b := by
  cases x with
  | error e => simp [bind, Except.bind] at h
  | ok a => exact ⟨a, rfl, h⟩

theorem biasLoop_zero_vector (resultVec : Vector3) (fuel : Nat) :
    biasLoop resultVec Zero fuel resultVec = .error .outOfSteps := by
  induction fuel with
  | zero => rfl
  | succ n ih =>
    have h1 : resultVec.Equals resultVec = true := (Vector3.Equals_iff _ _).mpr rfl
    have h2 : resultVec.Add Zero = resultVec := (Vector3.Add_eq_self_iff _ _).mpr rfl
    simp [biasLoop, h1, h2, ih]

theorem biasLoop_ok (resultVec shadowVec shadowLoc : Vector3) (fuel : Nat)
    (h : biasLoop resultVec shadowVec fuel resultVec = .ok shadowLoc) :
    2 ≤ fuel ∧ shadowVec ≠ Zero := by
  have h1 : resultVec.Equals resultVec = true := (Vector3.Equals_iff _ _).mpr rfl
  constructor
  · match fuel, h with
    | 0, h => simp [biasLoop] at h
    | 1, h => simp [biasLoop, h1] at h
    | n + 2, _ => omega
  · rintro rfl
    rw [biasLoop_zero_vector] at h
    cases h

theorem raycastSample_completes (d : Deps) (viewport : Plane) (s : Vector2)
    (ray limits : Vector3) (object : ProcessedVoxelObject) (spr : Sprite) (lighting : Vector3)
    (result out : RenderOutput) (thisX y i fuel : Nat)
    (h : raycastSample d viewport s ray limits object spr lighting result thisX y i fuel
      = .ok out) :
    Completes d viewport ray limits object spr lighting fuel s := by
  intro hg
  unfold raycastSample at h
  simp only [hg, if_true] at h
  obtain ⟨shadowLoc, hb, h⟩ := bind_ok _ _ _ h
  obtain ⟨sample, _, h⟩ := bind_ok _ _ _ h
  obtain ⟨element, he, _⟩ := bind_ok _ _ _ h
  obtain ⟨hfuel, hvec⟩ := biasLoop_ok _ _ _ _ hb
  exact ⟨hfuel, hvec, element, he⟩

theorem sampleLoop_completes (d : Deps) (viewport : Plane) (ray limits : Vector3)
    (object : ProcessedVoxelObject) (spr : Sprite) (lighting : Vector3) (thisX y fuel : Nat)
    (samples : List Vector2) :
    ∀ (i : Nat) (result out : RenderOutput),
      sampleLoop d viewport ray limits object spr lighting thisX y fuel samples i result
        = .ok out →
      ∀ s ∈ samples, Completes d viewport ray limits object spr lighting fuel s := by
  induction samples with
  | nil => intro i result out _ s hs; simp at hs
  | cons s0 rest ih =>
    intro i result out h s hs
    simp only [sampleLoop] at h
    obtain ⟨r1, hr1, hrest⟩ := bind_ok _ _ _ h
    rcases List.mem_cons.mp hs with rfl | hs
    · exact raycastSample_completes _ _ _ _ _ _ _ _ _ _ _ _ _ _ hr1
    · exact ih _ _ _ hrest s hs

theorem rowLoop_completes (d : Deps) (viewport : Plane) (ray limits : Vector3)
    (object : ProcessedVoxelObject) (spr : Sprite) (lighting : Vector3) (sampler : Samples)
    (thisX fuel : Nat) (sampleColumn : List Sample)
    (hsc : sampler[thisX]? = some sampleColumn) (remaining : Nat) :
    ∀ (y : Nat) (result out : RenderOutput),
      rowLoop d viewport ray limits object spr lighting sampler thisX fuel remaining y result
        = .ok out →
      ∀ cell ∈ (sampleColumn.drop y).take remaining, ∀ s ∈ cell,
        Completes d viewport ray limits object spr lighting fuel s := by
  induction remaining with
  | zero => intro y result out _ cell hcell; simp at hcell
  | succ n ih =>
    intro y result out h cell hcell s hs
    simp only [rowLoop] at h
    obtain ⟨sc, hsc2, h2⟩ := bind_ok _ _ _ h
    rw [(index_eq_ok _ _ _).mpr hsc] at hsc2
    cases hsc2
    obtain ⟨samples, hsm, h3⟩ := bind_ok _ _ _ h2
    obtain ⟨c0, _, h4⟩ := bind_ok _ _ _ h3
    obtain ⟨c1, _, h5⟩ := bind_ok _ _ _ h4
    obtain ⟨r1, _, h6⟩ := bind_ok _ _ _ h5
    obtain ⟨r2, hr2, h7⟩ := bind_ok _ _ _ h6
    rw [drop_of_getElem? _ _ _ ((index_eq_ok _ _ _).mp hsm), List.take_succ_cons] at hcell
    rcases List.mem_cons.mp hcell with rfl | hcell
    · exact sampleLoop_completes _ _ _ _ _ _ _ _ _ _ _ _ _ _ hr2 s hs
    · exact ih _ _ _ h7 cell hcell s hs

theorem renderColumns_completes (d : Deps) (viewport : Plane) (ray limits : Vector3)
    (object : ProcessedVoxelObject) (spr : Sprite) (lighting : Vector3) (sampler : Samples)
    (h fuel : Nat) (hrect : Rectangular sampler h) (xs : List Nat) :
    ∀ (result out : RenderOutput), (∀ x ∈ xs, x < sampler.length) →
      renderColumns d viewport ray limits object spr lighting sampler h fuel xs result
        = .ok out →
      ∀ x ∈ xs, ∀ column, sampler[x]? = some column → ∀ cell ∈ column, ∀ s ∈ cell,
        Completes d viewport ray limits object spr lighting fuel s := by
  induction xs with
  | nil => intro result out _ _ x hx; simp at hx
  | cons x0 xs ih =>
    intro result out hxs hok x hx column hcol cell hcell s hs
    simp only [renderColumns] at hok
    obtain ⟨r1, hr1, h2⟩ := bind_ok _ _ _ hok
    rcases List.mem_cons.mp hx with rfl | hx
    · unfold renderColumn at hr1
      obtain ⟨r0, _, h3⟩ := bind_ok _ _ _ hr1
      have hlen : column.length = h := hrect _ (List.getElem?_mem hcol)
      have := rowLoop_completes d viewport ray limits object spr lighting sampler x fuel column
        hcol h 0 _ _ h3 cell
        (by rw [List.drop_zero, List.take_of_length_le (by omega)]; exact hcell)
      exact this s hs
    · exact ih _ _ (fun x hx => hxs x (List.mem_cons_of_mem _ hx)) h2 x hx column hcol cell
        hcell s hs

theorem GetRaycastOutput_completes (d : Deps) (object : ProcessedVoxelObject) (m : Manifest)
    (spr : Sprite) (sampler : Samples) (fuel h : Nat) (out : RenderOutput)
    (hcols : 0 < sampler.length) (hrect : Rectangular sampler h)
    (hok : GetRaycastOutput d object m spr sampler fuel = .ok out) :
    ∀ column ∈ sampler, ∀ cell ∈ column, ∀ s ∈ cell,
      Completes d (renderViewport d object m spr) (renderRay d m spr) (renderLimits object)
        object spr (renderLighting d m spr) fuel s := by
  have h0 : sampler[0]? = some sampler[0] := List.getElem?_eq_getElem hcols
  have hh : sampler.Height = .ok h := by
    rw [Height_eq sampler _ h0, hrect _ (List.getElem?_mem h0)]
  unfold GetRaycastOutput at hok
  simp only [hh, Samples.Width, bind, Except.bind] at hok
  intro column hcol
  obtain ⟨x, hx⟩ := List.mem_iff_getElem?.mp hcol
  have hlt : x < sampler.length := (List.getElem?_eq_some.mp hx).1
  exact renderColumns_completes d _ _ _ object spr _ sampler h fuel hrect
    (List.range sampler.length) _ out (fun x hx => List.mem_range.mp hx) hok x
    (List.mem_range.mpr hlt) column hx

theorem GetRaycastOutput_ok_iff (d : Deps) (object : ProcessedVoxelObject) (m : Manifest)
    (spr : Sprite) (sampler : Samples) (fuel h : Nat) (out : RenderOutput)
    (hcols : 0 < sampler.length) (hrect : Rectangular sampler h) :
    GetRaycastOutput d object m spr sampler fuel = .ok out ↔
      (∀ column ∈ sampler, ∀ cell ∈ column, ∀ s ∈ cell,
        Completes d (renderViewport d object m spr) (renderRay d m spr) (renderLimits object)
          object spr (renderLighting d m spr) fuel s) ∧
      out = sampler.map (fun column => column.map (fun samples => samples.map
        (sampleValue d (renderViewport d object m spr) (renderRay d m spr)
          (renderLimits object) object spr (renderLighting d m spr)))) := by
  constructor
  · intro hok
    have hc := GetRaycastOutput_completes d object m spr sampler fuel h out hcols hrect hok
    refine ⟨hc, ?_⟩
    have := GetRaycastOutput_eq d object m spr sampler fuel h hcols hrect hc
    rw [hok] at this
    exact Except.ok.inj this
  · rintro ⟨hc, rfl⟩
    exact GetRaycastOutput_eq d object m spr sampler fuel h hcols hrect hc

/-! ## The output of a completed render -/

theorem entryAt_map {α β : Type} (f : α → β) (grid : List (List (List α))) (x y i : Nat) :
    entryAt (grid.map (fun column => column.map (fun cell => cell.map f))) x y i
      = (entryAt grid x y i).map f := by
  unfold entryAt
  rw [List.getElem?_map]
  cases grid[x]? with
  | none => rfl
  | some column =>
    simp only [Option.map_some']
    rw [List.getElem?_map]
    cases column[y]? with
    | none => rfl
    | some cell => simp only [Option.map_some', List.getElem?_map]

theorem cellAt_map {α β : Type} (f : α → β) (grid : List (List (List α))) (x y : Nat) :
    cellAt (grid.map (fun column => column.map (fun cell => cell.map f))) x y
      = (cellAt grid x y).map (fun cell => cell.map f) := by
  unfold cellAt
  rw [List.getElem?_map]
  cases grid[x]? with
  | none => rfl
  | some column => simp only [Option.map_some', List.getElem?_map]

theorem demo_completes : ∀ column ∈ demoGrid, ∀ cell ∈ column, ∀ s ∈ cell,
    Completes demoDeps (renderViewport demoDeps demoObject demoManifest demoSprite)
      (renderRay demoDeps demoManifest demoSprite) (renderLimits demoObject) demoObject
      demoSprite (renderLighting demoDeps demoManifest demoSprite) 2 s := by
  intro column hcol cell hcell s hs hhit
  refine ⟨le_refl _, ?_, ?_⟩
  · simp [demoDeps, renderLighting, Zero, Vector3.Subtract]
  · simp only [demoGrid, List.mem_singleton] at hcol
    subst hcol
    simp only [List.mem_singleton] at hcell
    subst hcell
    simp only [List.mem_cons, List.mem_singleton, List.not_mem_nil, or_false] at hs
    rcases hs with rfl | rfl
    · exact ⟨demoElement, by
        simp [primaryRay, demoDeps, elementAt, index, demoObject, bind, Except.bind]⟩
    · simp [primaryRay, demoDeps] at hhit

theorem demoGrid_rectangular : Rectangular demoGrid 1 := by
  simp [Rectangular, demoGrid]

theorem demo_render_returns :
    ∃ out, GetRaycastOutput demoDeps demoObject demoManifest demoSprite demoGrid 2 = .ok out :=
  ⟨_, GetRaycastOutput_eq demoDeps demoObject demoManifest demoSprite demoGrid 2 1 (by decide)
    demoGrid_rectangular demo_completes⟩

theorem sampleValue_miss (d : Deps) (viewport : Plane) (ray limits : Vector3)
    (object : ProcessedVoxelObject) (spr : Sprite) (lighting : Vector3) (s : Vector2)
    (hmiss : (primaryRay d viewport s ray limits object spr).HasGeometry = false) :
    sampleValue d viewport ray limits object spr lighting s = RenderSample.zero := by
  simp [sampleValue, hmiss]

theorem sampleValue_hit (d : Deps) (viewport : Plane) (ray limits : Vector3)
    (object : ProcessedVoxelObject) (spr : Sprite) (lighting : Vector3) (s : Vector2)
    (element : ProcessedElement)
    (hhit : (primaryRay d viewport s ray limits object spr).HasGeometry = true)
    (hel : elementAt object (primaryRay d viewport s ray limits object spr).X
      (primaryRay d viewport s ray limits object spr).Y
      (primaryRay d viewport s ray limits object spr).Z = .ok element) :
    sampleValue d viewport ray limits object spr lighting s
      = setResult RenderSample.zero element lighting
          (primaryRay d viewport s ray limits object spr).Depth
          (shadowDepth d limits object spr lighting
            (primaryRay d viewport s ray limits object spr)) := by
  simp [sampleValue, hhit, hel]

theorem mem_of_entryAt {α : Type} (grid : List (List (List α))) (x y i : Nat) (a : α)
    (h : entryAt grid x y i = some a) :
    ∃ column ∈ grid, ∃ cell ∈ column, a ∈ cell := by
  unfold entryAt at h
  cases hx : grid[x]? with
  | none => simp [hx] at h
  | some column =>
    simp only [hx] at h
    cases hy : column[y]? with
    | none => simp [hy] at h
    | some cell =>
      simp only [hy] at h
      exact ⟨column, List.getElem?_mem hx, cell, List.getElem?_mem hy, List.getElem?_mem h⟩

/-- Claim C2. For a rectangular sample grid with at least one column, every
output that `GetRaycastOutput` returns has as many columns as the grid, `h`
rows in every column, and in every cell `(x, y)` exactly as many samples as
the grid cell has offsets; and `GetRaycastOutput` does return when every
per-sample evaluation completes. -/
theorem GetRaycastOutput_dimensions (d : Deps) (object : ProcessedVoxelObject) (m : Manifest)
    (spr : Sprite) (sampler : Samples) (fuel h : Nat)
    (hcols : 0 < sampler.length) (hrect : Rectangular sampler h) :
    (∀ out, GetRaycastOutput d object m spr sampler fuel = .ok out →
      out.length = sampler.length ∧ (∀ column ∈ out, column.length = h) ∧
      ∀ x y, (cellAt out x y).map List.length = (cellAt sampler x y).map List.length) ∧
    ((∀ column ∈ sampler, ∀ cell ∈ column, ∀ s ∈ cell,
        Completes d (renderViewport d object m spr) (renderRay d m spr) (renderLimits object)
          object spr (renderLighting d m spr) fuel s) →
      ∃ out, GetRaycastOutput d object m spr sampler fuel = .ok out) := by
  constructor
  · intro out hok
    obtain ⟨_, rfl⟩ := (GetRaycastOutput_ok_iff d object m spr sampler fuel h out hcols hrect).mp hok
    refine ⟨by simp, ?_, ?_⟩
    · intro column hcol
      obtain ⟨sampleColumn, hmem, rfl⟩ := List.mem_map.mp hcol
      rw [List.length_map]
      exact hrect _ hmem
    · intro x y
      rw [cellAt_map]
      cases cellAt sampler x y <;> simp
  · intro hc
    exact ⟨_, GetRaycastOutput_eq d object m spr sampler fuel h hcols hrect hc⟩

/-- The example scene: the render returns and its output has the shape of the
grid. -/
theorem GetRaycastOutput_dimensions_witness :
    ∃ out, GetRaycastOutput demoDeps demoObject demoManifest demoSprite demoGrid 2 = .ok out ∧
      out.length = demoGrid.length ∧ (∀ column ∈ out, column.length = 1) ∧
      ∀ x y, (cellAt out x y).map List.length = (cellAt demoGrid x y).map List.length := by
  have t := GetRaycastOutput_dimensions demoDeps demoObject demoManifest demoSprite demoGrid 2 1
    (by decide) demoGrid_rectangular
  obtain ⟨out, hout⟩ := t.2 demo_completes
  exact ⟨out, hout, t.1 out hout⟩

/-- Claim C3. `raycastSample` returns the buffer untouched for a sub-sample
whose primary ray reports no geometry, and in every output that
`GetRaycastOutput` returns each such sub-sample holds the zero value:
`Collision` is false, `Index`, `Depth` and `Occlusion` are 0, both normals are
zero, `LightAmount` is 0 and `Shadowing` is 0. -/
theorem GetRaycastOutput_no_geometry (d : Deps) (object : ProcessedVoxelObject) (m : Manifest)
    (spr : Sprite) (sampler : Samples) (fuel h : Nat)
    (hcols : 0 < sampler.length) (hrect : Rectangular sampler h) :
    (∀ (s : Vector2) (result : RenderOutput) (x y i : Nat),
      (primaryRay d (renderViewport d object m spr) s (renderRay d m spr)
        (renderLimits object) object spr).HasGeometry = false →
      raycastSample d (renderViewport d object m spr) s (renderRay d m spr)
        (renderLimits object) object spr (renderLighting d m spr) result x y i fuel
          = .ok result) ∧
    (∀ out, GetRaycastOutput d object m spr sampler fuel = .ok out →
      ∀ x y i s, entryAt sampler x y i = some s →
        (primaryRay d (renderViewport d object m spr) s (renderRay d m spr)
          (renderLimits object) object spr).HasGeometry = false →
        ∃ stored, entryAt out x y i = some stored ∧
          stored.Collision = false ∧ stored.Index = 0 ∧ stored.Depth = 0 ∧
          stored.Occlusion = 0 ∧ stored.Normal = { X := 0, Y := 0, Z := 0 } ∧
          stored.AveragedNormal = { X := 0, Y := 0, Z := 0 } ∧
          stored.LightAmount = 0 ∧ stored.Shadowing = 0) ∧
    ((∀ column ∈ sampler, ∀ cell ∈ column, ∀ s ∈ cell,
        (primaryRay d (renderViewport d object m spr) s (renderRay d m spr)
          (renderLimits object) object spr).HasGeometry = false) →
      ∃ out, GetRaycastOutput d object m spr sampler fuel = .ok out) := by
  refine ⟨fun s result x y i hmiss => raycastSample_miss _ _ _ _ _ _ _ _ _ _ _ _ _ hmiss, ?_, ?_⟩
  · intro out hok x y i s hs hmiss
    obtain ⟨_, rfl⟩ := (GetRaycastOutput_ok_iff d object m spr sampler fuel h out hcols hrect).mp hok
    refine ⟨RenderSample.zero, ?_, rfl, rfl, rfl, rfl, rfl, rfl, rfl, rfl⟩
    rw [entryAt_map, hs, Option.map_some', sampleValue_miss _ _ _ _ _ _ _ _ hmiss]
  · intro hmiss
    refine ⟨_, GetRaycastOutput_eq d object m spr sampler fuel h hcols hrect ?_⟩
    intro column hcol cell hcell s hs hhit
    rw [hmiss column hcol cell hcell s hs] at hhit
    cases hhit

/-- The example scene: the render returns and the sub-sample at offset
`(1/2, 0)`, whose ray misses, holds the zero value. -/
theorem GetRaycastOutput_no_geometry_witness :
    ∃ out, GetRaycastOutput demoDeps demoObject demoManifest demoSprite demoGrid 2 = .ok out ∧
      ∃ stored, entryAt out 0 0 1 = some stored ∧
        stored.Collision = false ∧ stored.Index = 0 ∧ stored.Depth = 0 ∧
        stored.Occlusion = 0 ∧ stored.Normal = { X := 0, Y := 0, Z := 0 } ∧
        stored.AveragedNormal = { X := 0, Y := 0, Z := 0 } ∧
        stored.LightAmount = 0 ∧ stored.Shadowing = 0 := by
  have t := GetRaycastOutput_no_geometry demoDeps demoObject demoManifest demoSprite demoGrid
    2 1 (by decide) demoGrid_rectangular
  obtain ⟨out, hout⟩ := demo_render_returns
  exact ⟨out, hout, t.2.1 out hout 0 0 1 { X := 1 / 2, Y := 0 } rfl
    (by simp [primaryRay, demoDeps])⟩

/-- Claim C5. In every output that `GetRaycastOutput` returns, a sub-sample
whose primary ray hits geometry at voxel `(X, Y, Z)` with depth `n` holds
`Collision = true`, `Depth = n` (the primary depth), and the `Index`,
`Normal`, `AveragedNormal` and `Occlusion` of `Elements[X][Y][Z]`; and
`GetRaycastOutput` does return when every per-sample evaluation completes. -/
theorem GetRaycastOutput_hit (d : Deps) (object : ProcessedVoxelObject) (m : Manifest)
    (spr : Sprite) (sampler : Samples) (fuel h : Nat)
    (hcols : 0 < sampler.length) (hrect : Rectangular sampler h) :
    (∀ out, GetRaycastOutput d object m spr sampler fuel = .ok out →
      ∀ x y i s X Y Z n, entryAt sampler x y i = some s →
        primaryRay d (renderViewport d object m spr) s (renderRay d m spr)
          (renderLimits object) object spr
            = { X := X, Y := Y, Z := Z, HasGeometry := true, Depth := n } →
        ∃ stored element, entryAt out x y i = some stored ∧
          elementAt object X Y Z = .ok element ∧
          stored.Collision = true ∧ stored.Depth = n ∧ stored.Index = element.Index ∧
          stored.Normal = element.Normal ∧ stored.AveragedNormal = element.AveragedNormal ∧
          stored.Occlusion = element.Occlusion) ∧
    ((∀ column ∈ sampler, ∀ cell ∈ column, ∀ s ∈ cell,
        Completes d (renderViewport d object m spr) (renderRay d m spr) (renderLimits object)
          object spr (renderLighting d m spr) fuel s) →
      ∃ out, GetRaycastOutput d object m spr sampler fuel = .ok out) := by
  constructor
  · intro out hok x y i s X Y Z n hs hray
    obtain ⟨hc, rfl⟩ := (GetRaycastOutput_ok_iff d object m spr sampler fuel h out hcols hrect).mp hok
    obtain ⟨column, hcol, cell, hcell, hmem⟩ := mem_of_entryAt _ _ _ _ _ hs
    have hhit : (primaryRay d (renderViewport d object m spr) s (renderRay d m spr)
        (renderLimits object) object spr).HasGeometry = true := by rw [hray]
    obtain ⟨_, _, element, hel⟩ := hc column hcol cell hcell s hmem hhit
    have hv := sampleValue_hit d (renderViewport d object m spr) (renderRay d m spr)
      (renderLimits object) object spr (renderLighting d m spr) s element hhit hel
    refine ⟨sampleValue d (renderViewport d object m spr) (renderRay d m spr)
      (renderLimits object) object spr (renderLighting d m spr) s, element, ?_, ?_, ?_⟩
    · rw [entryAt_map, hs, Option.map_some']
    · rw [hray] at hel
      exact hel
    · rw [hv, hray]
      unfold setResult
      split_ifs <;> exact ⟨rfl, rfl, rfl, rfl, rfl, rfl⟩
  · intro hc
    exact ⟨_, GetRaycastOutput_eq d object m spr sampler fuel h hcols hrect hc⟩

/-- The example scene: the render returns and the sub-sample at offset
`(0, 0)`, whose ray hits voxel `(0, 0, 0)` at depth 3, holds the data of the
element stored there. -/
theorem GetRaycastOutput_hit_witness :
    ∃ out, GetRaycastOutput demoDeps demoObject demoManifest demoSprite demoGrid 2 = .ok out ∧
      ∃ stored element, entryAt out 0 0 0 = some stored ∧
        elementAt demoObject 0 0 0 = .ok element ∧
        stored.Collision = true ∧ stored.Depth = 3 ∧ stored.Index = element.Index ∧
        stored.Normal = element.Normal ∧ stored.AveragedNormal = element.AveragedNormal ∧
        stored.Occlusion = element.Occlusion := by
  have t := GetRaycastOutput_hit demoDeps demoObject demoManifest demoSprite demoGrid 2 1
    (by decide) demoGrid_rectangular
  obtain ⟨out, hout⟩ := t.2 demo_completes
  exact ⟨out, hout, t.1 out hout 0 0 0 { X := 0, Y := 0 } 0 0 0 3 rfl
    (by simp [primaryRay, demoDeps])⟩

/-! ## `Square` -/

theorem foldl_set_length {α : Type} (f : Nat → Nat) (v : Nat → α) (ls : List Nat) :
    ∀ cell : List α, (ls.foldl (fun c l => c.set (f l) (v l)) cell).length = cell.length := by
  induction ls with
  | nil => intro cell; rfl
  | cons l ls ih => intro cell; rw [List.foldl_cons, ih, List.length_set]

theorem foldl_set_offset_get {α : Type} (v : Nat → α) (base m : Nat) (cell : List α) (p : Nat) :
    ((List.range m).foldl (fun c l => c.set (l + base) (v l)) cell)[p]?
      = if base ≤ p ∧ p < base + m ∧ p < cell.length then some (v (p - base)) else cell[p]? := by
  induction m with
  | zero =>
    have : ¬(base ≤ p ∧ p < base + 0 ∧ p < cell.length) := by omega
    rw [List.range_zero, List.foldl_nil, if_neg this]
  | succ n ih =>
    rw [List.range_succ, List.foldl_append, List.foldl_cons, List.foldl_nil, List.getElem?_set, ih]
    rw [foldl_set_length]
    by_cases hp : n + base = p
    · subst hp
      rw [if_pos rfl]
      by_cases hl : n + base < cell.length
      · rw [if_pos hl, if_pos (by omega), Nat.add_sub_cancel]
      · rw [if_neg hl, if_neg (by omega), List.getElem?_eq_none (by omega)]
    · rw [if_neg hp]
      by_cases h : base ≤ p ∧ p < base + n ∧ p < cell.length
      · rw [if_pos h, if_pos (by omega)]
      · rw [if_neg h, if_neg (by omega)]

theorem squareInner_length (width height accuracy : Nat) (overlap : ℚ) (i j k : Nat)
    (cell : Sample) :
    (squareInner width height accuracy overlap i j k cell).length = cell.length :=
  foldl_set_length _ _ _ _

theorem squareInner_get (width height accuracy : Nat) (overlap : ℚ) (i j k : Nat)
    (cell : Sample) (p : Nat) :
    (squareInner width height accuracy overlap i j k cell)[p]?
      = if k * accuracy ≤ p ∧ p < k * accuracy + accuracy ∧ p < cell.length then
          some (squareOffset width height accuracy overlap i j k (p - k * accuracy))
        else cell[p]? :=
  foldl_set_offset_get _ _ _ _ _

theorem squareOuter_length (width height accuracy : Nat) (overlap : ℚ) (i j : Nat)
    (ks : List Nat) :
    ∀ cell : Sample,
      (ks.foldl (fun cell k => squareInner width height accuracy overlap i j k cell) cell).length
        = cell.length := by
  induction ks with
  | nil => intro cell; rfl
  | cons k ks ih => intro cell; rw [List.foldl_cons, ih, squareInner_length]

theorem squareOuter_get (width height accuracy : Nat) (overlap : ℚ) (i j : Nat)
    (cell : Sample) (n p : Nat) :
    ((List.range n).foldl (fun cell k => squareInner width height accuracy overlap i j k cell)
        cell)[p]?
      = if p < n * accuracy ∧ p < cell.length then
          some (squareOffset width height accuracy overlap i j (p / accuracy) (p % accuracy))
        else cell[p]? := by
  induction n with
  | zero =>
    have : ¬(p < 0 * accuracy ∧ p < cell.length) := by omega
    rw [List.range_zero, List.foldl_nil, if_neg this]
  | succ n ih =>
    rw [List.range_succ, List.foldl_append, List.foldl_cons, List.foldl_nil, squareInner_get, ih,
      squareOuter_length]
    have hsucc : (n + 1) * accuracy = n * accuracy + accuracy := Nat.succ_mul n accuracy
    by_cases h : n * accuracy ≤ p ∧ p < n * accuracy + accuracy ∧ p < cell.length
    · have hpos : 0 < accuracy := by omega
      have hdiv : p / accuracy = n :=
        Nat.div_eq_of_lt_le (by omega) (by rw [Nat.succ_mul]; omega)
      have hmod : p % accuracy = p - n * accuracy := by
        have := Nat.div_add_mod p accuracy
        rw [hdiv, Nat.mul_comm] at this
        omega
      rw [if_pos h, if_pos (by omega), hdiv, hmod]
    · rw [if_neg h]
      by_cases h2 : p < n * accuracy ∧ p < cell.length
      · rw [if_pos h2, if_pos (by omega)]
      · rw [if_neg h2, if_neg (by omega)]

theorem squareCell_length (width height accuracy : Nat) (overlap : ℚ) (i j : Nat) :
    (squareCell width height accuracy overlap i j).length = accuracy * accuracy := by
  unfold squareCell
  rw [squareOuter_length, List.length_replicate]

theorem squareCell_get (width height accuracy : Nat) (overlap : ℚ) (i j k l : Nat)
    (hk : k < accuracy) (hl : l < accuracy) :
    (squareCell width height accuracy overlap i j)[k * accuracy + l]?
      = some (squareOffset width height accuracy overlap i j k l) := by
  unfold squareCell
  have hlt : k * accuracy + l < accuracy * accuracy := by
    calc k * accuracy + l < k * accuracy + accuracy := by omega
      _ = (k + 1) * accuracy := (Nat.succ_mul k accuracy).symm
      _ ≤ accuracy * accuracy := Nat.mul_le_mul_right _ hk
  have hdiv : (k * accuracy + l) / accuracy = k :=
    Nat.div_eq_of_lt_le (by omega) (by rw [Nat.succ_mul]; omega)
  have hmod : (k * accuracy + l) % accuracy = l := by
    rw [Nat.add_comm, Nat.add_mul_mod_self_right, Nat.mod_eq_of_lt hl]
  rw [squareOuter_get, if_pos ⟨hlt, by rw [List.length_replicate]; exact hlt⟩, hdiv, hmod]

theorem Square_cellAt (width height accuracy : Nat) (overlap : ℚ) (i j : Nat)
    (hi : i < width) (hj : j < height) :
    cellAt (Square width height accuracy overlap) i j
      = some (squareCell width height accuracy overlap i j) := by
  simp [cellAt, Square, List.getElem?_map, List.getElem?_range hi, List.getElem?_range hj]

theorem Square_one_one_two :
    Square 1 1 2 0
      = [[[{ X := 0, Y := 0 }, { X := 0, Y := 1 / 2 }, { X := 1 / 2, Y := 0 },
           { X := 1 / 2, Y := 1 / 2 }]]] := by
  simp [Square, squareCell, squareInner, squareOffset, List.range_succ, List.replicate]

/-- Claim C6. `Square` returns a `width` by `height` grid whose cell `(i, j)`
holds exactly `accuracy*accuracy` offsets, the one at position
`k*accuracy + l` being `X = (i*accuracy + k*(1+overlap)) / (width*accuracy)`,
`Y = (j*accuracy + l*(1+overlap)) / (height*accuracy)`; for width = height = 1,
accuracy = 2, overlap = 0 the offsets are (0,0), (0,0.5), (0.5,0), (0.5,0.5). -/
theorem Square_offsets (width height accuracy : Nat) (overlap : ℚ) :
    (Square width height accuracy overlap).length = width ∧
    (∀ column ∈ Square width height accuracy overlap, column.length = height) ∧
    (∀ i j, i < width → j < height →
      ∃ cell, cellAt (Square width height accuracy overlap) i j = some cell ∧
        cell.length = accuracy * accuracy ∧
        ∀ k l, k < accuracy → l < accuracy →
          cell[k * accuracy + l]?
            = some { X := ((i : ℚ) * accuracy + k * (1 + overlap)) / ((width : ℚ) * accuracy)
                     Y := ((j : ℚ) * accuracy + l * (1 + overlap)) / ((height : ℚ) * accuracy) }) ∧
    Square 1 1 2 0
      = [[[{ X := 0, Y := 0 }, { X := 0, Y := 1 / 2 }, { X := 1 / 2, Y := 0 },
           { X := 1 / 2, Y := 1 / 2 }]]] := by
  refine ⟨by simp [Square], ?_, ?_, Square_one_one_two⟩
  · intro column hcol
    simp only [Square, List.mem_map] at hcol
    obtain ⟨i, _, rfl⟩ := hcol
    simp
  · intro i j hi hj
    refine ⟨_, Square_cellAt width height accuracy overlap i j hi hj, squareCell_length _ _ _ _ _ _, ?_⟩
    intro k l hk hl
    rw [squareCell_get _ _ _ _ _ _ _ _ hk hl]
    simp [squareOffset]

/-! ## Disc generation and the pool -/

theorem Float64_range (r : Rng) : 0 ≤ r.Float64.1 ∧ r.Float64.1 < 1 := by
  unfold Rng.Float64
  constructor
  · positivity
  · rw [div_lt_one (by positivity)]
    have h : r.draws r.pos % 2 ^ 53 < 2 ^ 53 := Nat.mod_lt _ (by positivity)
    exact_mod_cast h

theorem nextTrial_WithinBox (radius : ℚ) (hr : 0 < radius) (r : Rng) :
    WithinBox radius (nextTrial radius r).1 := by
  obtain ⟨hx0, hx1⟩ := Float64_range r
  obtain ⟨hy0, hy1⟩ := Float64_range r.Float64.2
  simp only [WithinBox, nextTrial]
  refine ⟨?_, ?_, ?_, ?_⟩ <;> nlinarith

theorem dartLoop_forall (P : Vector2 → Prop) (numSamples : Nat) (distance radius : ℚ)
    (hP : ∀ r, P (nextTrial radius r).1) (iterations : Nat) :
    ∀ (disc : List Vector2) (r : Rng), (∀ p ∈ disc, P p) →
      ∀ p ∈ (dartLoop numSamples distance radius iterations disc r).1, P p := by
  induction iterations with
  | zero => intro disc r h; simpa [dartLoop] using h
  | succ n ih =>
    intro disc r h
    have hext : ∀ p ∈ disc ++ [(nextTrial radius r).1], P p := by
      intro p hp
      rcases List.mem_append.mp hp with hp | hp
      · exact h p hp
      · rw [List.mem_singleton.mp hp]; exact hP r
    unfold dartLoop
    simp only
    split_ifs
    · exact hext
    · exact ih _ _ hext
    · exact ih _ _ h

theorem generateDisc_WithinBox (accuracy : Nat) (overlap : ℚ) (ho : 0 ≤ overlap) (r : Rng) :
    ∀ p ∈ (generateDisc accuracy overlap r).1, WithinBox (1 / 2 + overlap) p := by
  unfold generateDisc
  exact dartLoop_forall _ _ _ _ (nextTrial_WithinBox _ (by linarith)) _ _ _
    (by intro p hp; simp at hp)

theorem getPoissonDisc_PoolAll (Q : List Vector2 → Prop) (accuracy : Nat) (overlap : ℚ)
    (hgen : ∀ r, Q (generateDisc accuracy overlap r).1) (st : SamplerState)
    (h : PoolAll Q st) :
    Q (getPoissonDisc accuracy overlap st).1 ∧ PoolAll Q (getPoissonDisc accuracy overlap st).2 := by
  have hcache : ∀ disc, some disc ∈ st.pool → Q disc := by
    intro disc hd
    unfold SamplerState.pool at hd
    cases hc : st.discCache with
    | none =>
      rw [hc] at hd
      simp only at hd
      have := List.eq_of_mem_replicate hd
      cases this
    | some c =>
      rw [hc] at hd
      exact h c hc disc hd
  unfold getPoissonDisc
  simp only
  split
  · next disc hd =>
    refine ⟨?_, ?_⟩
    · apply hcache
      rw [List.getD_eq_getElem?_getD] at hd
      cases hg : st.pool[(st.rng.Intn discs).1]? with
      | none => rw [hg] at hd; cases hd
      | some slot =>
        rw [hg] at hd
        simp only [Option.getD_some] at hd
        rw [hd] at hg
        exact List.getElem?_mem hg
    · intro cache hc disc2 hd2
      simp only [Option.some.injEq] at hc
      subst hc
      exact hcache disc2 hd2
  · refine ⟨hgen _, ?_⟩
    intro cache hc disc2 hd2
    simp only [Option.some.injEq] at hc
    subst hc
    rcases List.mem_or_eq_of_mem_set hd2 with hm | he
    · exact hcache disc2 hm
    · simp only [Option.some.injEq] at he
      rw [he]
      exact hgen _

theorem discRows_spec (Q : List Vector2 → Prop) (width height accuracy : Nat) (overlap : ℚ)
    (hgen : ∀ r, Q (generateDisc accuracy overlap r).1) (i : Nat) (remaining : Nat) :
    ∀ (j : Nat) (st : SamplerState), PoolAll Q st →
      (discRows width height accuracy overlap i remaining j st).1.length = remaining ∧
      PoolAll Q (discRows width height accuracy overlap i remaining j st).2 ∧
      ∀ k cell, (discRows width height accuracy overlap i remaining j st).1[k]? = some cell →
        ∃ disc, Q disc ∧
          cell = discCell { X := width, Y := height }
            { X := (i : ℚ) / width, Y := ((j + k : Nat) : ℚ) / height } disc := by
  induction remaining with
  | zero =>
    intro j st h
    refine ⟨rfl, h, ?_⟩
    intro k cell hk
    simp [discRows] at hk
  | succ n ih =>
    intro j st h
    obtain ⟨hq, hpool⟩ := getPoissonDisc_PoolAll Q accuracy overlap hgen st h
    obtain ⟨hlen, hpool2, hcells⟩ := ih (j + 1) _ hpool
    refine ⟨?_, ?_, ?_⟩
    · simp only [discRows, List.length_cons, hlen]
    · simpa only [discRows] using hpool2
    · intro k cell hk
      simp only [discRows] at hk
      cases k with
      | zero =>
        simp only [List.getElem?_cons_zero, Option.some.injEq] at hk
        exact ⟨_, hq, by rw [← hk]; simp⟩
      | succ k =>
        simp only [List.getElem?_cons_succ] at hk
        obtain ⟨disc, hd, hc⟩ := hcells k cell hk
        refine ⟨disc, hd, ?_⟩
        rw [hc]
        have : j + 1 + k = j + (k + 1) := by omega
        rw [this]

theorem discColumns_spec (Q : List Vector2 → Prop) (width height accuracy : Nat) (overlap : ℚ)
    (hgen : ∀ r, Q (generateDisc accuracy overlap r).1) (remaining : Nat) :
    ∀ (i : Nat) (st : SamplerState), PoolAll Q st →
      (discColumns width height accuracy overlap remaining i st).1.length = remaining ∧
      PoolAll Q (discColumns width height accuracy overlap remaining i st).2 ∧
      ∀ k column, (discColumns width height accuracy overlap remaining i st).1[k]? = some column →
        column.length = height ∧
        ∀ (j : Nat) (cell : Sample), column[j]? = some cell →
          ∃ disc, Q disc ∧
            cell = discCell { X := width, Y := height }
              { X := ((i + k : Nat) : ℚ) / width, Y := (j : ℚ) / height } disc := by
  induction remaining with
  | zero =>
    intro i st h
    refine ⟨rfl, h, ?_⟩
    intro k column hk
    simp [discColumns] at hk
  | succ n ih =>
    intro i st h
    obtain ⟨hrl, hrpool, hrcells⟩ := discRows_spec Q width height accuracy overlap hgen i height 0 st h
    obtain ⟨hlen, hpool2, hcols⟩ := ih (i + 1) _ hrpool
    refine ⟨?_, ?_, ?_⟩
    · simp only [discColumns, List.length_cons, hlen]
    · simpa only [discColumns] using hpool2
    · intro k column hk
      simp only [discColumns] at hk
      cases k with
      | zero =>
        simp only [List.getElem?_cons_zero, Option.some.injEq] at hk
        subst hk
        refine ⟨hrl, ?_⟩
        intro j cell hj
        obtain ⟨disc, hd, hc⟩ := hrcells j cell hj
        exact ⟨disc, hd, by rw [hc]; simp⟩
      | succ k =>
        simp only [List.getElem?_cons_succ] at hk
        obtain ⟨hcl, hc⟩ := hcols k column hk
        refine ⟨hcl, ?_⟩
        intro j cell hj
        obtain ⟨disc, hd, hce⟩ := hc j cell hj
        refine ⟨disc, hd, ?_⟩
        rw [hce]
        have : i + 1 + k = i + (k + 1) := by omega
        rw [this]

theorem Disc_spec (Q : List Vector2 → Prop) (width height accuracy : Nat) (overlap : ℚ)
    (hgen : ∀ r, Q (generateDisc accuracy overlap r).1) (st : SamplerState)
    (h : PoolAll Q st) :
    (Disc width height accuracy overlap st).1.length = width ∧
    (∀ column ∈ (Disc width height accuracy overlap st).1, column.length = height) ∧
    PoolAll Q (Disc width height accuracy overlap st).2 ∧
    ∀ i j cell, cellAt (Disc width height accuracy overlap st).1 i j = some cell →
      ∃ disc, Q disc ∧
        cell = discCell { X := width, Y := height }
          { X := (i : ℚ) / width, Y := (j : ℚ) / height } disc := by
  obtain ⟨hlen, hpool, hcols⟩ := discColumns_spec Q width height accuracy overlap hgen width 0 st h
  refine ⟨hlen, ?_, hpool, ?_⟩
  · intro column hcol
    obtain ⟨k, hk⟩ := List.mem_iff_getElem?.mp hcol
    exact (hcols k column hk).1
  · intro i j cell hcell
    unfold cellAt at hcell
    cases hi : (Disc width height accuracy overlap st).1[i]? with
    | none => simp [hi] at hcell
    | some column =>
      simp only [hi] at hcell
      obtain ⟨disc, hd, hc⟩ := (hcols i column hi).2 j cell hcell
      exact ⟨disc, hd, by rw [hc]; simp⟩

/-! ## The sampler at concrete inputs -/

theorem Square_one_one_two_one :
    Square 1 1 2 1
      = [[[{ X := 0, Y := 0 }, { X := 0, Y := 1 }, { X := 1, Y := 0 }, { X := 1, Y := 1 }]]] := by
  simp [Square, squareCell, squareInner, squareOffset, List.range_succ, List.replicate]

theorem dartLoop_succ_nil (numSamples : Nat) (distance radius : ℚ) (n : Nat) (r : Rng) :
    dartLoop numSamples distance radius (n + 1) [] r
      = if 1 ≥ numSamples then ([(nextTrial radius r).1], (nextTrial radius r).2)
        else dartLoop numSamples distance radius n [(nextTrial radius r).1]
          (nextTrial radius r).2 := by
  rw [dartLoop]
  simp only [trialValid, if_true, List.nil_append, List.length_singleton]

theorem generateDisc_one (overlap : ℚ) (r : Rng) :
    generateDisc 1 overlap r
      = ([(nextTrial (1 / 2 + overlap) r).1], (nextTrial (1 / 2 + overlap) r).2) := by
  have h : (1 * 1 * 1000 : Nat) = 999 + 1 := rfl
  unfold generateDisc
  simp only
  rw [h, dartLoop_succ_nil, if_pos (by decide)]

theorem getPoissonDisc_fresh_zeroDraws :
    (getPoissonDisc 1 0 (SamplerState.fresh zeroDraws)).1
      = [{ X := -(1 / 2), Y := -(1 / 2) }] := by
  simp [getPoissonDisc, SamplerState.pool, SamplerState.fresh, Rng.Intn, zeroDraws, discs, List.replicate,
    generateDisc_one, nextTrial, Rng.Float64]

theorem Disc_fresh_zeroDraws :
    (Disc 1 1 1 0 (SamplerState.fresh zeroDraws)).1 = [[[{ X := -(1 / 2), Y := -(1 / 2) }]]] := by
  simp [Disc, discColumns, discRows, discCell, getPoissonDisc, SamplerState.pool,
    SamplerState.fresh, Rng.Intn,
    zeroDraws, discs, List.replicate, generateDisc_one, nextTrial, Rng.Float64, Vector2.Add,
    Vector2.DivideByVector]

theorem squareCell_mem (width height accuracy : Nat) (overlap : ℚ) (i j : Nat) (s : Vector2)
    (hs : s ∈ squareCell width height accuracy overlap i j) :
    ∃ k l, k < accuracy ∧ l < accuracy ∧ s = squareOffset width height accuracy overlap i j k l := by
  obtain ⟨p, hp⟩ := List.mem_iff_getElem?.mp hs
  have hlt : p < accuracy * accuracy := by
    have := (List.getElem?_eq_some.mp hp).1
    rwa [squareCell_length] at this
  have hpos : 0 < accuracy := by
    rcases Nat.eq_zero_or_pos accuracy with h | h
    · subst h; omega
    · exact h
  unfold squareCell at hp
  rw [squareOuter_get, if_pos ⟨hlt, by rw [List.length_replicate]; exact hlt⟩] at hp
  exact ⟨p / accuracy, p % accuracy, Nat.div_lt_of_lt_mul hlt, Nat.mod_lt _ hpos,
    (Option.some.inj hp).symm⟩

theorem unit_interval_of_lattice (n a i k : Nat) (overlap : ℚ) (hi : i < n) (hk : k < a)
    (ho : 0 ≤ overlap) (hspill : ((a : ℚ) - 1) * overlap < 1) :
    0 ≤ (((i * a : Nat) : ℚ) + (k : ℚ) * (1 + overlap)) / ((n * a : Nat) : ℚ) ∧
    (((i * a : Nat) : ℚ) + (k : ℚ) * (1 + overlap)) / ((n * a : Nat) : ℚ) < 1 := by
  have hi2 : (i : ℚ) + 1 ≤ n := by exact_mod_cast hi
  have hk2 : (k : ℚ) + 1 ≤ a := by exact_mod_cast hk
  have hi0 : (0 : ℚ) ≤ i := Nat.cast_nonneg i
  have hk0 : (0 : ℚ) ≤ k := Nat.cast_nonneg k
  have ha0 : (0 : ℚ) < a := by linarith
  have hn0 : (0 : ℚ) < n := by linarith
  have hden : (0 : ℚ) < ((n * a : Nat) : ℚ) := by push_cast; positivity
  constructor
  · apply div_nonneg _ hden.le
    push_cast
    positivity
  · rw [div_lt_one hden]
    push_cast
    have h1 : (k : ℚ) * overlap ≤ ((a : ℚ) - 1) * overlap :=
      mul_le_mul_of_nonneg_right (by linarith) ho
    have h2 : ((i : ℚ) + 1) * a ≤ n * a := mul_le_mul_of_nonneg_right hi2 ha0.le
    nlinarith

theorem Square_InUnitSquare (width height accuracy : Nat) (overlap : ℚ) (ho : 0 ≤ overlap)
    (hspill : ((accuracy : ℚ) - 1) * overlap < 1) :
    InUnitSquare (Square width height accuracy overlap) := by
  intro column hcol cell hcell s hs
  simp only [Square, List.mem_map, List.mem_range] at hcol
  obtain ⟨i, hi, rfl⟩ := hcol
  simp only [List.mem_map, List.mem_range] at hcell
  obtain ⟨j, hj, rfl⟩ := hcell
  obtain ⟨k, l, hk, hl, rfl⟩ := squareCell_mem _ _ _ _ _ _ _ hs
  obtain ⟨hx0, hx1⟩ := unit_interval_of_lattice width accuracy i k overlap hi hk ho hspill
  obtain ⟨hy0, hy1⟩ := unit_interval_of_lattice height accuracy j l overlap hj hl ho hspill
  exact ⟨hx0, hx1, hy0, hy1⟩

theorem discCell_bounds (width height : Nat) (hw : 1 ≤ width) (hh : 1 ≤ height) (r : ℚ)
    (i j : Nat) (disc : List Vector2) (hd : ∀ p ∈ disc, WithinBox r p) (s : Vector2)
    (hs : s ∈ discCell { X := width, Y := height }
      { X := (i : ℚ) / width, Y := (j : ℚ) / height } disc) :
    ((i : ℚ) - r) / width ≤ s.X ∧ s.X < ((i : ℚ) + r) / width ∧
    ((j : ℚ) - r) / height ≤ s.Y ∧ s.Y < ((j : ℚ) + r) / height := by
  simp only [discCell, List.mem_map] at hs
  obtain ⟨p, hp, rfl⟩ := hs
  obtain ⟨hx0, hx1, hy0, hy1⟩ := hd p hp
  have hw0 : (0 : ℚ) < width := by exact_mod_cast hw
  have hh0 : (0 : ℚ) < height := by exact_mod_cast hh
  simp only [Vector2.Add, Vector2.DivideByVector, ← add_div]
  refine ⟨?_, ?_, ?_, ?_⟩
  · exact div_le_div_of_nonneg_right (by linarith) hw0.le
  · exact div_lt_div_of_pos_right (by linarith) hw0
  · exact div_le_div_of_nonneg_right (by linarith) hh0.le
  · exact div_lt_div_of_pos_right (by linarith) hh0

theorem PoolAll_fresh (Q : List Vector2 → Prop) (draws : Nat → Nat) :
    PoolAll Q (SamplerState.fresh draws) := by
  intro cache hc
  simp [SamplerState.fresh] at hc

/-- Claim C7 as stated fails: with overlap 1 the `Square` grid of one pixel
and accuracy 2 holds an offset with `X = 1`, and the `Disc` grid of a fresh
sampler whose draws are all zero holds an offset with `X = -1/2`. -/
theorem sampler_offsets_leave_unit_square :
    ¬ InUnitSquare (Square 1 1 2 1) ∧
    ¬ InUnitSquare (Disc 1 1 1 0 (SamplerState.fresh zeroDraws)).1 := by
  constructor
  · intro h
    rw [Square_one_one_two_one] at h
    have := (h _ (List.mem_singleton.mpr rfl) _ (List.mem_singleton.mpr rfl)
      { X := 1, Y := 1 } (by simp)).2.1
    simp at this
  · intro h
    rw [Disc_fresh_zeroDraws] at h
    have := (h _ (List.mem_singleton.mpr rfl) _ (List.mem_singleton.mpr rfl)
      { X := -(1 / 2), Y := -(1 / 2) } (by simp)).1
    norm_num at this

/-- Claim C7, amended. For `overlap >= 0`: every `Square` offset has both
coordinates in `[0, 1)` provided `(accuracy - 1) * overlap < 1`; every `Disc`
offset of cell `(i, j)` lies within `0.5 + overlap` pixel widths of `i/width`
and pixel heights of `j/height`, provided the pooled discs lie in that box. -/
theorem sampler_offset_bounds (width height accuracy : Nat) (overlap : ℚ) (st : SamplerState)
    (hw : 1 ≤ width) (hh : 1 ≤ height) (ho : 0 ≤ overlap) :
    (((accuracy : ℚ) - 1) * overlap < 1 → InUnitSquare (Square width height accuracy overlap)) ∧
    (PoolAll (fun disc => ∀ p ∈ disc, WithinBox (1 / 2 + overlap) p) st →
      ∀ i j cell s, cellAt (Disc width height accuracy overlap st).1 i j = some cell → s ∈ cell →
        ((i : ℚ) - (1 / 2 + overlap)) / width ≤ s.X ∧
        s.X < ((i : ℚ) + (1 / 2 + overlap)) / width ∧
        ((j : ℚ) - (1 / 2 + overlap)) / height ≤ s.Y ∧
        s.Y < ((j : ℚ) + (1 / 2 + overlap)) / height) := by
  refine ⟨Square_InUnitSquare width height accuracy overlap ho, ?_⟩
  intro hpool i j cell s hcell hs
  obtain ⟨_, _, _, hcells⟩ := Disc_spec (fun disc => ∀ p ∈ disc, WithinBox (1 / 2 + overlap) p)
    width height accuracy overlap (generateDisc_WithinBox accuracy overlap ho) st hpool
  obtain ⟨disc, hd, rfl⟩ := hcells i j cell hcell
  exact discCell_bounds width height hw hh _ i j disc hd s hs

/-- An instance of `sampler_offset_bounds`: one pixel, accuracy 2, no overlap,
a fresh sampler. -/
theorem sampler_offset_bounds_witness :
    InUnitSquare (Square 1 1 2 0) ∧
    ∀ i j cell s, cellAt (Disc 1 1 2 0 (SamplerState.fresh zeroDraws)).1 i j = some cell →
      s ∈ cell →
      ((i : ℚ) - (1 / 2 + 0)) / ((1 : Nat) : ℚ) ≤ s.X ∧
      s.X < ((i : ℚ) + (1 / 2 + 0)) / ((1 : Nat) : ℚ) ∧
      ((j : ℚ) - (1 / 2 + 0)) / ((1 : Nat) : ℚ) ≤ s.Y ∧
      s.Y < ((j : ℚ) + (1 / 2 + 0)) / ((1 : Nat) : ℚ) := by
  have t := sampler_offset_bounds 1 1 2 0 (SamplerState.fresh zeroDraws) (by decide)
    (by decide) (le_refl 0)
  exact ⟨t.1 (by norm_num), t.2 (PoolAll_fresh _ _)⟩

theorem Vector2.DistanceSquared_comm (a b : Vector2) :
    a.DistanceSquared b = b.DistanceSquared a := by
  simp only [Vector2.DistanceSquared]
  ring

theorem trialValid_true (trial : Vector2) (radius distance : ℚ) (disc : List Vector2)
    (h : trialValid trial radius distance disc = true) :
    ∀ p ∈ disc, trial.LengthSquared ≤ radius * radius ∧ distance ≤ trial.DistanceSquared p := by
  induction disc with
  | nil => intro p hp; simp at hp
  | cons q rest ih =>
    intro p hp
    unfold trialValid at h
    split_ifs at h with hq
    rw [not_or, not_lt, not_lt] at hq
    rcases List.mem_cons.mp hp with rfl | hp
    · exact hq
    · exact ih h p hp

theorem dartLoop_pairwise (numSamples : Nat) (distance radius : ℚ) (iterations : Nat) :
    ∀ (disc : List Vector2) (r : Rng),
      disc.Pairwise (fun p q => distance ≤ p.DistanceSquared q) →
      (dartLoop numSamples distance radius iterations disc r).1.Pairwise
        (fun p q => distance ≤ p.DistanceSquared q) := by
  induction iterations with
  | zero => intro disc r h; simpa [dartLoop] using h
  | succ n ih =>
    intro disc r h
    unfold dartLoop
    simp only
    by_cases hv : trialValid (nextTrial radius r).1 radius distance disc = true
    · have hext : (disc ++ [(nextTrial radius r).1]).Pairwise
          (fun p q => distance ≤ p.DistanceSquared q) := by
        rw [List.pairwise_append]
        refine ⟨h, List.pairwise_singleton _ _, ?_⟩
        intro p hp q hq
        rw [List.mem_singleton.mp hq, Vector2.DistanceSquared_comm]
        exact (trialValid_true _ _ _ _ hv p hp).2
      rw [if_pos hv]
      split_ifs
      · exact hext
      · exact ih _ _ hext
    · rw [if_neg hv]
      exact ih _ _ h

theorem generateDisc_pairwise (accuracy : Nat) (overlap : ℚ) (r : Rng) :
    (generateDisc accuracy overlap r).1.Pairwise
      (fun p q => 1 / ((accuracy : ℚ) * accuracy) ≤ p.DistanceSquared q) := by
  have h := dartLoop_pairwise (accuracy * accuracy) (1 / (accuracy : ℚ) * (1 / (accuracy : ℚ)))
    (1 / 2 + overlap) (accuracy * accuracy * 1000) [] r List.Pairwise.nil
  have he : 1 / (accuracy : ℚ) * (1 / (accuracy : ℚ)) = 1 / ((accuracy : ℚ) * accuracy) := by
    rw [one_div_mul_one_div]
  rw [he] at h
  unfold generateDisc
  simp only
  rw [he]
  exact h

theorem getPoissonDisc_empty_slot (accuracy : Nat) (overlap : ℚ) (st : SamplerState)
    (hslot : st.pool.getD (st.rng.Intn discs).1 none = none) :
    getPoissonDisc accuracy overlap st
      = ((generateDisc accuracy overlap (st.rng.Intn discs).2).1,
          { discCache := some (st.pool.set (st.rng.Intn discs).1
              (some (generateDisc accuracy overlap (st.rng.Intn discs).2).1))
            rng := (generateDisc accuracy overlap (st.rng.Intn discs).2).2 }) := by
  unfold getPoissonDisc
  simp only [hslot]

theorem fresh_pool_slot_empty (draws : Nat → Nat) :
    (SamplerState.fresh draws).pool.getD ((SamplerState.fresh draws).rng.Intn discs).1 none
      = none := by
  simp only [SamplerState.pool, SamplerState.fresh, List.getD_eq_getElem?_getD,
    List.getElem?_replicate]
  split_ifs <;> rfl

theorem dartLoop_succ (numSamples : Nat) (distance radius : ℚ) (n : Nat) (disc : List Vector2)
    (r : Rng) :
    dartLoop numSamples distance radius (n + 1) disc r
      = if trialValid (nextTrial radius r).1 radius distance disc then
          if (disc ++ [(nextTrial radius r).1]).length ≥ numSamples then
            (disc ++ [(nextTrial radius r).1], (nextTrial radius r).2)
          else dartLoop numSamples distance radius n (disc ++ [(nextTrial radius r).1])
            (nextTrial radius r).2
        else dartLoop numSamples distance radius n disc (nextTrial radius r).2 := by
  rw [dartLoop]

theorem nextTrial_fourDraws_1 :
    nextTrial (1 / 2 + 0) { draws := fourDraws, pos := 1 }
      = ({ X := -(1 / 2), Y := 0 }, { draws := fourDraws, pos := 3 }) := by
  simp [nextTrial, Rng.Float64, fourDraws]
  norm_num

theorem nextTrial_fourDraws_3 :
    nextTrial (1 / 2 + 0) { draws := fourDraws, pos := 3 }
      = ({ X := 0, Y := -(1 / 2) }, { draws := fourDraws, pos := 5 }) := by
  simp [nextTrial, Rng.Float64, fourDraws]
  norm_num

theorem nextTrial_fourDraws_5 :
    nextTrial (1 / 2 + 0) { draws := fourDraws, pos := 5 }
      = ({ X := 0, Y := 31 / 64 }, { draws := fourDraws, pos := 7 }) := by
  simp [nextTrial, Rng.Float64, fourDraws]
  norm_num

theorem nextTrial_fourDraws_7 :
    nextTrial (1 / 2 + 0) { draws := fourDraws, pos := 7 }
      = ({ X := 31 / 64, Y := 0 }, { draws := fourDraws, pos := 9 }) := by
  simp [nextTrial, Rng.Float64, fourDraws]
  norm_num

theorem getPoissonDisc_fourDraws :
    (getPoissonDisc 2 0 (SamplerState.fresh fourDraws)).1
      = [{ X := -(1 / 2), Y := 0 }, { X := 0, Y := -(1 / 2) }, { X := 0, Y := 31 / 64 },
         { X := 31 / 64, Y := 0 }] := by
  have h : (2 * 2 * 1000 : Nat) = 3996 + 1 + 1 + 1 + 1 := rfl
  rw [getPoissonDisc_empty_slot _ _ _ (fresh_pool_slot_empty fourDraws)]
  have hr : ((SamplerState.fresh fourDraws).rng.Intn discs).2
      = { draws := fourDraws, pos := 1 } := rfl
  simp only [generateDisc, h, hr]
  rw [dartLoop_succ, nextTrial_fourDraws_1]
  simp only [trialValid, if_true, List.nil_append, List.length_singleton]
  rw [if_neg (by decide), dartLoop_succ, nextTrial_fourDraws_3]
  have v2 : trialValid { X := 0, Y := -(1 / 2) } (1 / 2 + 0)
      (1 / ((2 : Nat) : ℚ) * (1 / ((2 : Nat) : ℚ))) [{ X := -(1 / 2), Y := 0 }] = true := by
    simp [trialValid, Vector2.LengthSquared, Vector2.DistanceSquared]
  have v3 : trialValid { X := 0, Y := 31 / 64 } (1 / 2 + 0)
      (1 / ((2 : Nat) : ℚ) * (1 / ((2 : Nat) : ℚ)))
      [{ X := -(1 / 2), Y := 0 }, { X := 0, Y := -(1 / 2) }] = true := by
    simp [trialValid, Vector2.LengthSquared, Vector2.DistanceSquared]
    norm_num
  have v4 : trialValid { X := 31 / 64, Y := 0 } (1 / 2 + 0)
      (1 / ((2 : Nat) : ℚ) * (1 / ((2 : Nat) : ℚ)))
      [{ X := -(1 / 2), Y := 0 }, { X := 0, Y := -(1 / 2) }, { X := 0, Y := 31 / 64 }]
      = true := by
    simp [trialValid, Vector2.LengthSquared, Vector2.DistanceSquared]
    norm_num
  rw [if_pos v2, if_neg (by decide), dartLoop_succ, nextTrial_fourDraws_5]
  simp only [List.cons_append, List.nil_append]
  rw [if_pos v3, if_neg (by decide), dartLoop_succ, nextTrial_fourDraws_7]
  simp only [List.cons_append, List.nil_append]
  rw [if_pos v4, if_pos (by decide)]

/-- Claim C9. The disc that `getPoissonDisc` generates into an empty pool slot
has squared distance at least `1/accuracy^2` between any two of its points at
distinct positions, whatever the overlap and the random draws. -/
theorem getPoissonDisc_separation (accuracy : Nat) (overlap : ℚ) (st : SamplerState)
    (hslot : st.pool.getD (st.rng.Intn discs).1 none = none) :
    ∀ (i j : Nat) (p q : Vector2), i ≠ j →
      (getPoissonDisc accuracy overlap st).1[i]? = some p →
      (getPoissonDisc accuracy overlap st).1[j]? = some q →
      1 / ((accuracy : ℚ) * accuracy) ≤ p.DistanceSquared q := by
  rw [getPoissonDisc_empty_slot accuracy overlap st hslot]
  simp only
  have hpw := generateDisc_pairwise accuracy overlap (st.rng.Intn discs).2
  rw [List.pairwise_iff_getElem] at hpw
  intro i j p q hij hp hq
  obtain ⟨hi, rfl⟩ := List.getElem?_eq_some.mp hp
  obtain ⟨hj, rfl⟩ := List.getElem?_eq_some.mp hq
  rcases Nat.lt_or_gt_of_ne hij with h | h
  · exact hpw i j hi hj h
  · rw [Vector2.DistanceSquared_comm]
    exact hpw j i hj hi h

/-- An instance of `getPoissonDisc_separation`: a fresh sampler whose draws
make the disc of accuracy 2 hold four points. -/
theorem getPoissonDisc_separation_witness :
    (getPoissonDisc 2 0 (SamplerState.fresh fourDraws)).1
      = [{ X := -(1 / 2), Y := 0 }, { X := 0, Y := -(1 / 2) }, { X := 0, Y := 31 / 64 },
         { X := 31 / 64, Y := 0 }] ∧
    ∀ (i j : Nat) (p q : Vector2), i ≠ j →
      (getPoissonDisc 2 0 (SamplerState.fresh fourDraws)).1[i]? = some p →
      (getPoissonDisc 2 0 (SamplerState.fresh fourDraws)).1[j]? = some q →
      1 / (((2 : Nat) : ℚ) * (2 : Nat)) ≤ p.DistanceSquared q :=
  ⟨getPoissonDisc_fourDraws,
    getPoissonDisc_separation 2 0 (SamplerState.fresh fourDraws)
      (fresh_pool_slot_empty fourDraws)⟩

theorem dartLoop_tail_within (numSamples : Nat) (distance radius : ℚ) (iterations : Nat) :
    ∀ (disc : List Vector2) (r : Rng),
      (∀ p ∈ disc.tail, p.LengthSquared ≤ radius * radius) →
      ∀ p ∈ (dartLoop numSamples distance radius iterations disc r).1.tail,
        p.LengthSquared ≤ radius * radius := by
  induction iterations with
  | zero => intro disc r h; simpa [dartLoop] using h
  | succ n ih =>
    intro disc r h
    unfold dartLoop
    simp only
    by_cases hv : trialValid (nextTrial radius r).1 radius distance disc = true
    · have hext : ∀ p ∈ (disc ++ [(nextTrial radius r).1]).tail,
          p.LengthSquared ≤ radius * radius := by
        cases disc with
        | nil => intro p hp; simp at hp
        | cons q rest =>
          intro p hp
          simp only [List.cons_append, List.tail_cons, List.mem_append,
            List.mem_singleton] at hp
          rcases hp with hp | rfl
          · exact h p hp
          · exact (trialValid_true _ _ _ _ hv q (List.mem_cons_self _ _)).1
      rw [if_pos hv]
      split_ifs
      · exact hext
      · exact ih _ _ hext
    · rw [if_neg hv]
      exact ih _ _ h

/-- Claim C10, the code at the failing input: with accuracy 1, overlap 0 and
draws that are all zero the generated disc is the single point
`(-1/2, -1/2)`, whose squared length `1/2` exceeds the squared radius `1/4`:
the first proposal is accepted without the radius test.  Every later point of
a generated disc does pass the test. -/
theorem getPoissonDisc_first_point_outside_radius :
    (getPoissonDisc 1 0 (SamplerState.fresh zeroDraws)).1 = [{ X := -(1 / 2), Y := -(1 / 2) }] ∧
    (∃ p ∈ (getPoissonDisc 1 0 (SamplerState.fresh zeroDraws)).1,
      (1 / 2 + 0) * (1 / 2 + 0) < p.LengthSquared) ∧
    ∀ (accuracy : Nat) (overlap : ℚ) (r : Rng), ∀ p ∈ (generateDisc accuracy overlap r).1.tail,
      p.LengthSquared ≤ (1 / 2 + overlap) * (1 / 2 + overlap) := by
  refine ⟨getPoissonDisc_fresh_zeroDraws, ?_, ?_⟩
  · rw [getPoissonDisc_fresh_zeroDraws]
    refine ⟨_, List.mem_singleton.mpr rfl, ?_⟩
    norm_num [Vector2.LengthSquared]
  · intro accuracy overlap r
    unfold generateDisc
    exact dartLoop_tail_within _ _ _ _ _ _ (by intro p hp; simp at hp)

/-! ## The pool of discs -/

theorem getPoissonDisc_cases (accuracy : Nat) (overlap : ℚ) (st : SamplerState) :
    (∃ disc, st.pool.getD (st.rng.Intn discs).1 none = some disc ∧
      getPoissonDisc accuracy overlap st
        = (disc, { discCache := some st.pool, rng := (st.rng.Intn discs).2 })) ∨
    (st.pool.getD (st.rng.Intn discs).1 none = none ∧
      getPoissonDisc accuracy overlap st
        = ((generateDisc accuracy overlap (st.rng.Intn discs).2).1,
            { discCache := some (st.pool.set (st.rng.Intn discs).1
                (some (generateDisc accuracy overlap (st.rng.Intn discs).2).1))
              rng := (generateDisc accuracy overlap (st.rng.Intn discs).2).2 })) := by
  cases h : st.pool.getD (st.rng.Intn discs).1 none with
  | none => exact Or.inr ⟨rfl, getPoissonDisc_empty_slot accuracy overlap st h⟩
  | some disc =>
    refine Or.inl ⟨disc, rfl, ?_⟩
    unfold getPoissonDisc
    simp only [h]

theorem getD_of_getElem? {α : Type} (xs : List (Option α)) (k : Nat) (a : α)
    (h : xs[k]? = some (some a)) : xs.getD k none = some a := by
  rw [List.getD_eq_getElem?_getD, h]
  rfl

theorem getPoissonDisc_pool_length (accuracy : Nat) (overlap : ℚ) (st : SamplerState)
    (h : st.pool.length = discs) :
    (getPoissonDisc accuracy overlap st).2.pool.length = discs ∧
    (getPoissonDisc accuracy overlap st).2.discCache
      = some (getPoissonDisc accuracy overlap st).2.pool := by
  rcases getPoissonDisc_cases accuracy overlap st with ⟨disc, _, he⟩ | ⟨_, he⟩
  · rw [he]
    exact ⟨h, rfl⟩
  · rw [he]
    refine ⟨?_, rfl⟩
    simp only [SamplerState.pool, List.length_set]
    exact h

theorem getPoissonDisc_slot_kept (accuracy : Nat) (overlap : ℚ) (st : SamplerState) (k : Nat)
    (disc : List Vector2) (h : st.pool[k]? = some (some disc)) :
    (getPoissonDisc accuracy overlap st).2.pool[k]? = some (some disc) := by
  rcases getPoissonDisc_cases accuracy overlap st with ⟨disc2, _, he⟩ | ⟨hnone, he⟩
  · rw [he]
    exact h
  · rw [he]
    simp only [SamplerState.pool]
    have hne : (st.rng.Intn discs).1 ≠ k := by
      intro hk
      rw [hk, getD_of_getElem? _ _ _ h] at hnone
      cases hnone
    rw [List.getElem?_set_ne hne]
    exact h

theorem getPoissonDisc_returns_stored (accuracy : Nat) (overlap : ℚ) (st : SamplerState)
    (k : Nat) (disc : List Vector2) (h : st.pool[k]? = some (some disc))
    (hk : (st.rng.Intn discs).1 = k) :
    (getPoissonDisc accuracy overlap st).1 = disc := by
  have hget := getD_of_getElem? _ _ _ h
  rw [← hk] at hget
  rcases getPoissonDisc_cases accuracy overlap st with ⟨disc2, h2, he⟩ | ⟨hnone, _⟩
  · rw [he]
    rw [hget] at h2
    exact (Option.some.inj h2).symm
  · rw [hget] at hnone
    cases hnone

theorem getPoissonDisc_stores (accuracy : Nat) (overlap : ℚ) (st : SamplerState)
    (hlen : st.pool.length = discs)
    (hslot : st.pool.getD (st.rng.Intn discs).1 none = none) :
    (getPoissonDisc accuracy overlap st).2.pool[(st.rng.Intn discs).1]?
      = some (some (getPoissonDisc accuracy overlap st).1) := by
  rw [getPoissonDisc_empty_slot accuracy overlap st hslot]
  have hlt : (st.rng.Intn discs).1 < st.pool.length := by
    rw [hlen]
    exact Nat.mod_lt _ (by decide)
  exact List.getElem?_set_self hlt

theorem getPoissonDiscCalls_pool_length (calls : List (Nat × ℚ)) :
    ∀ st : SamplerState, st.pool.length = discs →
      (getPoissonDiscCalls calls st).pool.length = discs := by
  induction calls with
  | nil => intro st h; exact h
  | cons call rest ih =>
    intro st h
    exact ih _ (getPoissonDisc_pool_length call.1 call.2 st h).1

theorem getPoissonDiscCalls_slot_kept (k : Nat) (disc : List Vector2)
    (calls : List (Nat × ℚ)) :
    ∀ st : SamplerState, st.pool[k]? = some (some disc) →
      (getPoissonDiscCalls calls st).pool[k]? = some (some disc) := by
  induction calls with
  | nil => intro st h; exact h
  | cons call rest ih =>
    intro st h
    exact ih _ (getPoissonDisc_slot_kept call.1 call.2 st k disc h)

theorem fresh_pool_length (draws : Nat → Nat) : (SamplerState.fresh draws).pool.length = discs := by
  simp [SamplerState.pool, SamplerState.fresh]

/-! ## Termination of disc generation -/

theorem nextTrial_rng (radius : ℚ) (r : Rng) :
    (nextTrial radius r).2 = { draws := r.draws, pos := r.pos + 2 } := rfl

theorem nextTrial_draws (radius : ℚ) (r : Rng) : (nextTrial radius r).2.draws = r.draws := rfl

theorem nextTrial_pos (radius : ℚ) (r : Rng) : (nextTrial radius r).2.pos = r.pos + 2 := rfl

theorem dartLoop_bounds (numSamples : Nat) (distance radius : ℚ) (iterations : Nat) :
    ∀ (disc : List Vector2) (r : Rng), disc.length < numSamples →
      ∃ n, n ≤ iterations ∧
        (dartLoop numSamples distance radius iterations disc r).2
          = { draws := r.draws, pos := r.pos + 2 * n } ∧
        (dartLoop numSamples distance radius iterations disc r).1.length ≤ numSamples ∧
        ((dartLoop numSamples distance radius iterations disc r).1.length < numSamples →
          n = iterations) ∧
        ((dartLoop numSamples distance radius iterations disc r).1.length = numSamples →
          1 ≤ n ∧ (dartLoop numSamples distance radius iterations disc r).1.getLast?
            = some (nextTrial radius { draws := r.draws, pos := r.pos + 2 * (n - 1) }).1) := by
  induction iterations with
  | zero =>
    intro disc r hlt
    refine ⟨0, le_refl _, rfl, ?_, fun _ => rfl, ?_⟩
    · simp only [dartLoop]; omega
    · intro h
      simp only [dartLoop] at h
      omega
  | succ k ih =>
    intro disc r hlt
    rw [dartLoop_succ]
    by_cases hv : trialValid (nextTrial radius r).1 radius distance disc = true
    · rw [if_pos hv]
      by_cases hfull : (disc ++ [(nextTrial radius r).1]).length ≥ numSamples
      · rw [if_pos hfull]
        have hlen : (disc ++ [(nextTrial radius r).1]).length = disc.length + 1 := by simp
        refine ⟨1, by omega, ?_, by simp only []; omega, ?_, ?_⟩
        · rw [nextTrial_rng]
        · intro h
          simp only [] at h
          omega
        · intro _
          refine ⟨le_refl _, ?_⟩
          simp
      · rw [if_neg hfull]
        obtain ⟨n, hn, hr, hle, hlt2, hfin⟩ := ih (disc ++ [(nextTrial radius r).1])
          (nextTrial radius r).2 (by omega)
        simp only [nextTrial_draws, nextTrial_pos] at hr hfin
        refine ⟨n + 1, by omega, ?_, hle, ?_, ?_⟩
        · rw [hr]
          simp only [Rng.mk.injEq, true_and]
          omega
        · intro h
          rw [hlt2 h]
        · intro h
          obtain ⟨h1, h2⟩ := hfin h
          refine ⟨by omega, ?_⟩
          rw [h2]
          simp only [Nat.add_sub_cancel]
          have : r.pos + 2 + 2 * (n - 1) = r.pos + 2 * n := by omega
          rw [this]
    · rw [if_neg hv]
      obtain ⟨n, hn, hr, hle, hlt2, hfin⟩ := ih disc (nextTrial radius r).2 hlt
      simp only [nextTrial_draws, nextTrial_pos] at hr hfin
      refine ⟨n + 1, by omega, ?_, hle, ?_, ?_⟩
      · rw [hr]
        simp only [Rng.mk.injEq, true_and]
        omega
      · intro h
        rw [hlt2 h]
      · intro h
        obtain ⟨h1, h2⟩ := hfin h
        refine ⟨by omega, ?_⟩
        rw [h2]
        simp only [Nat.add_sub_cancel]
        have : r.pos + 2 + 2 * (n - 1) = r.pos + 2 * n := by omega
        rw [this]

/-- Claim C11. Disc generation in `getPoissonDisc` (lines 106-132) is a total
function: for every accuracy (zero included), overlap and stream of draws it
makes `n` proposals with `n <= 1000 * accuracy^2`, two draws each, and returns
at most `accuracy^2` points; when it returns fewer it has used all
`1000 * accuracy^2` proposals; when it returns `accuracy^2` points (accuracy at
least 1) the last point is the last proposal made, so the loop stopped at the
acceptance that completed the set.  A `getPoissonDisc` call that draws an empty
slot returns this disc, having consumed one draw for the slot and two per
proposal. -/
theorem generateDisc_terminates (accuracy : Nat) (overlap : ℚ) :
    (∀ r : Rng, ∃ n, n ≤ 1000 * (accuracy * accuracy) ∧
      (generateDisc accuracy overlap r).2 = { draws := r.draws, pos := r.pos + 2 * n } ∧
      (generateDisc accuracy overlap r).1.length ≤ accuracy * accuracy ∧
      ((generateDisc accuracy overlap r).1.length < accuracy * accuracy →
        n = 1000 * (accuracy * accuracy)) ∧
      (1 ≤ accuracy → (generateDisc accuracy overlap r).1.length = accuracy * accuracy →
        1 ≤ n ∧ (generateDisc accuracy overlap r).1.getLast?
          = some (nextTrial (1 / 2 + overlap)
              { draws := r.draws, pos := r.pos + 2 * (n - 1) }).1)) ∧
    (∀ st : SamplerState, st.pool.getD (st.rng.Intn discs).1 none = none →
      getPoissonDisc accuracy overlap st
        = ((generateDisc accuracy overlap (st.rng.Intn discs).2).1,
            { discCache := some (st.pool.set (st.rng.Intn discs).1
                (some (generateDisc accuracy overlap (st.rng.Intn discs).2).1))
              rng := (generateDisc accuracy overlap (st.rng.Intn discs).2).2 }) ∧
      (getPoissonDisc accuracy overlap st).1.length ≤ accuracy * accuracy ∧
      ∃ n, n ≤ 1000 * (accuracy * accuracy) ∧
        (getPoissonDisc accuracy overlap st).2.rng
          = { draws := st.rng.draws, pos := st.rng.pos + 1 + 2 * n }) := by
  have main : ∀ r : Rng, ∃ n, n ≤ 1000 * (accuracy * accuracy) ∧
      (generateDisc accuracy overlap r).2 = { draws := r.draws, pos := r.pos + 2 * n } ∧
      (generateDisc accuracy overlap r).1.length ≤ accuracy * accuracy ∧
      ((generateDisc accuracy overlap r).1.length < accuracy * accuracy →
        n = 1000 * (accuracy * accuracy)) ∧
      (1 ≤ accuracy → (generateDisc accuracy overlap r).1.length = accuracy * accuracy →
        1 ≤ n ∧ (generateDisc accuracy overlap r).1.getLast?
          = some (nextTrial (1 / 2 + overlap)
              { draws := r.draws, pos := r.pos + 2 * (n - 1) }).1) := by
    intro r
    rcases Nat.eq_zero_or_pos accuracy with h0 | hpos
    · subst h0
      refine ⟨0, by simp, ?_, ?_, ?_, ?_⟩
      · simp [generateDisc, dartLoop]
      · simp [generateDisc, dartLoop]
      · intro h; simp [generateDisc, dartLoop] at h
      · intro h; omega
    · have hN : ([] : List Vector2).length < accuracy * accuracy := by
        simp only [List.length_nil]
        exact Nat.mul_pos hpos hpos
      obtain ⟨n, hn, hr, hle, hlt, hfin⟩ := dartLoop_bounds (accuracy * accuracy)
        (1 / (accuracy : ℚ) * (1 / (accuracy : ℚ))) (1 / 2 + overlap)
        (accuracy * accuracy * 1000) [] r hN
      exact ⟨n, by omega, hr, hle, fun h => by rw [hlt h]; ring, fun _ h => hfin h⟩
  refine ⟨main, ?_⟩
  intro st hslot
  have he := getPoissonDisc_empty_slot accuracy overlap st hslot
  obtain ⟨n, hn, hr, hle, _, _⟩ := main (st.rng.Intn discs).2
  refine ⟨he, ?_, n, hn, ?_⟩
  · rw [he]
    exact hle
  · rw [he]
    exact hr

/-! ## A populated slot is reused -/

theorem generateDisc_fourDraws :
    generateDisc 2 0 { draws := fourDraws, pos := 1 }
      = (fourPointDisc, { draws := fourDraws, pos := 9 }) := by
  have h : (2 * 2 * 1000 : Nat) = 3996 + 1 + 1 + 1 + 1 := rfl
  simp only [generateDisc, h, fourPointDisc]
  rw [dartLoop_succ, nextTrial_fourDraws_1]
  simp only [trialValid, if_true, List.nil_append, List.length_singleton]
  rw [if_neg (by decide), dartLoop_succ, nextTrial_fourDraws_3]
  have v2 : trialValid { X := 0, Y := -(1 / 2) } (1 / 2 + 0)
      (1 / ((2 : Nat) : ℚ) * (1 / ((2 : Nat) : ℚ))) [{ X := -(1 / 2), Y := 0 }] = true := by
    simp [trialValid, Vector2.LengthSquared, Vector2.DistanceSquared]
  have v3 : trialValid { X := 0, Y := 31 / 64 } (1 / 2 + 0)
      (1 / ((2 : Nat) : ℚ) * (1 / ((2 : Nat) : ℚ)))
      [{ X := -(1 / 2), Y := 0 }, { X := 0, Y := -(1 / 2) }] = true := by
    simp [trialValid, Vector2.LengthSquared, Vector2.DistanceSquared]
    norm_num
  have v4 : trialValid { X := 31 / 64, Y := 0 } (1 / 2 + 0)
      (1 / ((2 : Nat) : ℚ) * (1 / ((2 : Nat) : ℚ)))
      [{ X := -(1 / 2), Y := 0 }, { X := 0, Y := -(1 / 2) }, { X := 0, Y := 31 / 64 }]
      = true := by
    simp [trialValid, Vector2.LengthSquared, Vector2.DistanceSquared]
    norm_num
  rw [if_pos v2, if_neg (by decide), dartLoop_succ, nextTrial_fourDraws_5]
  simp only [List.cons_append, List.nil_append]
  rw [if_pos v3, if_neg (by decide), dartLoop_succ, nextTrial_fourDraws_7]
  simp only [List.cons_append, List.nil_append]
  rw [if_pos v4, if_pos (by decide)]

theorem getPoissonDisc_fourDraws_state :
    getPoissonDisc 2 0 (SamplerState.fresh fourDraws)
      = (fourPointDisc,
          { discCache := some ((List.replicate discs none).set 0 (some fourPointDisc))
            rng := { draws := fourDraws, pos := 9 } }) := by
  rw [getPoissonDisc_empty_slot _ _ _ (fresh_pool_slot_empty fourDraws)]
  have hr : ((SamplerState.fresh fourDraws).rng.Intn discs)
      = (0, { draws := fourDraws, pos := 1 }) := rfl
  rw [hr]
  simp only [generateDisc_fourDraws]
  rfl

theorem getPoissonDisc_reuses_fourPointDisc :
    (getPoissonDisc 1 0 (getPoissonDisc 2 0 (SamplerState.fresh fourDraws)).2).1
      = fourPointDisc := by
  rw [getPoissonDisc_fourDraws_state]
  exact getPoissonDisc_returns_stored 1 0 _ 0 fourPointDisc rfl rfl

/-- Claim C19. In every state reached from a fresh sampler by any sequence of
`getPoissonDisc` calls the pool has exactly 10 slots, and so has `discCache`
after one more call; a call that draws an empty slot stores the disc it returns
in that slot; a slot that holds a disc holds the same disc after any further
sequence of calls, and a call that draws it returns exactly that disc whatever
accuracy and overlap it is given.  An instance: once a call with accuracy 2 has
stored four points in slot 0, a call with accuracy 1 that draws slot 0 returns
these four points, two of which are closer to each other than 1. -/
theorem pool_slot_never_overwritten (draws : Nat → Nat) (earlier : List (Nat × ℚ)) :
    (getPoissonDiscCalls earlier (SamplerState.fresh draws)).pool.length = 10 ∧
    (∀ (accuracy : Nat) (overlap : ℚ),
      ∃ cache, (getPoissonDisc accuracy overlap
          (getPoissonDiscCalls earlier (SamplerState.fresh draws))).2.discCache = some cache ∧
        cache.length = 10) ∧
    (∀ (accuracy : Nat) (overlap : ℚ),
      (getPoissonDiscCalls earlier (SamplerState.fresh draws)).pool.getD
          ((getPoissonDiscCalls earlier (SamplerState.fresh draws)).rng.Intn discs).1 none
        = none →
      (getPoissonDisc accuracy overlap
          (getPoissonDiscCalls earlier (SamplerState.fresh draws))).2.pool[
            ((getPoissonDiscCalls earlier (SamplerState.fresh draws)).rng.Intn discs).1]?
        = some (some (getPoissonDisc accuracy overlap
            (getPoissonDiscCalls earlier (SamplerState.fresh draws))).1)) ∧
    (∀ (k : Nat) (disc : List Vector2),
      (getPoissonDiscCalls earlier (SamplerState.fresh draws)).pool[k]? = some (some disc) →
      ∀ (later : List (Nat × ℚ)) (accuracy : Nat) (overlap : ℚ),
        (getPoissonDiscCalls later
            (getPoissonDiscCalls earlier (SamplerState.fresh draws))).pool[k]?
          = some (some disc) ∧
        (((getPoissonDiscCalls later
              (getPoissonDiscCalls earlier (SamplerState.fresh draws))).rng.Intn discs).1 = k →
          (getPoissonDisc accuracy overlap
            (getPoissonDiscCalls later
              (getPoissonDiscCalls earlier (SamplerState.fresh draws)))).1 = disc)) ∧
    ((getPoissonDisc 1 0 (getPoissonDisc 2 0 (SamplerState.fresh fourDraws)).2).1
        = fourPointDisc ∧
      fourPointDisc.length = 4 ∧
      Vector2.DistanceSquared { X := -(1 / 2), Y := 0 } { X := 0, Y := -(1 / 2) } < 1) := by
  have hlen := getPoissonDiscCalls_pool_length earlier (SamplerState.fresh draws)
    (fresh_pool_length draws)
  refine ⟨hlen, ?_, ?_, ?_, ?_⟩
  · intro accuracy overlap
    obtain ⟨h1, h2⟩ := getPoissonDisc_pool_length accuracy overlap _ hlen
    exact ⟨_, h2, h1⟩
  · intro accuracy overlap hslot
    exact getPoissonDisc_stores accuracy overlap _ hlen hslot
  · intro k disc hk later accuracy overlap
    have hkept := getPoissonDiscCalls_slot_kept k disc later _ hk
    exact ⟨hkept, fun hdraw => getPoissonDisc_returns_stored accuracy overlap _ k disc hkept hdraw⟩
  · refine ⟨getPoissonDisc_reuses_fourPointDisc, rfl, ?_⟩
    norm_num [Vector2.DistanceSquared]

/-! ## `Get` -/

theorem squareStrategy_ne_discStrategy : discStrategy ≠ squareStrategy := by
  intro h
  have h1 := congrFun (congrFun (congrFun (congrFun (congrFun h 1) 1) 1) 0)
    (SamplerState.fresh zeroDraws)
  have h2 := congrArg Prod.fst h1
  simp only [discStrategy, squareStrategy] at h2
  rw [Disc_fresh_zeroDraws] at h2
  have h3 : Square 1 1 1 0 = [[[{ X := 0, Y := 0 }]]] := by
    simp [Square, squareCell, squareInner, squareOffset, List.range_succ, List.replicate]
  rw [h3] at h2
  simp at h2

/-- Claim C12. `Get` returns the `Disc` strategy exactly when the name is
"disc", and the `Square` strategy for every other name, among them "square"
and the empty string. -/
theorem Get_strategy :
    (∀ name : String, Get name = discStrategy ↔ name = "disc") ∧
    (∀ name : String, name ≠ "disc" → Get name = squareStrategy) ∧
    Get "square" = squareStrategy ∧ Get "" = squareStrategy ∧ Get "disc" = discStrategy := by
  have hother : ∀ name : String, name ≠ "disc" → Get name = squareStrategy := by
    intro name hne
    unfold Get
    split_ifs <;> rfl
  have hdisc : Get "disc" = discStrategy := by
    unfold Get
    rw [if_neg (by decide), if_pos rfl]
  refine ⟨?_, hother, hother _ (by decide), hother _ (by decide), hdisc⟩
  intro name
  constructor
  · intro h
    by_contra hne
    rw [hother name hne] at h
    exact squareStrategy_ne_discStrategy h.symm
  · rintro rfl
    exact hdisc

/-! ## The range of the shadow intensity -/

theorem setResult_Shadowing_range (element : ProcessedElement) (lighting : Vector3)
    (depth d : Int) :
    0 ≤ (setResult RenderSample.zero element lighting depth d).Shadowing ∧
    (setResult RenderSample.zero element lighting depth d).Shadowing ≤ 1 := by
  rw [setResult_Shadowing_fresh]
  split_ifs with h1 h2
  · norm_num
  · have hlo : (10 : ℚ) ≤ d := by exact_mod_cast (by omega : (10 : Int) ≤ d)
    have hhi : (d : ℚ) < 80 := by exact_mod_cast h2.2
    push_cast
    constructor
    · apply div_nonneg <;> linarith
    · rw [div_le_one (by norm_num)]
      linarith
  · norm_num

theorem sampleValue_Shadowing_range (d : Deps) (viewport : Plane) (ray limits : Vector3)
    (object : ProcessedVoxelObject) (spr : Sprite) (lighting : Vector3) (s : Vector2) :
    0 ≤ (sampleValue d viewport ray limits object spr lighting s).Shadowing ∧
    (sampleValue d viewport ray limits object spr lighting s).Shadowing ≤ 1 := by
  unfold sampleValue
  simp only
  split_ifs
  · split
    · exact setResult_Shadowing_range _ _ _ _
    · simp [RenderSample.zero]
  · simp [RenderSample.zero]

/-- Claim C13. `setResult` applied to a zero-valued sample stores a shadow
intensity in `[0, 1]` for every integer shadow depth, negative and arbitrarily
large ones included; and in every output that `GetRaycastOutput` returns for a
rectangular grid with at least one column, every stored `RenderSample` has its
shadow intensity in `[0, 1]`. -/
theorem Shadowing_in_unit_interval (d : Deps) (object : ProcessedVoxelObject) (m : Manifest)
    (spr : Sprite) (sampler : Samples) (fuel h : Nat)
    (hcols : 0 < sampler.length) (hrect : Rectangular sampler h) :
    (∀ (element : ProcessedElement) (lighting : Vector3) (depth shadowLength : Int),
      0 ≤ (setResult RenderSample.zero element lighting depth shadowLength).Shadowing ∧
      (setResult RenderSample.zero element lighting depth shadowLength).Shadowing ≤ 1) ∧
    ∀ out, GetRaycastOutput d object m spr sampler fuel = .ok out →
      ∀ x y i stored, entryAt out x y i = some stored →
        0 ≤ stored.Shadowing ∧ stored.Shadowing ≤ 1 := by
  refine ⟨fun element lighting depth shadowLength =>
    setResult_Shadowing_range element lighting depth shadowLength, ?_⟩
  intro out hok x y i stored hs
  obtain ⟨_, rfl⟩ := (GetRaycastOutput_ok_iff d object m spr sampler fuel h out hcols hrect).mp hok
  rw [entryAt_map] at hs
  cases he : entryAt sampler x y i with
  | none => rw [he] at hs; cases hs
  | some s =>
    rw [he, Option.map_some', Option.some.injEq] at hs
    rw [← hs]
    exact sampleValue_Shadowing_range _ _ _ _ _ _ _ _

/-- The example scene: the render returns and every stored shadow intensity
lies in `[0, 1]`. -/
theorem Shadowing_in_unit_interval_witness :
    ∃ out, GetRaycastOutput demoDeps demoObject demoManifest demoSprite demoGrid 2 = .ok out ∧
      ∀ x y i stored, entryAt out x y i = some stored →
        0 ≤ stored.Shadowing ∧ stored.Shadowing ≤ 1 := by
  obtain ⟨out, hout⟩ := demo_render_returns
  exact ⟨out, hout, (Shadowing_in_unit_interval demoDeps demoObject demoManifest demoSprite
    demoGrid 2 1 (by decide) demoGrid_rectangular).2 out hout⟩

/-! ## A grid without columns -/

/-- Claim C15, the code at the failing input: for width 0 `Square` and `Disc`
return a grid without columns; `Width` of that grid is 0, but `Height`, which
reads `len(s[0])`, panics with an index out of range, and so does
`GetRaycastOutput` for every volume and view configuration instead of
returning an empty output. -/
theorem GetRaycastOutput_zero_columns_panics (d : Deps) (object : ProcessedVoxelObject)
    (m : Manifest) (spr : Sprite) (fuel : Nat) :
    Square 0 1 1 0 = [] ∧
    (∀ st, (Disc 0 1 1 0 st).1 = []) ∧
    Samples.Width [] = 0 ∧
    Samples.Height [] = .error .indexOutOfRange ∧
    GetRaycastOutput d object m spr (Square 0 1 1 0) fuel = .error .indexOutOfRange := by
  refine ⟨rfl, fun st => rfl, rfl, rfl, ?_⟩
  rfl

/-! ## Length, normalisation and interpolation -/

/-- Claim C17. `a.Lerp b t` is `a * (1 - t) + b * t` in each component, it is
`a` at `t = 0` and `b` at `t = 1`, and `UnitX.Lerp UnitY (1/4)` is
`(3/4, 1/4, 0)`. -/
theorem Lerp_formula (a b : Vector3) (t : ℚ) :
    a.Lerp b t = { X := a.X * (1 - t) + b.X * t, Y := a.Y * (1 - t) + b.Y * t,
                   Z := a.Z * (1 - t) + b.Z * t } ∧
    a.Lerp b 0 = a ∧ a.Lerp b 1 = b ∧
    UnitX.Lerp UnitY (1 / 4) = { X := 3 / 4, Y := 1 / 4, Z := 0 } := by
  refine ⟨rfl, ?_, ?_, ?_⟩
  · rcases a with ⟨a1, a2, a3⟩
    simp [Vector3.Lerp, Vector3.MultiplyByConstant, Vector3.Add]
  · rcases b with ⟨b1, b2, b3⟩
    simp [Vector3.Lerp, Vector3.MultiplyByConstant, Vector3.Add]
  · simp [Vector3.Lerp, Vector3.MultiplyByConstant, Vector3.Add, UnitX, UnitY]
    norm_num

/-- Claim C18. When the normalised shadow vector is not the zero vector, the
loop of lines 97-103, started at the collision point, does not leave at its
first test (a budget of one evaluation of the loop head is exhausted) and
leaves at its second, after exactly one advance, with `shadowLoc` equal to the
collision point plus the shadow vector; hence for every sub-sample whose
primary ray hits, `raycastSample` casts the shadow ray from that point. -/
theorem biasLoop_exactly_one_advance (d : Deps) (viewport : Plane) (s : Vector2)
    (ray limits : Vector3) (object : ProcessedVoxelObject) (spr : Sprite) (lighting : Vector3)
    (hvec : d.Normalise (Zero.Subtract lighting) ≠ Zero) :
    (∀ resultVec : Vector3,
      biasLoop resultVec (d.Normalise (Zero.Subtract lighting)) 1 resultVec
        = .error .outOfSteps ∧
      ∀ fuel, 2 ≤ fuel →
        biasLoop resultVec (d.Normalise (Zero.Subtract lighting)) fuel resultVec
          = .ok (resultVec.Add (d.Normalise (Zero.Subtract lighting)))) ∧
    ∀ (result : RenderOutput) (thisX y i fuel : Nat), 2 ≤ fuel →
      (primaryRay d viewport s ray limits object spr).HasGeometry = true →
      raycastSample d viewport s ray limits object spr lighting result thisX y i fuel
        = (do
            let sample ← sampleAt result thisX y i
            let element ← elementAt object (primaryRay d viewport s ray limits object spr).X
              (primaryRay d viewport s ray limits object spr).Y
              (primaryRay d viewport s ray limits object spr).Z
            storeSample result thisX y i
              (setResult sample element lighting
                (primaryRay d viewport s ray limits object spr).Depth
                (d.castFpRay object
                  (Vector3.Add
                    { X := (primaryRay d viewport s ray limits object spr).X
                      Y := (primaryRay d viewport s ray limits object spr).Y
                      Z := (primaryRay d viewport s ray limits object spr).Z }
                    (d.Normalise (Zero.Subtract lighting)))
                  (Vector3.Add
                    { X := (primaryRay d viewport s ray limits object spr).X
                      Y := (primaryRay d viewport s ray limits object spr).Y
                      Z := (primaryRay d viewport s ray limits object spr).Z }
                    (d.Normalise (Zero.Subtract lighting)))
                  (d.Normalise (Zero.Subtract lighting)) limits spr.Flip).Depth)) := by
  refine ⟨fun resultVec => ⟨?_, fun fuel hfuel => biasLoop_of_ne_zero _ _ _ hvec hfuel⟩, ?_⟩
  · have h1 : resultVec.Equals resultVec = true := (Vector3.Equals_iff _ _).mpr rfl
    simp [biasLoop, h1]
  · intro result thisX y i fuel hfuel hhit
    simp only [raycastSample, hhit, if_true, biasLoop_of_ne_zero _ _ _ hvec hfuel, bind,
      Except.bind]

/-- The example scene: the shadow vector is not zero and the loop leaves after
one advance from every starting point. -/
theorem biasLoop_exactly_one_advance_witness :
    demoDeps.Normalise (Zero.Subtract (renderLighting demoDeps demoManifest demoSprite)) ≠ Zero ∧
    ∀ resultVec : Vector3,
      biasLoop resultVec
          (demoDeps.Normalise (Zero.Subtract (renderLighting demoDeps demoManifest demoSprite)))
          1 resultVec = .error .outOfSteps ∧
      ∀ fuel, 2 ≤ fuel →
        biasLoop resultVec
            (demoDeps.Normalise (Zero.Subtract (renderLighting demoDeps demoManifest demoSprite)))
            fuel resultVec
          = .ok (resultVec.Add
              (demoDeps.Normalise
                (Zero.Subtract (renderLighting demoDeps demoManifest demoSprite)))) :=
  ⟨by simp [demoDeps, renderLighting, Zero, Vector3.Subtract],
    (biasLoop_exactly_one_advance demoDeps
      (renderViewport demoDeps demoObject demoManifest demoSprite) { X := 0, Y := 0 }
      (renderRay demoDeps demoManifest demoSprite) (renderLimits demoObject) demoObject
      demoSprite (renderLighting demoDeps demoManifest demoSprite)
      (by simp [demoDeps, renderLighting, Zero, Vector3.Subtract])).1⟩

/-! ## `GetCalculatedSpriteHeight` -/

theorem foldl_set_get {α : Type} (g : Nat → α) (xs : List Nat) :
    ∀ (init : List α) (p : Nat),
      (xs.foldl (fun r x => r.set x (g x)) init)[p]?
        = if p ∈ xs ∧ p < init.length then some (g p) else init[p]? := by
  induction xs with
  | nil => intro init p; simp
  | cons x xs ih =>
    intro init p
    rw [List.foldl_cons, ih, List.length_set, List.getElem?_set]
    by_cases h1 : p ∈ xs ∧ p < init.length
    · rw [if_pos h1, if_pos ⟨List.mem_cons_of_mem _ h1.1, h1.2⟩]
    · rw [if_neg h1]
      by_cases h2 : x = p
      · subst h2
        rw [if_pos rfl]
        by_cases h3 : x < init.length
        · rw [if_pos h3, if_pos ⟨List.mem_cons_self _ _, h3⟩]
        · rw [if_neg h3, if_neg (fun h => h3 h.2), List.getElem?_eq_none (by omega)]
      · rw [if_neg h2, if_neg]
        rintro ⟨hm, hl⟩
        rcases List.mem_cons.mp hm with h | h
        · exact h2 h.symm
        · exact h1 ⟨h, hl⟩

theorem foldl_set_of_cover {α : Type} (g : Nat → α) (xs : List Nat) (init : List α)
    (hcover : ∀ x, x < init.length → x ∈ xs) :
    xs.foldl (fun r x => r.set x (g x)) init = (List.range init.length).map g := by
  apply List.ext_getElem?
  intro p
  rw [foldl_set_get]
  by_cases hp : p < init.length
  · rw [if_pos ⟨hcover p hp, hp⟩, List.getElem?_map, List.getElem?_range hp]
    rfl
  · rw [if_neg (fun h => hp h.2), List.getElem?_eq_none (by omega),
      List.getElem?_eq_none (by simp; omega)]

theorem GetRaycastOutputSequential_ok_iff (d : Deps) (object : ProcessedVoxelObject)
    (m : Manifest) (spr : Sprite) (sampler : Samples) (fuel h : Nat) (order : List Nat)
    (out : RenderOutput) (hcols : 0 < sampler.length) (hrect : Rectangular sampler h)
    (horder : ∀ x, x ∈ order ↔ x < sampler.length) :
    GetRaycastOutputSequential d object m spr sampler fuel order = .ok out ↔
      (∀ column ∈ sampler, ∀ cell ∈ column, ∀ s ∈ cell,
        Completes d (renderViewport d object m spr) (renderRay d m spr) (renderLimits object)
          object spr (renderLighting d m spr) fuel s) ∧
      out = sampler.map (fun column => column.map (fun samples => samples.map
        (sampleValue d (renderViewport d object m spr) (renderRay d m spr)
          (renderLimits object) object spr (renderLighting d m spr)))) := by
  have h0 : sampler[0]? = some sampler[0] := List.getElem?_eq_getElem hcols
  have hh : sampler.Height = .ok h := by
    rw [Height_eq sampler _ h0, hrect _ (List.getElem?_mem h0)]
  have hrun : GetRaycastOutputSequential d object m spr sampler fuel order
      = renderColumns d (renderViewport d object m spr) (renderRay d m spr)
          (renderLimits object) object spr (renderLighting d m spr) sampler h fuel order
          (List.replicate sampler.length []) := by
    simp only [GetRaycastOutputSequential, hh, bind, Except.bind]
  have hin : ∀ x ∈ order, x < (List.replicate sampler.length ([] : List RenderInfo)).length ∧
      x < sampler.length := by
    intro x hx
    rw [List.length_replicate]
    exact ⟨(horder x).mp hx, (horder x).mp hx⟩
  have hvalue : ∀ hc : (∀ column ∈ sampler, ∀ cell ∈ column, ∀ s ∈ cell,
      Completes d (renderViewport d object m spr) (renderRay d m spr) (renderLimits object)
        object spr (renderLighting d m spr) fuel s),
      GetRaycastOutputSequential d object m spr sampler fuel order
        = .ok (sampler.map (fun column => column.map (fun samples => samples.map
            (sampleValue d (renderViewport d object m spr) (renderRay d m spr)
              (renderLimits object) object spr (renderLighting d m spr))))) := by
    intro hc
    rw [hrun, renderColumns_eq d _ _ _ object spr _ sampler h fuel hrect hc order _ hin,
      foldl_set_of_cover _ order _ (by
        intro x hx
        rw [List.length_replicate] at hx
        exact (horder x).mpr hx)]
    rw [List.length_replicate, map_range_getD (fun column : List Sample => column.map
      (fun samples => samples.map
        (sampleValue d (renderViewport d object m spr) (renderRay d m spr)
          (renderLimits object) object spr (renderLighting d m spr)))) sampler []]
  constructor
  · intro hok
    have hc : ∀ column ∈ sampler, ∀ cell ∈ column, ∀ s ∈ cell,
        Completes d (renderViewport d object m spr) (renderRay d m spr) (renderLimits object)
          object spr (renderLighting d m spr) fuel s := by
      intro column hcol
      obtain ⟨x, hx⟩ := List.mem_iff_getElem?.mp hcol
      have hlt : x < sampler.length := (List.getElem?_eq_some.mp hx).1
      rw [hrun] at hok
      exact renderColumns_completes d _ _ _ object spr _ sampler h fuel hrect order _ out
        (fun x hx => (horder x).mp hx) hok x ((horder x).mpr hlt) column hx
    refine ⟨hc, ?_⟩
    have := hvalue hc
    rw [hok] at this
    exact Except.ok.inj this
  · rintro ⟨hc, rfl⟩
    exact hvalue hc

/-! ## What a statement of a goroutine writes -/

theorem store_ok {α : Type} (xs ys : List α) (i : Nat) (a : α) (h : store xs i a = .ok ys) :
    i < xs.length ∧ ys = xs.set i a := by
  unfold store at h
  split_ifs at h with hi
  exact ⟨hi, (Except.ok.inj h).symm⟩

theorem storeSample_ok (result out : RenderOutput) (x y i : Nat) (sample : RenderSample)
    (h : storeSample result x y i sample = .ok out) :
    ∃ column cell, result[x]? = some column ∧ column[y]? = some cell ∧ i < cell.length ∧
      out = result.set x (column.set y (cell.set i sample)) := by
  unfold storeSample at h
  obtain ⟨column, h1, h⟩ := bind_ok _ _ _ h
  obtain ⟨cell, h2, h⟩ := bind_ok _ _ _ h
  obtain ⟨cell2, h3, h⟩ := bind_ok _ _ _ h
  obtain ⟨column2, h4, h⟩ := bind_ok _ _ _ h
  obtain ⟨hi, rfl⟩ := store_ok _ _ _ _ h3
  obtain ⟨_, rfl⟩ := store_ok _ _ _ _ h4
  obtain ⟨_, rfl⟩ := store_ok _ _ _ _ h
  exact ⟨column, cell, (index_eq_ok _ _ _).mp h1, (index_eq_ok _ _ _).mp h2, hi, rfl⟩

theorem raycastSample_ok (d : Deps) (viewport : Plane) (s : Vector2) (ray limits : Vector3)
    (object : ProcessedVoxelObject) (spr : Sprite) (lighting : Vector3)
    (result out : RenderOutput) (thisX y i fuel : Nat)
    (h : raycastSample d viewport s ray limits object spr lighting result thisX y i fuel
      = .ok out) :
    out = result ∨ ∃ column cell sample, result[thisX]? = some column ∧
      column[y]? = some cell ∧ i < cell.length ∧
      out = result.set thisX (column.set y (cell.set i sample)) := by
  unfold raycastSample at h
  simp only at h
  split_ifs at h with hg
  · right
    obtain ⟨shadowLoc, _, h⟩ := bind_ok _ _ _ h
    obtain ⟨sample, _, h⟩ := bind_ok _ _ _ h
    obtain ⟨element, _, h⟩ := bind_ok _ _ _ h
    obtain ⟨column, cell, h1, h2, h3, h4⟩ := storeSample_ok _ _ _ _ _ _ h
    exact ⟨column, cell, _, h1, h2, h3, h4⟩
  · left
    exact (Except.ok.inj h).symm

theorem entryAt_set_other {α : Type} (grid : List (List (List α))) (x y i x2 y2 i2 : Nat)
    (column : List (List α)) (cell : List α) (a : α)
    (h1 : grid[x]? = some column) (h2 : column[y]? = some cell)
    (hne : (x2, y2, i2) ≠ (x, y, i)) :
    entryAt (grid.set x (column.set y (cell.set i a))) x2 y2 i2 = entryAt grid x2 y2 i2 := by
  have hx : x < grid.length := (List.getElem?_eq_some.mp h1).1
  have hy : y < column.length := (List.getElem?_eq_some.mp h2).1
  unfold entryAt
  by_cases hxx : x = x2
  · subst hxx
    rw [List.getElem?_set_self hx, h1]
    simp only
    by_cases hyy : y = y2
    · subst hyy
      rw [List.getElem?_set_self hy, h2]
      simp only
      have hii : i ≠ i2 := by
        rintro rfl
        exact hne rfl
      rw [List.getElem?_set_ne hii]
    · rw [List.getElem?_set_ne hyy]
  · rw [List.getElem?_set_ne hxx]

theorem raycastSample_writes_one_entry (d : Deps) (viewport : Plane) (s : Vector2)
    (ray limits : Vector3) (object : ProcessedVoxelObject) (spr : Sprite) (lighting : Vector3)
    (result out : RenderOutput) (thisX y i fuel : Nat)
    (h : raycastSample d viewport s ray limits object spr lighting result thisX y i fuel
      = .ok out) :
    ∀ x2 y2 i2, (x2, y2, i2) ≠ (thisX, y, i) → entryAt out x2 y2 i2 = entryAt result x2 y2 i2 := by
  intro x2 y2 i2 hne
  rcases raycastSample_ok _ _ _ _ _ _ _ _ _ _ _ _ _ _ h with rfl | ⟨c, e, v, h1, h2, _, rfl⟩
  · rfl
  · exact entryAt_set_other _ _ _ _ _ _ _ _ _ _ h1 h2 hne

theorem raycastSample_keeps_columns (d : Deps) (viewport : Plane) (s : Vector2)
    (ray limits : Vector3) (object : ProcessedVoxelObject) (spr : Sprite) (lighting : Vector3)
    (result out : RenderOutput) (thisX y i fuel : Nat)
    (h : raycastSample d viewport s ray limits object spr lighting result thisX y i fuel
      = .ok out) :
    out.length = result.length ∧ ∀ x2, x2 ≠ thisX → out[x2]? = result[x2]? := by
  rcases raycastSample_ok _ _ _ _ _ _ _ _ _ _ _ _ _ _ h with rfl | ⟨c, e, v, _, _, _, rfl⟩
  · exact ⟨rfl, fun _ _ => rfl⟩
  · exact ⟨List.length_set _ _ _, fun x2 hx => List.getElem?_set_ne (Ne.symm hx)⟩

theorem sampleLoop_keeps_columns (d : Deps) (viewport : Plane) (ray limits : Vector3)
    (object : ProcessedVoxelObject) (spr : Sprite) (lighting : Vector3) (thisX y fuel : Nat)
    (samples : List Vector2) :
    ∀ (i : Nat) (result out : RenderOutput),
      sampleLoop d viewport ray limits object spr lighting thisX y fuel samples i result
        = .ok out →
      out.length = result.length ∧ ∀ x2, x2 ≠ thisX → out[x2]? = result[x2]? := by
  induction samples with
  | nil =>
    intro i result out h
    simp only [sampleLoop] at h
    cases h
    exact ⟨rfl, fun _ _ => rfl⟩
  | cons s rest ih =>
    intro i result out h
    simp only [sampleLoop] at h
    obtain ⟨r1, hr1, hrest⟩ := bind_ok _ _ _ h
    obtain ⟨hl1, hk1⟩ := raycastSample_keeps_columns _ _ _ _ _ _ _ _ _ _ _ _ _ _ hr1
    obtain ⟨hl2, hk2⟩ := ih _ _ _ hrest
    exact ⟨hl2.trans hl1, fun x2 hx => (hk2 x2 hx).trans (hk1 x2 hx)⟩

theorem rowLoop_keeps_columns (d : Deps) (viewport : Plane) (ray limits : Vector3)
    (object : ProcessedVoxelObject) (spr : Sprite) (lighting : Vector3) (sampler : Samples)
    (thisX fuel : Nat) (remaining : Nat) :
    ∀ (y : Nat) (result out : RenderOutput),
      rowLoop d viewport ray limits object spr lighting sampler thisX fuel remaining y result
        = .ok out →
      out.length = result.length ∧ ∀ x2, x2 ≠ thisX → out[x2]? = result[x2]? := by
  induction remaining with
  | zero =>
    intro y result out h
    simp only [rowLoop] at h
    cases h
    exact ⟨rfl, fun _ _ => rfl⟩
  | succ n ih =>
    intro y result out h
    simp only [rowLoop] at h
    obtain ⟨sc, _, h2⟩ := bind_ok _ _ _ h
    obtain ⟨samples, _, h3⟩ := bind_ok _ _ _ h2
    obtain ⟨c0, _, h4⟩ := bind_ok _ _ _ h3
    obtain ⟨c1, _, h5⟩ := bind_ok _ _ _ h4
    obtain ⟨r1, hr1, h6⟩ := bind_ok _ _ _ h5
    obtain ⟨r2, hr2, h7⟩ := bind_ok _ _ _ h6
    obtain ⟨_, hr1eq⟩ := store_ok _ _ _ _ hr1
    obtain ⟨hl2, hk2⟩ := sampleLoop_keeps_columns _ _ _ _ _ _ _ _ _ _ _ _ _ _ hr2
    obtain ⟨hl3, hk3⟩ := ih _ _ _ h7
    refine ⟨?_, ?_⟩
    · rw [hl3, hl2, hr1eq, List.length_set]
    · intro x2 hx
      rw [hk3 x2 hx, hk2 x2 hx, hr1eq, List.getElem?_set_ne (Ne.symm hx)]

theorem renderColumn_writes_one_column (d : Deps) (viewport : Plane) (ray limits : Vector3)
    (object : ProcessedVoxelObject) (spr : Sprite) (lighting : Vector3) (sampler : Samples)
    (h fuel thisX : Nat) (result out : RenderOutput)
    (hok : renderColumn d viewport ray limits object spr lighting sampler h fuel result thisX
      = .ok out) :
    out.length = result.length ∧ ∀ x2, x2 ≠ thisX → out[x2]? = result[x2]? := by
  unfold renderColumn at hok
  obtain ⟨r1, hr1, h2⟩ := bind_ok _ _ _ hok
  obtain ⟨_, hr1eq⟩ := store_ok _ _ _ _ hr1
  obtain ⟨hl, hk⟩ := rowLoop_keeps_columns _ _ _ _ _ _ _ _ _ _ _ _ _ _ h2
  refine ⟨?_, ?_⟩
  · rw [hl, hr1eq, List.length_set]
  · intro x2 hx
    rw [hk x2 hx, hr1eq, List.getElem?_set_ne (Ne.symm hx)]

/-! ## A column as a run of statements -/

theorem runSteps_append (a b : List Step) :
    ∀ result, runSteps (a ++ b) result = (runSteps a result >>= runSteps b) := by
  induction a with
  | nil => intro result; rfl
  | cons step rest ih =>
    intro result
    simp only [List.cons_append, runSteps]
    cases step result with
    | error e => rfl
    | ok r => exact ih r

theorem sampleLoop_eq_runSteps (d : Deps) (viewport : Plane) (ray limits : Vector3)
    (object : ProcessedVoxelObject) (spr : Sprite) (lighting : Vector3) (thisX y fuel : Nat)
    (samples : List Vector2) :
    ∀ (i : Nat) (result : RenderOutput),
      sampleLoop d viewport ray limits object spr lighting thisX y fuel samples i result
        = runSteps (sampleSteps d viewport ray limits object spr lighting thisX y fuel samples i)
            result := by
  induction samples with
  | nil => intro i result; rfl
  | cons s rest ih =>
    intro i result
    simp only [sampleLoop, sampleSteps, runSteps]
    cases raycastSample d viewport s ray limits object spr lighting result thisX y i fuel with
    | error e => rfl
    | ok r => exact ih (i + 1) r

theorem rowLoop_eq_runSteps (d : Deps) (viewport : Plane) (ray limits : Vector3)
    (object : ProcessedVoxelObject) (spr : Sprite) (lighting : Vector3) (sampler : Samples)
    (thisX fuel : Nat) (remaining : Nat) :
    ∀ (y : Nat) (result : RenderOutput),
      rowLoop d viewport ray limits object spr lighting sampler thisX fuel remaining y result
        = runSteps (rowSteps d viewport ray limits object spr lighting sampler thisX fuel
            remaining y) result := by
  induction remaining with
  | zero => intro y result; rfl
  | succ n ih =>
    intro y result
    simp only [rowLoop, rowSteps, runSteps, allocCellStep]
    cases hsc : sampler[thisX]? with
    | none => simp [index, hsc, bind, Except.bind]
    | some sc =>
      cases hsm : sc[y]? with
      | none => simp [index, hsc, hsm, bind, Except.bind]
      | some samples =>
        have hg : (sampler.getD thisX []).getD y [] = samples := by
          simp [List.getD_eq_getElem?_getD, hsc, hsm]
        have h1 : index sampler thisX = .ok sc := (index_eq_ok _ _ _).mpr hsc
        have h2 : index sc y = .ok samples := (index_eq_ok _ _ _).mpr hsm
        rw [hg]
        simp only [h1, h2, bind, Except.bind]
        cases index result thisX with
        | error e => rfl
        | ok column =>
          simp only
          cases store column y (List.replicate samples.length RenderSample.zero) with
          | error e => rfl
          | ok column2 =>
            simp only
            cases store result thisX column2 with
            | error e => rfl
            | ok r1 =>
              simp only
              rw [runSteps_append, ← sampleLoop_eq_runSteps]
              cases sampleLoop d viewport ray limits object spr lighting thisX y fuel samples 0
                  r1 with
              | error e => rfl
              | ok r2 => exact ih (y + 1) r2

theorem renderColumn_eq_runSteps (d : Deps) (viewport : Plane) (ray limits : Vector3)
    (object : ProcessedVoxelObject) (spr : Sprite) (lighting : Vector3) (sampler : Samples)
    (h fuel thisX : Nat) (result : RenderOutput) :
    renderColumn d viewport ray limits object spr lighting sampler h fuel result thisX
      = runSteps (goroutineSteps d viewport ray limits object spr lighting sampler h fuel thisX)
          result := by
  simp only [renderColumn, goroutineSteps, runSteps, allocColumnStep]
  cases store result thisX (List.replicate h []) with
  | error e => rfl
  | ok r => exact rowLoop_eq_runSteps _ _ _ _ _ _ _ _ _ _ _ _ _

/-! ## Every statement of a goroutine is local to its column -/

theorem allocColumnStep_local (h x : Nat) :
    WritesOnlyColumn x (allocColumnStep h x) ∧ ReadsOnlyColumn x (allocColumnStep h x) := by
  constructor
  · intro result out hok
    obtain ⟨_, rfl⟩ := store_ok _ _ _ _ hok
    exact ⟨List.length_set _ _ _, fun x2 hx => List.getElem?_set_ne (Ne.symm hx)⟩
  · intro result result2 out hlen _ hok
    obtain ⟨hx, rfl⟩ := store_ok _ _ _ _ hok
    have hx2 : x < result2.length := by omega
    refine ⟨_, store_of_lt _ _ _ hx2, ?_⟩
    rw [List.getElem?_set_self hx, List.getElem?_set_self hx2]

theorem allocCellStep_local (sampler : Samples) (x y : Nat) :
    WritesOnlyColumn x (allocCellStep sampler x y) ∧
    ReadsOnlyColumn x (allocCellStep sampler x y) := by
  constructor
  · intro result out hok
    unfold allocCellStep at hok
    obtain ⟨sc, _, h2⟩ := bind_ok _ _ _ hok
    obtain ⟨samples, _, h3⟩ := bind_ok _ _ _ h2
    obtain ⟨c0, _, h4⟩ := bind_ok _ _ _ h3
    obtain ⟨c1, _, h5⟩ := bind_ok _ _ _ h4
    obtain ⟨_, rfl⟩ := store_ok _ _ _ _ h5
    exact ⟨List.length_set _ _ _, fun x2 hx => List.getElem?_set_ne (Ne.symm hx)⟩
  · intro result result2 out hlen hcol hok
    unfold allocCellStep at hok
    obtain ⟨sc, hsc, h2⟩ := bind_ok _ _ _ hok
    obtain ⟨samples, hsm, h3⟩ := bind_ok _ _ _ h2
    obtain ⟨c0, hc0, h4⟩ := bind_ok _ _ _ h3
    obtain ⟨c1, hc1, h5⟩ := bind_ok _ _ _ h4
    obtain ⟨hx, rfl⟩ := store_ok _ _ _ _ h5
    have hx2 : x < result2.length := by omega
    have hc02 : index result2 x = .ok c0 := by
      rw [index_eq_ok, ← hcol]
      exact (index_eq_ok _ _ _).mp hc0
    refine ⟨result2.set x c1, ?_, ?_⟩
    · simp only [allocCellStep, hsc, hsm, hc02, hc1, bind, Except.bind]
      exact store_of_lt _ _ _ hx2
    · rw [List.getElem?_set_self hx, List.getElem?_set_self hx2]

theorem raycastSample_local (d : Deps) (viewport : Plane) (s : Vector2) (ray limits : Vector3)
    (object : ProcessedVoxelObject) (spr : Sprite) (lighting : Vector3) (x y i fuel : Nat) :
    WritesOnlyColumn x
      (fun result => raycastSample d viewport s ray limits object spr lighting result x y i fuel)
    ∧ ReadsOnlyColumn x
      (fun result =>
        raycastSample d viewport s ray limits object spr lighting result x y i fuel) := by
  constructor
  · intro result out hok
    exact raycastSample_keeps_columns _ _ _ _ _ _ _ _ _ _ _ _ _ _ hok
  · intro result result2 out hlen hcol hok
    simp only at hok ⊢
    cases hg : (primaryRay d viewport s ray limits object spr).HasGeometry with
    | false =>
      rw [raycastSample_miss _ _ _ _ _ _ _ _ _ _ _ _ _ hg] at hok
      cases hok
      exact ⟨result2, raycastSample_miss _ _ _ _ _ _ _ _ _ _ _ _ _ hg, hcol.symm⟩
    | true =>
      obtain ⟨hfuel, hvec, element, hel⟩ :=
        raycastSample_completes _ _ _ _ _ _ _ _ _ _ _ _ _ _ hok hg
      have hok2 := hok
      unfold raycastSample at hok2
      simp only [hg, if_true] at hok2
      obtain ⟨shadowLoc, _, h2⟩ := bind_ok _ _ _ hok2
      obtain ⟨sample, hs, _⟩ := bind_ok _ _ _ h2
      obtain ⟨column, cell, h1, hy, hi⟩ := (sampleAt_eq_ok _ _ _ _ _).mp hs
      have hx : x < result.length := (List.getElem?_eq_some.mp h1).1
      have hx2 : x < result2.length := by omega
      rw [raycastSample_hit _ _ _ _ _ _ _ _ _ _ _ _ _ _ _ _ _ hg hfuel hvec hel h1 hy hi] at hok
      cases hok
      refine ⟨_, raycastSample_hit _ _ _ _ _ _ _ _ _ _ _ _ _ _ _ _ _ hg hfuel hvec hel
        (hcol ▸ h1) hy hi, ?_⟩
      rw [List.getElem?_set_self hx, List.getElem?_set_self hx2]

theorem sampleSteps_local (d : Deps) (viewport : Plane) (ray limits : Vector3)
    (object : ProcessedVoxelObject) (spr : Sprite) (lighting : Vector3) (x y fuel : Nat)
    (samples : List Vector2) :
    ∀ i, ∀ step ∈ sampleSteps d viewport ray limits object spr lighting x y fuel samples i,
      WritesOnlyColumn x step ∧ ReadsOnlyColumn x step := by
  induction samples with
  | nil => intro i step hstep; simp [sampleSteps] at hstep
  | cons s rest ih =>
    intro i step hstep
    simp only [sampleSteps, List.mem_cons] at hstep
    rcases hstep with rfl | hstep
    · exact raycastSample_local _ _ _ _ _ _ _ _ _ _ _ _
    · exact ih _ step hstep

theorem rowSteps_local (d : Deps) (viewport : Plane) (ray limits : Vector3)
    (object : ProcessedVoxelObject) (spr : Sprite) (lighting : Vector3) (sampler : Samples)
    (x fuel : Nat) (remaining : Nat) :
    ∀ y, ∀ step ∈ rowSteps d viewport ray limits object spr lighting sampler x fuel remaining y,
      WritesOnlyColumn x step ∧ ReadsOnlyColumn x step := by
  induction remaining with
  | zero => intro y step hstep; simp [rowSteps] at hstep
  | succ n ih =>
    intro y step hstep
    simp only [rowSteps, List.mem_cons, List.mem_append] at hstep
    rcases hstep with rfl | hstep | hstep
    · exact allocCellStep_local _ _ _
    · exact sampleSteps_local _ _ _ _ _ _ _ _ _ _ _ _ step hstep
    · exact ih _ step hstep

theorem goroutineSteps_local (d : Deps) (viewport : Plane) (ray limits : Vector3)
    (object : ProcessedVoxelObject) (spr : Sprite) (lighting : Vector3) (sampler : Samples)
    (h fuel x : Nat) :
    ∀ step ∈ goroutineSteps d viewport ray limits object spr lighting sampler h fuel x,
      WritesOnlyColumn x step ∧ ReadsOnlyColumn x step := by
  intro step hstep
  simp only [goroutineSteps, List.mem_cons] at hstep
  rcases hstep with rfl | hstep
  · exact allocColumnStep_local _ _
  · exact rowSteps_local d viewport ray limits object spr lighting sampler x fuel h 0 step hstep

/-! ## The run of an interleaving -/

theorem runSteps_transfer (x : Nat) (steps : List Step)
    (hloc : ∀ step ∈ steps, WritesOnlyColumn x step ∧ ReadsOnlyColumn x step) :
    ∀ (result result2 out : RenderOutput), result.length = result2.length →
      result[x]? = result2[x]? → runSteps steps result = .ok out →
      ∃ out2, runSteps steps result2 = .ok out2 ∧ out2[x]? = out[x]? := by
  induction steps with
  | nil =>
    intro result result2 out _ hcol hok
    simp only [runSteps] at hok
    cases hok
    exact ⟨result2, rfl, hcol.symm⟩
  | cons step rest ih =>
    intro result result2 out hlen hcol hok
    simp only [runSteps] at hok
    obtain ⟨r1, hr1, hrest⟩ := bind_ok _ _ _ hok
    obtain ⟨hw, hr⟩ := hloc step (List.mem_cons_self _ _)
    obtain ⟨r2, hr2, hcol2⟩ := hr result result2 r1 hlen hcol hr1
    have hlen2 : r1.length = r2.length := by
      rw [(hw result r1 hr1).1, (hw result2 r2 hr2).1, hlen]
    obtain ⟨out2, hout2, hc⟩ := ih (fun s hs => hloc s (List.mem_cons_of_mem _ hs)) r1 r2 out
      hlen2 hcol2.symm hrest
    exact ⟨out2, by simp only [runSteps, hr2, bind, Except.bind]; exact hout2, hc⟩

theorem projection_local (schedule : List (Nat × Step))
    (hloc : ∀ p ∈ schedule, WritesOnlyColumn p.1 p.2 ∧ ReadsOnlyColumn p.1 p.2) (x : Nat) :
    ∀ step ∈ (schedule.filter (fun p => p.1 == x)).map Prod.snd,
      WritesOnlyColumn x step ∧ ReadsOnlyColumn x step := by
  intro step hstep
  obtain ⟨p, hp, rfl⟩ := List.mem_map.mp hstep
  obtain ⟨hmem, htag⟩ := List.mem_filter.mp hp
  have hx : p.1 = x := by simpa using htag
  rw [← hx]
  exact hloc p hmem

theorem runSteps_schedule (schedule : List (Nat × Step)) :
    (∀ p ∈ schedule, WritesOnlyColumn p.1 p.2 ∧ ReadsOnlyColumn p.1 p.2) →
    ∀ (result out : RenderOutput),
      runSteps (schedule.map Prod.snd) result = .ok out ↔
        out.length = result.length ∧
        ∀ x, ∃ o, runSteps ((schedule.filter (fun p => p.1 == x)).map Prod.snd) result = .ok o ∧
          out[x]? = o[x]? := by
  induction schedule with
  | nil =>
    intro _ result out
    simp only [List.map_nil, List.filter_nil, runSteps]
    constructor
    · intro h
      cases h
      exact ⟨rfl, fun x => ⟨_, rfl, rfl⟩⟩
    · rintro ⟨_, h⟩
      have : out = result := by
        apply List.ext_getElem?
        intro x
        obtain ⟨o, ho, hx⟩ := h x
        cases ho
        exact hx
      rw [this]
  | cons p rest ih =>
    intro hloc result out
    have hlocRest : ∀ q ∈ rest, WritesOnlyColumn q.1 q.2 ∧ ReadsOnlyColumn q.1 q.2 :=
      fun q hq => hloc q (List.mem_cons_of_mem _ hq)
    obtain ⟨hw, _⟩ := hloc p (List.mem_cons_self _ _)
    have hproj : ∀ x, (List.filter (fun q : Nat × Step => q.1 == x) (p :: rest)).map Prod.snd
        = if p.1 = x then p.2 :: ((rest.filter (fun q => q.1 == x)).map Prod.snd)
          else (rest.filter (fun q => q.1 == x)).map Prod.snd := by
      intro x
      by_cases hx : p.1 = x
      · rw [if_pos hx, List.filter_cons_of_pos (by simpa using hx), List.map_cons]
      · rw [if_neg hx, List.filter_cons_of_neg (by simpa using hx)]
    simp only [List.map_cons, runSteps]
    constructor
    · intro hok
      obtain ⟨r1, hr1, hrest⟩ := bind_ok _ _ _ hok
      obtain ⟨hlen1, hkeep⟩ := hw result r1 hr1
      obtain ⟨hlen, hall⟩ := (ih hlocRest r1 out).mp hrest
      refine ⟨hlen.trans hlen1, ?_⟩
      intro x
      obtain ⟨o, ho, hx⟩ := hall x
      rw [hproj]
      by_cases hpx : p.1 = x
      · rw [if_pos hpx]
        exact ⟨o, by simp only [runSteps, hr1, bind, Except.bind]; exact ho, hx⟩
      · rw [if_neg hpx]
        obtain ⟨o2, ho2, hc⟩ := runSteps_transfer x _ (projection_local rest hlocRest x) r1
          result o hlen1 (hkeep x (Ne.symm hpx)) ho
        exact ⟨o2, ho2, hx.trans hc.symm⟩
    · rintro ⟨hlen, hall⟩
      obtain ⟨o0, ho0, _⟩ := hall p.1
      rw [hproj, if_pos rfl] at ho0
      simp only [runSteps] at ho0
      obtain ⟨r1, hr1, _⟩ := bind_ok _ _ _ ho0
      obtain ⟨hlen1, hkeep⟩ := hw result r1 hr1
      have hrest : runSteps (rest.map Prod.snd) r1 = .ok out := by
        rw [ih hlocRest r1 out]
        refine ⟨hlen.trans hlen1.symm, ?_⟩
        intro x
        obtain ⟨o, ho, hx⟩ := hall x
        rw [hproj] at ho
        by_cases hpx : p.1 = x
        · rw [if_pos hpx] at ho
          simp only [runSteps, hr1, bind, Except.bind] at ho
          exact ⟨o, ho, hx⟩
        · rw [if_neg hpx] at ho
          obtain ⟨o2, ho2, hc⟩ := runSteps_transfer x _ (projection_local rest hlocRest x)
            result r1 o hlen1.symm (hkeep x (Ne.symm hpx)).symm ho
          exact ⟨o2, ho2, hx.trans hc.symm⟩
      simp only [hr1, bind, Except.bind]
      exact hrest

/-! ## The column-parallel render -/

theorem renderColumn_completes (d : Deps) (viewport : Plane) (ray limits : Vector3)
    (object : ProcessedVoxelObject) (spr : Sprite) (lighting : Vector3) (sampler : Samples)
    (h fuel x : Nat) (result out : RenderOutput) (column : List Sample)
    (hcol : sampler[x]? = some column) (hlen : column.length = h)
    (hok : renderColumn d viewport ray limits object spr lighting sampler h fuel result x
      = .ok out) :
    ∀ cell ∈ column, ∀ s ∈ cell, Completes d viewport ray limits object spr lighting fuel s := by
  unfold renderColumn at hok
  obtain ⟨r0, _, h3⟩ := bind_ok _ _ _ hok
  intro cell hcell
  exact rowLoop_completes d viewport ray limits object spr lighting sampler x fuel column
    hcol h 0 _ _ h3 cell (by rw [List.drop_zero, List.take_of_length_le (by omega)]; exact hcell)

theorem GetRaycastOutputParallel_ok_iff (d : Deps) (object : ProcessedVoxelObject)
    (m : Manifest) (spr : Sprite) (sampler : Samples) (fuel h : Nat)
    (schedule : List (Nat × Step)) (out : RenderOutput)
    (hcols : 0 < sampler.length) (hrect : Rectangular sampler h)
    (hsched : IsInterleaving sampler.length (renderSteps d object m spr sampler h fuel)
      schedule) :
    GetRaycastOutputParallel sampler schedule = .ok out ↔
      (∀ column ∈ sampler, ∀ cell ∈ column, ∀ s ∈ cell,
        Completes d (renderViewport d object m spr) (renderRay d m spr) (renderLimits object)
          object spr (renderLighting d m spr) fuel s) ∧
      out = sampler.map (fun column => column.map (fun samples => samples.map
        (sampleValue d (renderViewport d object m spr) (renderRay d m spr)
          (renderLimits object) object spr (renderLighting d m spr)))) := by
  have h0 : sampler[0]? = some sampler[0] := List.getElem?_eq_getElem hcols
  have hh : sampler.Height = .ok h := by
    rw [Height_eq sampler _ h0, hrect _ (List.getElem?_mem h0)]
  obtain ⟨htags, hproj⟩ := hsched
  have hloc : ∀ p ∈ schedule, WritesOnlyColumn p.1 p.2 ∧ ReadsOnlyColumn p.1 p.2 := by
    intro p hp
    have hmem : p.2 ∈ (schedule.filter (fun q => q.1 == p.1)).map Prod.snd :=
      List.mem_map.mpr ⟨p, List.mem_filter.mpr ⟨hp, by simp⟩, rfl⟩
    rw [hproj p.1 (htags p hp)] at hmem
    exact goroutineSteps_local _ _ _ _ _ _ _ _ _ _ _ p.2 hmem
  have hrun : GetRaycastOutputParallel sampler schedule
      = runSteps (schedule.map Prod.snd) (List.replicate sampler.length []) := by
    simp only [GetRaycastOutputParallel, hh, bind, Except.bind]
  have hcolumn : ∀ x, x < sampler.length →
      runSteps ((schedule.filter (fun p => p.1 == x)).map Prod.snd)
          (List.replicate sampler.length [])
        = renderColumn d (renderViewport d object m spr) (renderRay d m spr)
            (renderLimits object) object spr (renderLighting d m spr) sampler h fuel
            (List.replicate sampler.length []) x := by
    intro x hx
    rw [hproj x hx, renderColumn_eq_runSteps]
    rfl
  have hnone : ∀ x, ¬ x < sampler.length →
      (schedule.filter (fun p => p.1 == x)).map Prod.snd = [] := by
    intro x hx
    rw [List.map_eq_nil_iff, List.filter_eq_nil_iff]
    intro p hp
    have := htags p hp
    simp only [beq_iff_eq]
    omega
  rw [hrun, runSteps_schedule schedule hloc]
  constructor
  · rintro ⟨hlen, hall⟩
    rw [List.length_replicate] at hlen
    have hc : ∀ column ∈ sampler, ∀ cell ∈ column, ∀ s ∈ cell,
        Completes d (renderViewport d object m spr) (renderRay d m spr) (renderLimits object)
          object spr (renderLighting d m spr) fuel s := by
      intro column hcol
      obtain ⟨x, hx⟩ := List.mem_iff_getElem?.mp hcol
      have hlt : x < sampler.length := (List.getElem?_eq_some.mp hx).1
      obtain ⟨o, ho, _⟩ := hall x
      rw [hcolumn x hlt] at ho
      exact renderColumn_completes _ _ _ _ _ _ _ _ _ _ _ _ _ column hx (hrect _ hcol) ho
    refine ⟨hc, ?_⟩
    apply List.ext_getElem?
    intro x
    obtain ⟨o, ho, hx⟩ := hall x
    by_cases hlt : x < sampler.length
    · have hsc : sampler[x]? = some sampler[x] := List.getElem?_eq_getElem hlt
      have hmem : sampler[x] ∈ sampler := List.getElem?_mem hsc
      rw [hcolumn x hlt, renderColumn_fresh _ _ _ _ _ _ _ _ _ _ _ _ sampler[x] hsc
        (hrect _ hmem) (by rw [List.length_replicate]; exact hlt) (hc _ hmem)] at ho
      cases ho
      rw [hx, List.getElem?_set_self (by rw [List.length_replicate]; exact hlt),
        List.getElem?_map, hsc]
      rfl
    · rw [List.getElem?_eq_none (by omega), List.getElem?_eq_none (by simp; omega)]
  · rintro ⟨hc, rfl⟩
    refine ⟨by simp, ?_⟩
    intro x
    by_cases hlt : x < sampler.length
    · have hsc : sampler[x]? = some sampler[x] := List.getElem?_eq_getElem hlt
      have hmem : sampler[x] ∈ sampler := List.getElem?_mem hsc
      have hfresh := renderColumn_fresh d (renderViewport d object m spr) (renderRay d m spr)
        (renderLimits object) object spr (renderLighting d m spr) sampler h fuel x
        (List.replicate sampler.length []) sampler[x] hsc
        (hrect _ hmem) (by rw [List.length_replicate]; exact hlt) (hc _ hmem)
      refine ⟨_, (hcolumn x hlt).trans hfresh, ?_⟩
      rw [List.getElem?_set_self (by rw [List.length_replicate]; exact hlt),
        List.getElem?_map, hsc]
      rfl
    · refine ⟨List.replicate sampler.length [], by rw [hnone x hlt]; rfl, ?_⟩
      rw [List.getElem?_eq_none (by simp; omega), List.getElem?_eq_none (by simp; omega)]

theorem demoGridTwoColumns_rectangular : Rectangular demoGridTwoColumns 1 := by
  simp [Rectangular, demoGridTwoColumns]

theorem demoTwoColumns_completes : ∀ column ∈ demoGridTwoColumns, ∀ cell ∈ column, ∀ s ∈ cell,
    Completes demoDeps (renderViewport demoDeps demoObject demoManifest demoSprite)
      (renderRay demoDeps demoManifest demoSprite) (renderLimits demoObject) demoObject
      demoSprite (renderLighting demoDeps demoManifest demoSprite) 2 s := by
  intro column hcol cell hcell s hs hhit
  refine ⟨le_refl _, ?_, ?_⟩
  · simp [demoDeps, renderLighting, Zero, Vector3.Subtract]
  · simp only [demoGridTwoColumns, List.mem_cons, List.mem_singleton, List.not_mem_nil,
      or_false] at hcol
    rcases hcol with rfl | rfl
    · simp only [List.mem_singleton] at hcell
      subst hcell
      simp only [List.mem_singleton] at hs
      subst hs
      exact ⟨demoElement, by
        simp [primaryRay, demoDeps, elementAt, index, demoObject, bind, Except.bind]⟩
    · simp only [List.mem_singleton] at hcell
      subst hcell
      simp only [List.mem_singleton] at hs
      subst hs
      simp [primaryRay, demoDeps] at hhit

theorem demoSchedule_interleaving :
    IsInterleaving demoGridTwoColumns.length
      (renderSteps demoDeps demoObject demoManifest demoSprite demoGridTwoColumns 1 2)
      demoSchedule := by
  constructor
  · intro p hp
    simp only [demoSchedule, List.mem_cons, List.mem_singleton, List.not_mem_nil, or_false] at hp
    rcases hp with rfl | rfl | rfl | rfl | rfl | rfl <;> decide
  · intro x hx
    have hx2 : x < 2 := hx
    interval_cases x <;> rfl

/-- Claim C14. For a rectangular sample grid with at least one column: a
completed `raycastSample` for `(x, y, i)` changes no entry of the buffer other
than `result[x][y][i]`; a completed evaluation of column `x` keeps the number
of columns and every column other than `x`; under any interleaving of the
goroutines' statements the column-parallel run returns an output exactly when
the sequential evaluation does, in any order that visits the columns of the
grid, and then the same output; the sequential evaluation in any such order
agrees in the same way with `GetRaycastOutput`; and the render returns when
every per-sample evaluation completes. -/
theorem parallel_equals_sequential (d : Deps) (object : ProcessedVoxelObject) (m : Manifest)
    (spr : Sprite) (sampler : Samples) (fuel h : Nat)
    (hcols : 0 < sampler.length) (hrect : Rectangular sampler h) :
    (∀ (s : Vector2) (result out : RenderOutput) (x y i : Nat),
      raycastSample d (renderViewport d object m spr) s (renderRay d m spr)
        (renderLimits object) object spr (renderLighting d m spr) result x y i fuel = .ok out →
      ∀ x2 y2 i2, (x2, y2, i2) ≠ (x, y, i) →
        entryAt out x2 y2 i2 = entryAt result x2 y2 i2) ∧
    (∀ (result out : RenderOutput) (x : Nat),
      renderColumn d (renderViewport d object m spr) (renderRay d m spr) (renderLimits object)
        object spr (renderLighting d m spr) sampler h fuel result x = .ok out →
      out.length = result.length ∧ ∀ x2, x2 ≠ x → out[x2]? = result[x2]?) ∧
    (∀ (schedule : List (Nat × Step)) (order : List Nat) (out : RenderOutput),
      IsInterleaving sampler.length (renderSteps d object m spr sampler h fuel) schedule →
      (∀ x, x ∈ order ↔ x < sampler.length) →
      (GetRaycastOutputParallel sampler schedule = .ok out ↔
        GetRaycastOutputSequential d object m spr sampler fuel order = .ok out)) ∧
    (∀ (order : List Nat) (out : RenderOutput), (∀ x, x ∈ order ↔ x < sampler.length) →
      (GetRaycastOutputSequential d object m spr sampler fuel order = .ok out ↔
        GetRaycastOutput d object m spr sampler fuel = .ok out)) ∧
    ((∀ column ∈ sampler, ∀ cell ∈ column, ∀ s ∈ cell,
        Completes d (renderViewport d object m spr) (renderRay d m spr) (renderLimits object)
          object spr (renderLighting d m spr) fuel s) →
      ∃ out, GetRaycastOutput d object m spr sampler fuel = .ok out) := by
  refine ⟨?_, ?_, ?_, ?_, ?_⟩
  · intro s result out x y i hok
    exact raycastSample_writes_one_entry _ _ _ _ _ _ _ _ _ _ _ _ _ _ hok
  · intro result out x hok
    exact renderColumn_writes_one_column _ _ _ _ _ _ _ _ _ _ _ _ _ hok
  · intro schedule order out hsched horder
    rw [GetRaycastOutputParallel_ok_iff d object m spr sampler fuel h schedule out hcols hrect
        hsched,
      GetRaycastOutputSequential_ok_iff d object m spr sampler fuel h order out hcols hrect
        horder]
  · intro order out horder
    rw [GetRaycastOutputSequential_ok_iff d object m spr sampler fuel h order out hcols hrect
        horder,
      GetRaycastOutput_ok_iff d object m spr sampler fuel h out hcols hrect]
  · intro hc
    exact ⟨_, GetRaycastOutput_eq d object m spr sampler fuel h hcols hrect hc⟩

/-- The two-column example: `GetRaycastOutput`, the run under the alternating
schedule and the sequential evaluations in both column orders all return the
same output. -/
theorem parallel_equals_sequential_witness :
    ∃ out, GetRaycastOutput demoDeps demoObject demoManifest demoSprite demoGridTwoColumns 2
        = .ok out ∧
      GetRaycastOutputParallel demoGridTwoColumns demoSchedule = .ok out ∧
      GetRaycastOutputSequential demoDeps demoObject demoManifest demoSprite demoGridTwoColumns 2
        [1, 0] = .ok out ∧
      GetRaycastOutputSequential demoDeps demoObject demoManifest demoSprite demoGridTwoColumns 2
        [0, 1] = .ok out := by
  have t := parallel_equals_sequential demoDeps demoObject demoManifest demoSprite
    demoGridTwoColumns 2 1 (by decide) demoGridTwoColumns_rectangular
  obtain ⟨out, hout⟩ := t.2.2.2.2 demoTwoColumns_completes
  have h10 : ∀ x, x ∈ [1, 0] ↔ x < demoGridTwoColumns.length := by
    intro x
    simp only [List.mem_cons, List.mem_singleton, List.not_mem_nil, or_false]
    show x = 1 ∨ x = 0 ↔ x < 2
    omega
  have h01 : ∀ x, x ∈ [0, 1] ↔ x < demoGridTwoColumns.length := by
    intro x
    simp only [List.mem_cons, List.mem_singleton, List.not_mem_nil, or_false]
    show x = 0 ∨ x = 1 ↔ x < 2
    omega
  have hs10 := (t.2.2.2.1 [1, 0] out h10).mpr hout
  exact ⟨out, hout, (t.2.2.1 demoSchedule [1, 0] out demoSchedule_interleaving h10).mpr hs10,
    hs10, (t.2.2.2.1 [0, 1] out h01).mpr hout⟩

end Gorender
